import Mathlib

/-!
The deployment generator of the scenario program lena-dual-stripe.

A shallow embedding of the deployment geometry of
`scratch/lena-dual-stripe.cc`: the box overlap test, the femtocell block
allocator with its bounded rejection sampling, and the macro coverage box
computed at the start of `main`.

Modelling conventions.

* A C++ `double` is a rational number. In the geometry (the boxes, the
  candidates of the allocator, the overlap test) its arithmetic is exact. In the
  three node counts, where `round` turns a `double` into an integer, every
  operation is rounded to the nearest binary64 value, and an overflow is
  `none`.
* A C++ `uint32_t` is a natural number below `2 ^ 32`; every arithmetic
  operation on it is reduced modulo `2 ^ 32`.
* A failed `NS_ASSERT_MSG` ends the program: the operations return
  `Except Abort _`, and the `Abort` value records the state in which the
  assertion failed.
* A `UniformRandomVariable` is the sequence of the values it will return
  together with the number of values already taken from it.
* The conversion of a `double` to `uint32_t` is defined only when the value is
  representable; a count whose conversion is undefined is `none`.
* A decimal literal of the source, such as `0.00002`, is read as that decimal
  number; the node counts round their ratios and the density to the nearest
  `double` before they use them. `sqrt(0.75)` is a parameter of the definitions
  that use it.
-/

namespace LenaDualStripe

/-- The library type `Box`, an axis-aligned region with the six `double` fields
`xMin, xMax, yMin, yMax, zMin, zMax`. A default-constructed box is taken to be
all zero; only its z fields, which no operation here reads, keep that value. -/
structure Box where
  xMin : ℚ := 0
  xMax : ℚ := 0
  yMin : ℚ := 0
  yMax : ℚ := 0
  zMin : ℚ := 0
  zMax : ℚ := 0
  deriving DecidableEq, Repr

/-- The function `AreOverlapping(Box a, Box b)`: the negation of the four
separation tests. -/
def AreOverlapping (a b : Box) : Bool :=
  !(decide (a.xMin > b.xMax) || decide (b.xMin > a.xMax) ||
    decide (a.yMin > b.yMax) || decide (b.yMin > a.yMax))

/-- Modelled from the spec: the seeded uniform random variable of the
simulator library (class `UniformRandomVariable`, which the scenario programs
only use), "one logical stream per random quantity", "producing reproducible
sequences".
`stream` is the sequence of values the variable returns and `taken` counts the
values already returned; `Min` and `Max` are the two configured attributes. -/
structure UniformRandomVariable where
  Min : ℚ := 0
  Max : ℚ := 1
  stream : ℕ → ℚ
  taken : ℕ := 0

/-- The call `GetValue()`: the next value of the stream, and the advanced
variable. -/
def UniformRandomVariable.GetValue (v : UniformRandomVariable) :
    ℚ × UniformRandomVariable :=
  (v.stream v.taken, { v with taken := v.taken + 1 })

/-- The attributes `FemtocellBlockAllocator::Create()` sets on the
`GridBuildingAllocator` it creates, and the argument of its `Create` call. -/
structure GridBuildingAllocator where
  GridWidth : ℕ
  LengthX : ℚ
  LengthY : ℚ
  DeltaX : ℚ
  DeltaY : ℚ
  Height : ℚ
  NRoomsX : ℕ
  NRoomsY : ℕ
  NFloors : ℕ
  MinX : ℚ
  MinY : ℚ
  created : ℕ
  deriving DecidableEq, Repr

/-- The class `FemtocellBlockAllocator`. The fields are the members of the
class; `m_gridBuildingAllocators` is not a member: it logs, in order, the grid
building allocators that `Create()` has run. -/
structure FemtocellBlockAllocator where
  m_area : Box
  m_nApartmentsX : ℕ
  m_nFloors : ℕ
  m_previousBlocks : List Box
  m_xSize : ℚ
  m_ySize : ℚ
  m_xMinVar : UniformRandomVariable
  m_yMinVar : UniformRandomVariable
  m_gridBuildingAllocators : List GridBuildingAllocator

/-- The constructor `FemtocellBlockAllocator(area, nApartmentsX, nFloors)`.
`xStream` and `yStream` are the streams given to the two random variables
that the constructor creates. -/
def FemtocellBlockAllocator.new (area : Box) (nApartmentsX nFloors : ℕ)
    (xStream yStream : ℕ → ℚ) : FemtocellBlockAllocator :=
  let m_xSize : ℚ := (((nApartmentsX * 10 + 20) % 2 ^ 32 : ℕ) : ℚ)
  let m_ySize : ℚ := 70
  { m_area := area
    m_nApartmentsX := nApartmentsX
    m_nFloors := nFloors
    m_previousBlocks := []
    m_xSize := m_xSize
    m_ySize := m_ySize
    m_xMinVar := { Min := area.xMin, Max := area.xMax - m_xSize, stream := xStream }
    m_yMinVar := { Min := area.yMin, Max := area.yMax - m_ySize, stream := yStream }
    m_gridBuildingAllocators := [] }

/-- The loop of `OverlapsWithAnyPrevious` over the list of blocks. -/
def OverlapsWithAnyPrevious.loop (box : Box) : List Box → Bool
  | [] => false
  | it :: rest => if AreOverlapping it box then true else OverlapsWithAnyPrevious.loop box rest

/-- The method `FemtocellBlockAllocator::OverlapsWithAnyPrevious(Box box)`. -/
def OverlapsWithAnyPrevious (s : FemtocellBlockAllocator) (box : Box) : Bool :=
  OverlapsWithAnyPrevious.loop box s.m_previousBlocks

/-- The message of the assertion in `Create()`. -/
def tooManyAttempts : String :=
  "Too many failed attempts to position apartment block. Too many blocks? Too small area?"

/-- Modelled from the spec: the effect of a failed `NS_ASSERT_MSG` (a macro of
the simulator library), "abort the whole generation run with a fatal,
descriptive error". The value records the message, the value of `attempt` and
the allocator at that moment. -/
structure Abort where
  msg : String
  attempt : ℕ
  allocator : FemtocellBlockAllocator

/-- The `do ... while` loop of `Create()`, entered with the current values of
`box` and `attempt`. It returns the allocator (whose random variables have
advanced), the box and `attempt` at the exit of the loop. -/
def Create.doWhile (s : FemtocellBlockAllocator) (box : Box) (attempt : ℕ) :
    Except Abort (FemtocellBlockAllocator × Box × ℕ) :=
  if attempt < 100 then
    let gx := s.m_xMinVar.GetValue
    let s := { s with m_xMinVar := gx.2 }
    let box := { box with xMin := gx.1 }
    let box := { box with xMax := box.xMin + s.m_xSize }
    let gy := s.m_yMinVar.GetValue
    let s := { s with m_yMinVar := gy.2 }
    let box := { box with yMin := gy.1 }
    let box := { box with yMax := box.yMin + s.m_ySize }
    let attempt := attempt + 1
    if OverlapsWithAnyPrevious s box then Create.doWhile s box attempt
    else .ok (s, box, attempt)
  else .error { msg := tooManyAttempts, attempt := attempt, allocator := s }
termination_by 100 - attempt

/-- The part of `Create()` after the loop: the accepted box is pushed to the
back of `m_previousBlocks`, and a grid building allocator is configured and
asked for two buildings. -/
def Create.finish (s : FemtocellBlockAllocator) (box : Box) : FemtocellBlockAllocator :=
  let gridBuildingAllocator : GridBuildingAllocator :=
    { GridWidth := 1
      LengthX := (((10 * s.m_nApartmentsX) % 2 ^ 32 : ℕ) : ℚ)
      LengthY := 10 * 2
      DeltaX := 10
      DeltaY := 10
      Height := (((3 * s.m_nFloors) % 2 ^ 32 : ℕ) : ℚ)
      NRoomsX := s.m_nApartmentsX
      NRoomsY := 2
      NFloors := s.m_nFloors
      MinX := box.xMin + 10
      MinY := box.yMin + 10
      created := 2 }
  { s with
    m_previousBlocks := s.m_previousBlocks ++ [box]
    m_gridBuildingAllocators := s.m_gridBuildingAllocators ++ [gridBuildingAllocator] }

/-- The method `FemtocellBlockAllocator::Create()`: the loop, then the
recording of the accepted box. -/
def Create (s : FemtocellBlockAllocator) : Except Abort FemtocellBlockAllocator :=
  match Create.doWhile s {} 0 with
  | .error e => .error e
  | .ok (s, box, _) => .ok (Create.finish s box)

/-- The method `FemtocellBlockAllocator::Create(uint32_t n)`: the `for` loop, by the
number of iterations still to run. -/
def CreateN : ℕ → FemtocellBlockAllocator → Except Abort FemtocellBlockAllocator
  | 0, s => .ok s
  | n + 1, s =>
    match Create s with
    | .error e => .error e
    | .ok s => CreateN n s

/-- The derived row count `nMacroEnbSitesY` of `main`, computed in the branch
`nMacroEnbSites > 0`, in `uint32_t` arithmetic. -/
def nMacroEnbSitesY (nMacroEnbSites nMacroEnbSitesX : ℕ) : ℕ :=
  let currentSite := (nMacroEnbSites + 2 ^ 32 - 1) % 2 ^ 32
  let biRowIndex := currentSite / ((nMacroEnbSitesX + nMacroEnbSitesX + 1) % 2 ^ 32)
  let biRowRemainder := currentSite % ((nMacroEnbSitesX + nMacroEnbSitesX + 1) % 2 ^ 32)
  let rowIndex := (biRowIndex * 2 + 1) % 2 ^ 32
  let rowIndex := if biRowRemainder ≥ nMacroEnbSitesX then (rowIndex + 1) % 2 ^ 32 else rowIndex
  rowIndex

/-- The box `macroUeBox` that `main` computes from the scenario parameters.
`sqrt075` stands for the `double` that the library call `sqrt(0.75)` returns. -/
def macroUeBox (nMacroEnbSites nMacroEnbSitesX : ℕ) (interSiteDistance areaMarginFactor : ℚ)
    (sqrt075 : ℚ) : Box :=
  let ueZ : ℚ := 1.5
  if nMacroEnbSites > 0 then
    let nMacroEnbSitesY := nMacroEnbSitesY nMacroEnbSites nMacroEnbSitesX
    { xMin := -areaMarginFactor * interSiteDistance
      xMax := ((nMacroEnbSitesX : ℚ) + areaMarginFactor) * interSiteDistance
      yMin := -areaMarginFactor * interSiteDistance
      yMax := (((nMacroEnbSitesY + 2 ^ 32 - 1) % 2 ^ 32 : ℕ) : ℚ) * interSiteDistance * sqrt075 +
        areaMarginFactor * interSiteDistance
      zMin := ueZ
      zMax := ueZ }
  else
    { xMin := 0, xMax := 150, yMin := 0, yMax := 150, zMin := ueZ, zMax := ueZ }

/-! ## Auxiliary notions used to state the properties -/

/-- The variable after `k` further values have been taken from it. -/
def UniformRandomVariable.skip (v : UniformRandomVariable) (k : ℕ) : UniformRandomVariable :=
  { v with taken := v.taken + k }

/-- The allocator after `k` further values have been taken from each of its two
random variables; nothing else changes. -/
def FemtocellBlockAllocator.afterDraws (s : FemtocellBlockAllocator) (k : ℕ) :
    FemtocellBlockAllocator :=
  { s with m_xMinVar := s.m_xMinVar.skip k, m_yMinVar := s.m_yMinVar.skip k }

/-- The box that the loop body writes into `box` when it uses the values number
`k` (counted from zero, from the current position) of the two streams. -/
def candidateOf (box : Box) (s : FemtocellBlockAllocator) (k : ℕ) : Box :=
  { box with
    xMin := s.m_xMinVar.stream (s.m_xMinVar.taken + k)
    xMax := s.m_xMinVar.stream (s.m_xMinVar.taken + k) + s.m_xSize
    yMin := s.m_yMinVar.stream (s.m_yMinVar.taken + k)
    yMax := s.m_yMinVar.stream (s.m_yMinVar.taken + k) + s.m_ySize }

/-- Candidate number `k` (counted from zero) of a call of `Create()`, whose
`box` starts default-constructed. -/
def candidate (s : FemtocellBlockAllocator) (k : ℕ) : Box :=
  candidateOf {} s k

/-- One call that a client makes on the allocator: `Create()` or `Create(n)`. -/
inductive Call where
  | create
  | createN (n : ℕ)
  deriving DecidableEq, Repr

/-- The effect of one call. -/
def Call.run : Call → FemtocellBlockAllocator → Except Abort FemtocellBlockAllocator
  | .create, s => Create s
  | .createN n, s => CreateN n s

/-- The effect of a sequence of calls; the first abort ends the program. -/
def runCalls : List Call → FemtocellBlockAllocator → Except Abort FemtocellBlockAllocator
  | [], s => .ok s
  | c :: cs, s =>
    match c.run s with
    | .error e => .error e
    | .ok s => runCalls cs s

/-- Every value of the stream lies between the configured `Min` and `Max`. -/
def UniformRandomVariable.InRange (v : UniformRandomVariable) : Prop :=
  ∀ i, v.Min ≤ v.stream i ∧ v.stream i ≤ v.Max

/-- The box `b` lies inside `area` (in the horizontal plane). -/
def ContainedIn (area b : Box) : Prop :=
  area.xMin ≤ b.xMin ∧ b.xMax ≤ area.xMax ∧ area.yMin ≤ b.yMin ∧ b.yMax ≤ area.yMax

/-- The box `b` has the size of a block, `xSize` by `ySize`. -/
def IsBlock (xSize ySize : ℚ) (b : Box) : Prop :=
  b.xMax = b.xMin + xSize ∧ b.yMax = b.yMin + ySize

/-- No two boxes at distinct positions of the list overlap. -/
def NoOverlap (l : List Box) : Prop :=
  ∀ (i j : Fin l.length), i ≠ j → AreOverlapping (l.get i) (l.get j) = false

/-- The area holds at most `k` pairwise non-overlapping blocks of the given
size. -/
def HoldsAtMost (area : Box) (xSize ySize : ℚ) (k : ℕ) : Prop :=
  ∀ l : List Box, (∀ b ∈ l, IsBlock xSize ySize b ∧ ContainedIn area b) → NoOverlap l →
    l.length ≤ k

/-! ### Concrete configurations -/

/-- The area of the scenario of the specification, `Box(0, 1000, 0, 1000, 1.5, 1.5)`. -/
def scenarioArea : Box :=
  { xMin := 0, xMax := 1000, yMin := 0, yMax := 1000, zMin := 1.5, zMax := 1.5 }

/-- The fallback area of `main`, `Box(0, 150, 0, 150, 1.5, 1.5)`. -/
def fallbackArea : Box :=
  { xMin := 0, xMax := 150, yMin := 0, yMax := 150, zMin := 1.5, zMax := 1.5 }

/-- A stream whose first `n` values are `a` and whose later values are all `b`. -/
def stepStream (n : ℕ) (a b : ℚ) : ℕ → ℚ := fun i => if i < n then a else b

/-- The grid building allocator that `Create()` runs for a block whose corner is
`(xMin, yMin)`, with `nApartmentsX = 10` and `nFloors = 1`. -/
def gridFor (xMin yMin : ℚ) : GridBuildingAllocator :=
  { GridWidth := 1, LengthX := 100, LengthY := 20, DeltaX := 10, DeltaY := 10, Height := 3
    NRoomsX := 10, NRoomsY := 2, NFloors := 1, MinX := xMin + 10, MinY := yMin + 10
    created := 2 }

/-- The allocator of the scenario of the specification, on `scenarioArea` with
`nApartmentsX = 10` and `nFloors = 1`, just constructed; its x stream is
`100, 100, 500, 500, ...` and its y stream is constantly `200`. -/
def scenarioAllocator : FemtocellBlockAllocator :=
  FemtocellBlockAllocator.new scenarioArea 10 1 (stepStream 2 100 500) (fun _ => 200)

/-- The state of `scenarioAllocator` after its first `Create()`: the block
`(100, 220, 200, 270)` is accepted and one value of each stream is taken. -/
def scenarioFirst : FemtocellBlockAllocator :=
  { scenarioAllocator with
    m_previousBlocks := [{ xMin := 100, xMax := 220, yMin := 200, yMax := 270 }]
    m_xMinVar := { scenarioAllocator.m_xMinVar with taken := 1 }
    m_yMinVar := { scenarioAllocator.m_yMinVar with taken := 1 }
    m_gridBuildingAllocators := [gridFor 100 200] }

/-- The state of `scenarioAllocator` after `Create(2)`: the second call has
rejected the candidate at `x = 100` and accepted `(500, 620, 200, 270)`; three
values of each stream are taken. -/
def scenarioResult : FemtocellBlockAllocator :=
  { scenarioAllocator with
    m_previousBlocks :=
      [{ xMin := 100, xMax := 220, yMin := 200, yMax := 270 },
       { xMin := 500, xMax := 620, yMin := 200, yMax := 270 }]
    m_xMinVar := { scenarioAllocator.m_xMinVar with taken := 3 }
    m_yMinVar := { scenarioAllocator.m_yMinVar with taken := 3 }
    m_gridBuildingAllocators := [gridFor 100 200, gridFor 500 200] }

/-- The allocator on the fallback area with `nApartmentsX = 10`, just
constructed; its x stream is constantly `10` and its y stream is
`5, 78, 78, ...`. -/
def fallbackAllocator : FemtocellBlockAllocator :=
  FemtocellBlockAllocator.new fallbackArea 10 1 (fun _ => 10) (stepStream 1 5 78)

/-- The state of `fallbackAllocator` after `Create(2)`: the blocks
`(10, 130, 5, 75)` and `(10, 130, 78, 148)` are accepted. -/
def fallbackResult : FemtocellBlockAllocator :=
  { fallbackAllocator with
    m_previousBlocks :=
      [{ xMin := 10, xMax := 130, yMin := 5, yMax := 75 },
       { xMin := 10, xMax := 130, yMin := 78, yMax := 148 }]
    m_xMinVar := { fallbackAllocator.m_xMinVar with taken := 2 }
    m_yMinVar := { fallbackAllocator.m_yMinVar with taken := 2 }
    m_gridBuildingAllocators := [gridFor 10 5, gridFor 10 78] }

/-- The abort of the third `Create()` on the fallback area. -/
def fallbackAbort : Abort :=
  { msg := tooManyAttempts, attempt := 100, allocator := fallbackResult.afterDraws 100 }

/-- The allocator `t` has the configuration of `s`: the same area, parameters
and block size, and random variables with the same bounds and streams. Only the
accepted blocks, the positions in the streams and the log of grid building
allocators may differ. -/
def SameConfig (s t : FemtocellBlockAllocator) : Prop :=
  t.m_area = s.m_area ∧ t.m_nApartmentsX = s.m_nApartmentsX ∧ t.m_nFloors = s.m_nFloors ∧
  t.m_xSize = s.m_xSize ∧ t.m_ySize = s.m_ySize ∧
  t.m_xMinVar.Min = s.m_xMinVar.Min ∧ t.m_xMinVar.Max = s.m_xMinVar.Max ∧
  t.m_xMinVar.stream = s.m_xMinVar.stream ∧
  t.m_yMinVar.Min = s.m_yMinVar.Min ∧ t.m_yMinVar.Max = s.m_yMinVar.Max ∧
  t.m_yMinVar.stream = s.m_yMinVar.stream

/-- The `double` nearest to the square root of `0.75`, which is the value of
`sqrt(0.75)`: `0x1.bb67ae8584caap-1`. -/
def sqrt075Double : ℚ := 3900231685776981 / 4503599627370496

/-- The box `(0, 120, 0, 70)`. -/
def boxA : Box := { xMin := 0, xMax := 120, yMin := 0, yMax := 70 }

/-- The box `(120, 240, 70, 140)`, which touches `boxA` in the corner `(120, 70)`. -/
def boxB : Box := { xMin := 120, xMax := 240, yMin := 70, yMax := 140 }

/-! ### The population counts and the layout of `main` -/

/-! ### Double arithmetic in the population counts

The three node counts are the only places where `main` rounds a `double` to an
integer, so that the rounding error of the multiplications before `round` can
change the result. There every `double` operation is rounded to the nearest
binary64 value. -/

/-- Rounding of a rational number to the nearest integer, a tie going to the
even integer. -/
def roundHalfEven (x : ℚ) : ℤ :=
  if x - ⌊x⌋ < 1 / 2 then ⌊x⌋
  else if 1 / 2 < x - ⌊x⌋ then ⌊x⌋ + 1
  else if ⌊x⌋ % 2 = 0 then ⌊x⌋ else ⌊x⌋ + 1

/-- The exponent `e` of the binade `2 ^ e ≤ |x| < 2 ^ (e + 1)` in which the
binary64 format places `x`; it is `-1022`, the exponent of the subnormal
numbers, for `0` and for every `x` below `2 ^ (-1022)` in absolute value. -/
def binade (x : ℚ) : ℤ :=
  if x = 0 then -1022 else max (Int.log 2 |x|) (-1022)

/-- The distance between neighbouring binary64 values in the binade of `x`: the
significand has 53 bits. -/
def ulp (x : ℚ) : ℚ := (2 : ℚ) ^ (binade x - 52)

/-- The binary64 value nearest to `x`, a tie going to the value with the even
significand (the rounding of every `double` operation and of the reading of a
decimal number), with no bound on the exponent from above. -/
def roundToDouble (x : ℚ) : ℚ := (roundHalfEven (x / ulp x) : ℚ) * ulp x

/-- The result of a `double` operation whose rounded value is `x`: the value
itself when it is below `2 ^ 1024` in absolute value; otherwise the operation
overflows to an infinity, and `none` stands for it (no later operation gives a
finite value again, and the conversion to `uint32_t` is undefined). -/
def finiteDouble (x : ℚ) : Option ℚ := if |x| < 2 ^ 1024 then some x else none

/-- The product `a * b` of two `double` values. -/
def mulDouble (a b : ℚ) : Option ℚ := finiteDouble (roundToDouble (a * b))

/-- The difference `a - b` of two `double` values. -/
def subDouble (a b : ℚ) : Option ℚ := finiteDouble (roundToDouble (a - b))

/-- Modelled from the spec: the C library function `round` applied to a
`double`, "standard round-half-away-from-zero". The result, an integer-valued
`double`, is given as an integer. -/
def round (x : ℚ) : ℤ :=
  if 0 ≤ x then ⌊x + 1 / 2⌋ else ⌈x - 1 / 2⌉

/-- The conversion of an integer-valued `double` to `uint32_t` in an
initialisation such as `uint32_t n = round(...)`. The C++ conversion is defined
only when the value is representable in the destination type; `none` stands for
the undefined behaviour otherwise. -/
def toUint32 (v : ℤ) : Option ℕ :=
  if 0 ≤ v ∧ v < 2 ^ 32 then some v.toNat else none

/-- The argument of `round` in the initialisation of `nHomeEnbs`:
`4 * nApartmentsX * nBlocks * nFloors * homeEnbDeploymentRatio *
homeEnbActivationRatio`, evaluated from the left. The first three products are
`uint32_t` products; their value, below `2 ^ 32`, is converted to `double`
without error and multiplied by the two ratios, each product being rounded to a
`double`. The ratios are the numbers as configured; the variables hold the
nearest `double`. -/
def homeEnbProduct (nApartmentsX nBlocks nFloors : ℕ)
    (homeEnbDeploymentRatio homeEnbActivationRatio : ℚ) : Option ℚ :=
  (mulDouble
      (((((4 * nApartmentsX) % 2 ^ 32 * nBlocks) % 2 ^ 32 * nFloors) % 2 ^ 32 : ℕ) : ℚ)
      (roundToDouble homeEnbDeploymentRatio)).bind
    (fun p => mulDouble p (roundToDouble homeEnbActivationRatio))

/-- The value of `nHomeEnbs` in `main`: `round` of the `double` product
`homeEnbProduct`, converted to `uint32_t`. -/
def nHomeEnbs (nApartmentsX nBlocks nFloors : ℕ)
    (homeEnbDeploymentRatio homeEnbActivationRatio : ℚ) : Option ℕ :=
  (homeEnbProduct nApartmentsX nBlocks nFloors homeEnbDeploymentRatio
    homeEnbActivationRatio).bind (fun q => toUint32 (round q))

/-- The value of `nHomeUes` in `main`, computed from the `uint32_t` variable
`nHomeEnbs`: `round` of the `double` product `nHomeEnbs * homeUesHomeEnbRatio`. -/
def nHomeUes (nHomeEnbs : ℕ) (homeUesHomeEnbRatio : ℚ) : Option ℕ :=
  (mulDouble (nHomeEnbs : ℚ) (roundToDouble homeUesHomeEnbRatio)).bind
    (fun q => toUint32 (round q))

/-- The value of `macroUeAreaSize` in `main`: the `double` product of the two
`double` differences of the fields of the box, which are `double` values. -/
def macroUeAreaSize (macroUeBox : Box) : Option ℚ :=
  (subDouble (roundToDouble macroUeBox.xMax) (roundToDouble macroUeBox.xMin)).bind
    (fun w => (subDouble (roundToDouble macroUeBox.yMax) (roundToDouble macroUeBox.yMin)).bind
      (fun h => mulDouble w h))

/-- The value of `nMacroUes` in `main`: `round` of the `double` product
`macroUeAreaSize * macroUeDensity`. -/
def nMacroUes (macroUeBox : Box) (macroUeDensity : ℚ) : Option ℕ :=
  (macroUeAreaSize macroUeBox).bind
    (fun a => (mulDouble a (roundToDouble macroUeDensity)).bind
      (fun q => toUint32 (round q)))

/-- The argument `3 * nMacroEnbSites` of `macroEnbs.Create`, in `uint32_t`
arithmetic: the number of macro eNB nodes that `main` creates. -/
def nMacroEnbs (nMacroEnbSites : ℕ) : ℕ :=
  (3 * nMacroEnbSites) % 2 ^ 32

/-- The scenario parameters that the deployment reads from the global values. -/
structure Config where
  nBlocks : ℕ := 1
  nApartmentsX : ℕ := 10
  nFloors : ℕ := 1
  nMacroEnbSites : ℕ := 3
  nMacroEnbSitesX : ℕ := 1
  interSiteDistance : ℚ := 500
  areaMarginFactor : ℚ := 0.5
  macroUeDensity : ℚ := 0.00002
  homeEnbDeploymentRatio : ℚ := 0.2
  homeEnbActivationRatio : ℚ := 0.5
  homeUesHomeEnbRatio : ℚ := 1.0

/-- What the first part of `main` hands to the installers: the macro coverage
box, the accepted blocks with the grid building allocators run for them, and the
sizes of the four node containers. -/
structure DeploymentLayout where
  macroUeBox : Box
  blocks : List Box
  gridBuildingAllocators : List GridBuildingAllocator
  nHomeEnbs : Option ℕ
  nMacroEnbs : ℕ
  nHomeUes : Option ℕ
  nMacroUes : Option ℕ

/-- The part of `main` from the computation of `macroUeBox` to the creation of
the node containers. `xStream` and `yStream` are the streams of the two random
variables of the block allocator. -/
def deploymentLayout (c : Config) (sqrt075 : ℚ) (xStream yStream : ℕ → ℚ) :
    Except Abort DeploymentLayout :=
  let macroUeBox := macroUeBox c.nMacroEnbSites c.nMacroEnbSitesX c.interSiteDistance
    c.areaMarginFactor sqrt075
  let blockAllocator :=
    FemtocellBlockAllocator.new macroUeBox c.nApartmentsX c.nFloors xStream yStream
  match CreateN c.nBlocks blockAllocator with
  | .error e => .error e
  | .ok blockAllocator =>
    let nHomeEnbs := nHomeEnbs c.nApartmentsX c.nBlocks c.nFloors c.homeEnbDeploymentRatio
      c.homeEnbActivationRatio
    let nHomeUes := nHomeEnbs.bind (fun n => nHomeUes n c.homeUesHomeEnbRatio)
    let nMacroUes := nMacroUes macroUeBox c.macroUeDensity
    .ok { macroUeBox := macroUeBox
          blocks := blockAllocator.m_previousBlocks
          gridBuildingAllocators := blockAllocator.m_gridBuildingAllocators
          nHomeEnbs := nHomeEnbs
          nMacroEnbs := nMacroEnbs c.nMacroEnbSites
          nHomeUes := nHomeUes
          nMacroUes := nMacroUes }

/-- What can be seen of an abort: the message, the value of `attempt` and the
blocks accepted before it. -/
structure AbortView where
  msg : String
  attempt : ℕ
  blocks : List Box

/-- The outcome of a run as an observer sees it: the layout, or the view of the
abort. -/
def observe : Except Abort DeploymentLayout → Except AbortView DeploymentLayout
  | .ok l => .ok l
  | .error e =>
    .error { msg := e.msg, attempt := e.attempt, blocks := e.allocator.m_previousBlocks }

/-- The number of sites that the first `r` rows of the lattice hold when the
rows alternately hold `nMacroEnbSitesX` and `nMacroEnbSitesX + 1` sites, the
first row holding `nMacroEnbSitesX`. -/
def rowCapacity (nMacroEnbSitesX r : ℕ) : ℕ :=
  (r / 2) * (2 * nMacroEnbSitesX + 1) + (r % 2) * nMacroEnbSitesX

/-- The grid building allocator that `Create()` configures for the accepted
`box` in an allocator with the given `nApartmentsX` and `nFloors`. -/
def gridBuildingAllocatorFor (nApartmentsX nFloors : ℕ) (box : Box) : GridBuildingAllocator :=
  { GridWidth := 1
    LengthX := (((10 * nApartmentsX) % 2 ^ 32 : ℕ) : ℚ)
    LengthY := 10 * 2
    DeltaX := 10
    DeltaY := 10
    Height := (((3 * nFloors) % 2 ^ 32 : ℕ) : ℚ)
    NRoomsX := nApartmentsX
    NRoomsY := 2
    NFloors := nFloors
    MinX := box.xMin + 10
    MinY := box.yMin + 10
    created := 2 }

/-- The allocator with `nFloors = 1431655766` on the scenario area, just
constructed; its x stream is constantly `500` and its y stream constantly `200`. -/
def tallAllocator : FemtocellBlockAllocator :=
  FemtocellBlockAllocator.new scenarioArea 10 1431655766 (fun _ => 500) (fun _ => 200)

/-- Two allocators that differ at most in the values of their streams from
position `N` on. -/
structure AgreeUpTo (N : ℕ) (s t : FemtocellBlockAllocator) : Prop where
  area : s.m_area = t.m_area
  nApartmentsX : s.m_nApartmentsX = t.m_nApartmentsX
  nFloors : s.m_nFloors = t.m_nFloors
  previousBlocks : s.m_previousBlocks = t.m_previousBlocks
  xSize : s.m_xSize = t.m_xSize
  ySize : s.m_ySize = t.m_ySize
  xTaken : s.m_xMinVar.taken = t.m_xMinVar.taken
  yTaken : s.m_yMinVar.taken = t.m_yMinVar.taken
  grid : s.m_gridBuildingAllocators = t.m_gridBuildingAllocators
  xStream : ∀ i < N, s.m_xMinVar.stream i = t.m_xMinVar.stream i
  yStream : ∀ i < N, s.m_yMinVar.stream i = t.m_yMinVar.stream i

/-- What can be seen of the outcome of calls on an allocator: the accepted
blocks and the grid building allocators, or the view of the abort. -/
def observeAllocator :
    Except Abort FemtocellBlockAllocator → Except AbortView (List Box × List GridBuildingAllocator)
  | .ok s => .ok (s.m_previousBlocks, s.m_gridBuildingAllocators)
  | .error e =>
    .error { msg := e.msg, attempt := e.attempt, blocks := e.allocator.m_previousBlocks }

/-! ### The macro sites, the attachment of the home UEs and the macro UE mobility -/

/-- Modelled from the spec: the row, counted from zero, of the macro site with
index `i`, as the library helper `LteHexGridEnbTopologyHelper` lays the sites
out (`main` only configures it with `InterSiteDistance`, `MinX` and
`GridWidth`): "alternating rows of a triangular lattice with `nMacroEnbSitesX`
sites per long row and `nMacroEnbSitesX + 1` per alternating pattern", the row
being found "via integer division/modulo against `2 * nMacroEnbSitesX + 1`". -/
def siteRow (gridWidth i : ℕ) : ℕ :=
  2 * (i / (2 * gridWidth + 1)) + (if i % (2 * gridWidth + 1) ≥ gridWidth then 1 else 0)

/-- Modelled from the spec: the position of site `i` within its row, for the
placement of the library helper `LteHexGridEnbTopologyHelper`. -/
def siteColumn (gridWidth i : ℕ) : ℕ :=
  if i % (2 * gridWidth + 1) ≥ gridWidth then i % (2 * gridWidth + 1) - gridWidth
  else i % (2 * gridWidth + 1)

/-- Modelled from the spec: the position of macro site `i` computed by the
library helper `LteHexGridEnbTopologyHelper`, "positions forming a triangular
lattice with horizontal spacing `interSiteDistance`, row offset of
`interSiteDistance/2` on odd rows, and vertical spacing
`interSiteDistance * sqrt(0.75)`". The odd rows, which hold one site more, start
half a distance before the even rows. `minX` and `minY` are the position of
site `0` and `sqrt075` stands for `sqrt(0.75)`. -/
def sitePosition (interSiteDistance minX minY sqrt075 : ℚ) (gridWidth i : ℕ) : ℚ × ℚ :=
  (minX + (siteColumn gridWidth i : ℚ) * interSiteDistance -
      (if siteRow gridWidth i % 2 = 1 then interSiteDistance / 2 else 0),
    minY + (siteRow gridWidth i : ℚ) * interSiteDistance * sqrt075)

/-- The loop of `main` that attaches each home UE device to a home eNB device
when the EPC is not used. `e` is the position of the iterator `enbDevIt` in
`homeEnbDevs`; the result lists the calls of `Attach`, and it is `none` when the
loop dereferences the end iterator of `homeEnbDevs`. -/
def attachLoop {α β : Type} (homeEnbDevs : List β) : List α → ℕ → Option (List (α × β))
  | [], _ => some []
  | ueDev :: rest, e =>
    let e := if e = homeEnbDevs.length then 0 else e
    match homeEnbDevs[e]? with
    | none => none
    | some enbDev =>
      match attachLoop homeEnbDevs rest (e + 1) with
      | none => none
      | some attached => some ((ueDev, enbDev) :: attached)

/-- The attachments of `nHomeUes` home UE devices to `nHomeEnbs` home eNB
devices, the devices being numbered from zero in the order of their
containers. -/
def attachHomeUes (nHomeEnbs nHomeUes : ℕ) : Option (List (ℕ × ℕ)) :=
  attachLoop (List.range nHomeEnbs) (List.range nHomeUes) 0

/-- The conversion of a `double` to `uint16_t` in an initialisation such as
`uint16_t outdoorUeMaxSpeed = doubleValue.Get()`: the value is truncated, and
the conversion is defined only when the truncated value is representable. -/
def toUint16 (v : ℚ) : Option ℕ :=
  if -1 < v ∧ v < 65536 then some (if 0 ≤ v then ⌊v⌋ else ⌈v⌉).toNat else none

/-- What `main` sets up for the macro UEs: the steady-state random-waypoint
model with the attributes it is given, or constant positions drawn uniformly
between the given bounds. -/
inductive MacroUeMobility where
  | steadyStateRandomWaypoint (MinX MinY MaxX MaxY Z MaxSpeed MinSpeed : ℚ)
  | constantPosition (xMin xMax yMin yMax zMin zMax : ℚ)
  deriving DecidableEq, Repr

/-- The branch `if (outdoorUeMaxSpeed != 0.0)` of `main`, on the `uint16_t`
variables `outdoorUeMinSpeed` and `outdoorUeMaxSpeed`. -/
def macroUeMobility (outdoorUeMinSpeed outdoorUeMaxSpeed : ℕ) (macroUeBox : Box) :
    MacroUeMobility :=
  let ueZ : ℚ := 1.5
  if (outdoorUeMaxSpeed : ℚ) ≠ 0.0 then
    .steadyStateRandomWaypoint macroUeBox.xMin macroUeBox.yMin macroUeBox.xMax macroUeBox.yMax
      ueZ (outdoorUeMaxSpeed : ℚ) (outdoorUeMinSpeed : ℚ)
  else
    .constantPosition macroUeBox.xMin macroUeBox.xMax macroUeBox.yMin macroUeBox.yMax
      macroUeBox.zMin macroUeBox.zMax

/-- The macro UE mobility that `main` sets up for the configured `double`
speeds; `none` when a conversion to `uint16_t` is undefined. -/
def macroUeMobilityOf (outdoorUeMinSpeed outdoorUeMaxSpeed : ℚ) (macroUeBox : Box) :
    Option MacroUeMobility :=
  match toUint16 outdoorUeMinSpeed, toUint16 outdoorUeMaxSpeed with
  | some minSpeed, some maxSpeed => some (macroUeMobility minSpeed maxSpeed macroUeBox)
  | _, _ => none

/-- The number of rooms of the buildings that one grid building allocator
creates. -/
def GridBuildingAllocator.rooms (g : GridBuildingAllocator) : ℕ :=
  g.created * (g.NRoomsX * g.NRoomsY * g.NFloors)

/-- A box with `xMin > xMax`. -/
def invertedBox : Box := { xMin := 10, xMax := 0, yMin := 0, yMax := 1 }

/-- The box `(0, 5, 0, 1)`. -/
def unitBox : Box := { xMin := 0, xMax := 5, yMin := 0, yMax := 1 }

/-! ## Lemmas on the overlap test and on the loop of `Create()` -/

theorem doWhile_unfold (s : FemtocellBlockAllocator) (box : Box) (attempt : ℕ) :
    Create.doWhile s box attempt =
      if attempt < 100 then
        if OverlapsWithAnyPrevious s (candidateOf box s 0) then
          Create.doWhile (s.afterDraws 1) (candidateOf box s 0) (attempt + 1)
        else .ok (s.afterDraws 1, candidateOf box s 0, attempt + 1)
      else .error { msg := tooManyAttempts, attempt := attempt, allocator := s } := by
  rw [Create.doWhile]
  rfl

theorem AreOverlapping_comm (a b : Box) : AreOverlapping a b = AreOverlapping b a := by
  simp only [AreOverlapping]
  cases decide (a.xMin > b.xMax) <;> cases decide (b.xMin > a.xMax) <;>
    cases decide (a.yMin > b.yMax) <;> cases decide (b.yMin > a.yMax) <;> rfl

theorem AreOverlapping_candidateOf (it box : Box) (s : FemtocellBlockAllocator) (k : ℕ) :
    AreOverlapping it (candidateOf box s k) = AreOverlapping it (candidate s k) := rfl

theorem loop_eq_true_iff (box : Box) (l : List Box) :
    OverlapsWithAnyPrevious.loop box l = true ↔ ∃ it ∈ l, AreOverlapping it box = true := by
  induction l with
  | nil => simp [OverlapsWithAnyPrevious.loop]
  | cons a l ih =>
    simp only [OverlapsWithAnyPrevious.loop, List.mem_cons, exists_eq_or_imp]
    by_cases h : AreOverlapping a box = true
    · simp [h]
    · simp [h, ih]

theorem loop_eq_false_iff (box : Box) (l : List Box) :
    OverlapsWithAnyPrevious.loop box l = false ↔ ∀ it ∈ l, AreOverlapping it box = false := by
  rw [← Bool.not_eq_true, loop_eq_true_iff]
  simp

theorem loop_candidateOf (box : Box) (s : FemtocellBlockAllocator) (k : ℕ) (l : List Box) :
    OverlapsWithAnyPrevious.loop (candidateOf box s k) l =
      OverlapsWithAnyPrevious.loop (candidate s k) l := by
  induction l with
  | nil => rfl
  | cons a l ih => simp only [OverlapsWithAnyPrevious.loop, AreOverlapping_candidateOf, ih]

theorem overlaps_candidateOf (box : Box) (s : FemtocellBlockAllocator) (k : ℕ) :
    OverlapsWithAnyPrevious s (candidateOf box s k) = OverlapsWithAnyPrevious s (candidate s k) :=
  loop_candidateOf box s k s.m_previousBlocks

theorem overlaps_afterDraws (s : FemtocellBlockAllocator) (n : ℕ) (b : Box) :
    OverlapsWithAnyPrevious (s.afterDraws n) b = OverlapsWithAnyPrevious s b := rfl

theorem candidateOf_afterDraws (box : Box) (s : FemtocellBlockAllocator) (k : ℕ) :
    candidateOf (candidateOf box s 0) (s.afterDraws 1) k = candidateOf box s (k + 1) := by
  simp only [candidateOf, FemtocellBlockAllocator.afterDraws, UniformRandomVariable.skip]
  rw [show s.m_xMinVar.taken + 1 + k = s.m_xMinVar.taken + (k + 1) by omega,
    show s.m_yMinVar.taken + 1 + k = s.m_yMinVar.taken + (k + 1) by omega]

theorem afterDraws_afterDraws (s : FemtocellBlockAllocator) (a b : ℕ) :
    (s.afterDraws a).afterDraws b = s.afterDraws (a + b) := by
  simp only [FemtocellBlockAllocator.afterDraws, UniformRandomVariable.skip, Nat.add_assoc]

theorem overlaps_candidate_succ (s : FemtocellBlockAllocator) (k : ℕ) :
    OverlapsWithAnyPrevious (s.afterDraws 1) (candidate (s.afterDraws 1) k) =
      OverlapsWithAnyPrevious s (candidate s (k + 1)) := by
  rw [← overlaps_candidateOf (candidateOf {} s 0), candidateOf_afterDraws,
    overlaps_afterDraws, overlaps_candidateOf]

/-- The loop accepts the first candidate that overlaps no previous block, when
the assertion still admits it. -/
theorem doWhile_accept (j : ℕ) :
    ∀ (s : FemtocellBlockAllocator) (box : Box) (attempt : ℕ), attempt + j < 100 →
      (∀ k < j, OverlapsWithAnyPrevious s (candidate s k) = true) →
      OverlapsWithAnyPrevious s (candidate s j) = false →
      Create.doWhile s box attempt =
        .ok (s.afterDraws (j + 1), candidateOf box s j, attempt + j + 1) := by
  induction j with
  | zero =>
    intro s box attempt hlt _ hfree
    rw [doWhile_unfold, if_pos (by omega), overlaps_candidateOf, hfree]
    rfl
  | succ j ih =>
    intro s box attempt hlt hbusy hfree
    rw [doWhile_unfold, if_pos (by omega), overlaps_candidateOf, hbusy 0 (by omega), if_pos rfl]
    rw [ih (s.afterDraws 1) (candidateOf box s 0) (attempt + 1) (by omega)]
    · rw [afterDraws_afterDraws, candidateOf_afterDraws, Nat.add_comm 1 (j + 1)]
      rw [show attempt + 1 + j + 1 = attempt + (j + 1) + 1 by omega]
    · intro k hk
      rw [overlaps_candidate_succ]
      exact hbusy (k + 1) (by omega)
    · rw [overlaps_candidate_succ]
      exact hfree

/-- The loop ends on the assertion when every candidate that the assertion
admits overlaps a previous block. -/
theorem doWhile_abort (n : ℕ) :
    ∀ (s : FemtocellBlockAllocator) (box : Box) (attempt : ℕ), attempt + n = 100 →
      (∀ k < n, OverlapsWithAnyPrevious s (candidate s k) = true) →
      Create.doWhile s box attempt =
        .error { msg := tooManyAttempts, attempt := 100, allocator := s.afterDraws n } := by
  induction n with
  | zero =>
    intro s box attempt hlt _
    rw [doWhile_unfold, if_neg (by omega)]
    have : attempt = 100 := by omega
    subst this
    rfl
  | succ n ih =>
    intro s box attempt hlt hbusy
    rw [doWhile_unfold, if_pos (by omega), overlaps_candidateOf, hbusy 0 (by omega), if_pos rfl]
    rw [ih (s.afterDraws 1) (candidateOf box s 0) (attempt + 1) (by omega)]
    · rw [afterDraws_afterDraws, Nat.add_comm 1 n]
    · intro k hk
      rw [overlaps_candidate_succ]
      exact hbusy (k + 1) (by omega)

theorem Create_accept (s : FemtocellBlockAllocator) (j : ℕ) (hj : j < 100)
    (hbusy : ∀ k < j, OverlapsWithAnyPrevious s (candidate s k) = true)
    (hfree : OverlapsWithAnyPrevious s (candidate s j) = false) :
    Create s = .ok (Create.finish (s.afterDraws (j + 1)) (candidate s j)) := by
  unfold Create
  rw [doWhile_accept j s {} 0 (by omega) hbusy hfree]
  rfl

theorem Create_abort (s : FemtocellBlockAllocator)
    (hbusy : ∀ k < 100, OverlapsWithAnyPrevious s (candidate s k) = true) :
    Create s =
      .error { msg := tooManyAttempts, attempt := 100, allocator := s.afterDraws 100 } := by
  unfold Create
  rw [doWhile_abort 100 s {} 0 (by omega) hbusy]

/-- Every call of `Create()` returns: it either aborts after 100 overlapping
candidates or accepts the first candidate that overlaps no previous block. -/
theorem Create_cases (s : FemtocellBlockAllocator) :
    ((∀ k < 100, OverlapsWithAnyPrevious s (candidate s k) = true) ∧
      Create s =
        .error { msg := tooManyAttempts, attempt := 100, allocator := s.afterDraws 100 }) ∨
    (∃ j < 100, (∀ k < j, OverlapsWithAnyPrevious s (candidate s k) = true) ∧
      OverlapsWithAnyPrevious s (candidate s j) = false ∧
      Create s = .ok (Create.finish (s.afterDraws (j + 1)) (candidate s j))) := by
  by_cases h : ∀ k < 100, OverlapsWithAnyPrevious s (candidate s k) = true
  · exact Or.inl ⟨h, Create_abort s h⟩
  · right
    have hex : ∃ k, k < 100 ∧ OverlapsWithAnyPrevious s (candidate s k) = false := by
      by_contra hne
      apply h
      intro k hk
      by_contra hk2
      exact hne ⟨k, hk, by simpa using hk2⟩
    classical
    have hbelow : ∀ k < Nat.find hex, OverlapsWithAnyPrevious s (candidate s k) = true := by
      intro k hk
      have hmin := Nat.find_min hex hk
      have hk100 : k < 100 := lt_trans hk (Nat.find_spec hex).1
      by_contra hk2
      exact hmin ⟨hk100, by simpa using hk2⟩
    exact ⟨Nat.find hex, (Nat.find_spec hex).1, hbelow, (Nat.find_spec hex).2,
      Create_accept s _ (Nat.find_spec hex).1 hbelow (Nat.find_spec hex).2⟩

theorem Create_ok_cases (s t : FemtocellBlockAllocator) (h : Create s = .ok t) :
    ∃ j < 100, (∀ k < j, OverlapsWithAnyPrevious s (candidate s k) = true) ∧
      OverlapsWithAnyPrevious s (candidate s j) = false ∧
      t = Create.finish (s.afterDraws (j + 1)) (candidate s j) := by
  rcases Create_cases s with ⟨_, he⟩ | ⟨j, hj, hbusy, hfree, hok⟩
  · rw [he] at h
    cases h
  · rw [hok] at h
    exact ⟨j, hj, hbusy, hfree, (Except.ok.inj h).symm⟩

theorem Create_error_cases (s : FemtocellBlockAllocator) (e : Abort) (h : Create s = .error e) :
    (∀ k < 100, OverlapsWithAnyPrevious s (candidate s k) = true) ∧
      e = { msg := tooManyAttempts, attempt := 100, allocator := s.afterDraws 100 } := by
  rcases Create_cases s with ⟨hb, he⟩ | ⟨j, hj, hbusy, hfree, hok⟩
  · rw [he] at h
    exact ⟨hb, (Except.error.inj h).symm⟩
  · rw [hok] at h
    cases h

/-! ## The claims on `Create()` and `Create(n)` -/

/-- C2: `Create()` aborts with the message of the assertion exactly when each
of the first 100 candidates overlaps a previously accepted block; at the abort
`attempt` is 100 and exactly 100 values have been taken from each stream; a
100th candidate that overlaps nothing is accepted. -/
theorem C2_create_aborts_iff_100_rejected (s : FemtocellBlockAllocator) :
    ((∃ e, Create s = .error e) ↔
      ∀ k < 100, OverlapsWithAnyPrevious s (candidate s k) = true) ∧
    (∀ e, Create s = .error e →
      e.msg = tooManyAttempts ∧ e.attempt = 100 ∧
      e.allocator.m_xMinVar.taken = s.m_xMinVar.taken + 100 ∧
      e.allocator.m_yMinVar.taken = s.m_yMinVar.taken + 100 ∧
      e.allocator = s.afterDraws 100) ∧
    ((∀ k < 99, OverlapsWithAnyPrevious s (candidate s k) = true) →
      OverlapsWithAnyPrevious s (candidate s 99) = false →
      Create s = .ok (Create.finish (s.afterDraws 100) (candidate s 99))) := by
  refine ⟨⟨?_, ?_⟩, ?_, ?_⟩
  · rintro ⟨e, he⟩
    exact (Create_error_cases s e he).1
  · intro h
    exact ⟨_, Create_abort s h⟩
  · intro e he
    rw [(Create_error_cases s e he).2]
    exact ⟨rfl, rfl, rfl, rfl, rfl⟩
  · intro hbusy hfree
    exact Create_accept s 99 (by omega) hbusy hfree

/-- C3: if candidate number `j`, `1 ≤ j ≤ 100`, is the first that overlaps no
previously accepted block, `Create()` returns, the accepted-block list has grown
at its end by exactly one box, which is `(x_j, x_j + xSize, y_j, y_j + ySize)`
for the `j`-th values `x_j`, `y_j` of the two streams, and exactly `j` values
have been taken from each stream. -/
theorem C3_create_accepts_first_free_candidate (s : FemtocellBlockAllocator) (j : ℕ)
    (h1 : 1 ≤ j) (h100 : j ≤ 100)
    (hbusy : ∀ i, 1 ≤ i → i < j → OverlapsWithAnyPrevious s (candidate s (i - 1)) = true)
    (hfree : OverlapsWithAnyPrevious s (candidate s (j - 1)) = false) :
    ∃ t b, Create s = .ok t ∧
      t.m_previousBlocks = s.m_previousBlocks ++ [b] ∧
      b.xMin = s.m_xMinVar.stream (s.m_xMinVar.taken + (j - 1)) ∧
      b.xMax = s.m_xMinVar.stream (s.m_xMinVar.taken + (j - 1)) + s.m_xSize ∧
      b.yMin = s.m_yMinVar.stream (s.m_yMinVar.taken + (j - 1)) ∧
      b.yMax = s.m_yMinVar.stream (s.m_yMinVar.taken + (j - 1)) + s.m_ySize ∧
      t.m_xMinVar.taken = s.m_xMinVar.taken + j ∧
      t.m_yMinVar.taken = s.m_yMinVar.taken + j ∧
      t.m_xMinVar.stream = s.m_xMinVar.stream ∧
      t.m_yMinVar.stream = s.m_yMinVar.stream := by
  obtain ⟨i, rfl⟩ : ∃ i, j = i + 1 := ⟨j - 1, by omega⟩
  refine ⟨_, candidate s i, Create_accept s i (by omega) ?_ hfree,
    rfl, rfl, rfl, rfl, rfl, rfl, rfl, rfl, rfl⟩
  intro k hk
  exact hbusy (k + 1) (by omega) (by omega)

theorem CreateN_add (m n : ℕ) :
    ∀ s, CreateN (m + n) s = (CreateN m s >>= CreateN n) := by
  induction m with
  | zero =>
    intro s
    rw [Nat.zero_add]
    rfl
  | succ m ih =>
    intro s
    rw [show m + 1 + n = (m + n) + 1 by omega]
    simp only [CreateN]
    cases Create s with
    | error e => rfl
    | ok t => exact ih t

theorem CreateN_error_iff (n : ℕ) :
    ∀ s e, CreateN n s = .error e ↔
      ∃ i < n, ∃ t, CreateN i s = .ok t ∧ Create t = .error e := by
  induction n with
  | zero =>
    intro s e
    simp [CreateN]
  | succ n ih =>
    intro s e
    constructor
    · intro h
      simp only [CreateN] at h
      cases hc : Create s with
      | error e2 =>
        rw [hc] at h
        exact ⟨0, by omega, s, rfl, by rw [hc]; exact h⟩
      | ok u =>
        rw [hc] at h
        obtain ⟨i, hi, t, hit, hte⟩ := (ih u e).1 h
        refine ⟨i + 1, by omega, t, ?_, hte⟩
        simp only [CreateN, hc]
        exact hit
    · rintro ⟨i, hi, t, hit, hte⟩
      simp only [CreateN]
      cases i with
      | zero =>
        simp only [CreateN] at hit
        cases hit
        rw [hte]
      | succ i =>
        simp only [CreateN] at hit
        cases hc : Create s with
        | error e2 =>
          rw [hc] at hit
          cases hit
        | ok u =>
          rw [hc] at hit
          exact (ih u e).2 ⟨i, by omega, t, hit, hte⟩

theorem CreateN_induction (P : FemtocellBlockAllocator → Prop)
    (hstep : ∀ s t, P s → Create s = .ok t → P t) (n : ℕ) :
    ∀ s t, P s → CreateN n s = .ok t → P t := by
  induction n with
  | zero =>
    intro s t hs h
    simp only [CreateN] at h
    cases h
    exact hs
  | succ n ih =>
    intro s t hs h
    simp only [CreateN] at h
    cases hc : Create s with
    | error e =>
      rw [hc] at h
      cases h
    | ok u =>
      rw [hc] at h
      exact ih u t (hstep s u hs hc) h

theorem runCalls_induction (P : FemtocellBlockAllocator → Prop)
    (hstep : ∀ s t, P s → Create s = .ok t → P t) (calls : List Call) :
    ∀ s t, P s → runCalls calls s = .ok t → P t := by
  induction calls with
  | nil =>
    intro s t hs h
    simp only [runCalls] at h
    cases h
    exact hs
  | cons c cs ih =>
    intro s t hs h
    simp only [runCalls] at h
    cases hc : c.run s with
    | error e =>
      rw [hc] at h
      cases h
    | ok u =>
      rw [hc] at h
      refine ih u t ?_ h
      cases c with
      | create => exact hstep s u hs hc
      | createN n => exact CreateN_induction P hstep n s u hs hc

theorem CreateN_blocks (n : ℕ) :
    ∀ s t, CreateN n s = .ok t →
      ∃ added : List Box, added.length = n ∧
        t.m_previousBlocks = s.m_previousBlocks ++ added := by
  induction n with
  | zero =>
    intro s t h
    simp only [CreateN] at h
    cases h
    exact ⟨[], rfl, by simp⟩
  | succ n ih =>
    intro s t h
    simp only [CreateN] at h
    cases hc : Create s with
    | error e =>
      rw [hc] at h
      cases h
    | ok u =>
      rw [hc] at h
      obtain ⟨j, -, -, -, hu⟩ := Create_ok_cases s u hc
      obtain ⟨added, hlen, hadd⟩ := ih u t h
      refine ⟨candidate s j :: added, by simp [hlen], ?_⟩
      rw [hadd, hu]
      simp [Create.finish, FemtocellBlockAllocator.afterDraws]

/-- C4: `Create(n)` is `n` calls of `Create()` in sequence. `Create(0)` returns
the allocator unchanged; `Create(n + 1)` is `Create()` followed by `Create(n)`
and also `Create(n)` followed by `Create()`; it aborts exactly when one call of
`Create()`, made after `i < n` completed calls, aborts, and then with the abort
of that call; when it completes, the list of blocks is the former list followed
by exactly `n` new blocks. -/
theorem C4_createN_runs_create_n_times (n : ℕ) (s : FemtocellBlockAllocator) :
    CreateN 0 s = .ok s ∧
    CreateN (n + 1) s = (Create s >>= CreateN n) ∧
    CreateN (n + 1) s = (CreateN n s >>= Create) ∧
    (∀ e, CreateN n s = .error e ↔
      ∃ i < n, ∃ t, CreateN i s = .ok t ∧ Create t = .error e) ∧
    (∀ t, CreateN n s = .ok t →
      ∃ added : List Box, added.length = n ∧
        t.m_previousBlocks = s.m_previousBlocks ++ added) := by
  refine ⟨rfl, ?_, ?_, CreateN_error_iff n s, CreateN_blocks n s⟩
  · rw [Nat.add_comm n 1, CreateN_add 1 n s]
    simp only [CreateN]
    cases Create s <;> rfl
  · rw [CreateN_add n 1 s]
    cases CreateN n s with
    | error e => rfl
    | ok t =>
      show CreateN 1 t = Create t
      simp only [CreateN]
      cases Create t <;> rfl

/-! ## Two concrete runs -/

theorem scenario_first : Create scenarioAllocator = .ok scenarioFirst := by
  rw [Create_accept scenarioAllocator 0 (by omega) (by intro k hk; omega) (by rfl)]
  simp only [Except.ok.injEq]
  simp [candidate, candidateOf, Create.finish, FemtocellBlockAllocator.afterDraws,
    UniformRandomVariable.skip, scenarioAllocator, scenarioFirst,
    FemtocellBlockAllocator.new, stepStream, gridFor]
  norm_num

theorem scenario_second_busy :
    OverlapsWithAnyPrevious scenarioFirst (candidate scenarioFirst 0) = true := by
  simp [OverlapsWithAnyPrevious, OverlapsWithAnyPrevious.loop, candidate, candidateOf,
    AreOverlapping, scenarioFirst, scenarioAllocator, FemtocellBlockAllocator.new, stepStream]
  norm_num

theorem scenario_second_free :
    OverlapsWithAnyPrevious scenarioFirst (candidate scenarioFirst 1) = false := by
  simp [OverlapsWithAnyPrevious, OverlapsWithAnyPrevious.loop, candidate, candidateOf,
    AreOverlapping, scenarioFirst, scenarioAllocator, FemtocellBlockAllocator.new, stepStream]
  norm_num

theorem scenario_second : Create scenarioFirst = .ok scenarioResult := by
  rw [Create_accept scenarioFirst 1 (by omega)
    (by intro k hk; obtain rfl : k = 0 := by omega
        exact scenario_second_busy)
    scenario_second_free]
  simp only [Except.ok.injEq]
  simp [candidate, candidateOf, Create.finish, FemtocellBlockAllocator.afterDraws,
    UniformRandomVariable.skip, scenarioAllocator, scenarioFirst, scenarioResult,
    FemtocellBlockAllocator.new, stepStream, gridFor]
  norm_num

theorem scenario_createN : CreateN 2 scenarioAllocator = .ok scenarioResult := by
  simp only [CreateN, scenario_first, scenario_second]

theorem scenario_run : runCalls [Call.createN 2] scenarioAllocator = .ok scenarioResult := by
  simp only [runCalls, Call.run, scenario_createN]

theorem fallback_createN : CreateN 2 fallbackAllocator = .ok fallbackResult := by
  simp only [CreateN]
  rw [Create_accept fallbackAllocator 0 (by omega) (by intro k hk; omega) (by rfl)]
  simp only []
  rw [Create_accept _ 0 (by omega) (by intro k hk; omega) (by
    simp [OverlapsWithAnyPrevious, OverlapsWithAnyPrevious.loop, candidate, candidateOf,
      AreOverlapping, Create.finish, FemtocellBlockAllocator.afterDraws,
      UniformRandomVariable.skip, fallbackAllocator, FemtocellBlockAllocator.new, stepStream]
    norm_num)]
  simp only [Except.ok.injEq]
  simp [candidate, candidateOf, Create.finish, FemtocellBlockAllocator.afterDraws,
    UniformRandomVariable.skip, fallbackAllocator, fallbackResult,
    FemtocellBlockAllocator.new, stepStream, gridFor]
  norm_num

theorem fallback_run : runCalls [Call.createN 2] fallbackAllocator = .ok fallbackResult := by
  simp only [runCalls, Call.run, fallback_createN]

theorem fallback_busy (k : ℕ) :
    OverlapsWithAnyPrevious fallbackResult (candidate fallbackResult k) = true := by
  simp [OverlapsWithAnyPrevious, OverlapsWithAnyPrevious.loop, candidate, candidateOf,
    AreOverlapping, fallbackResult, fallbackAllocator, FemtocellBlockAllocator.new, stepStream]
  norm_num

theorem fallback_third : CreateN 3 fallbackAllocator = .error fallbackAbort := by
  rw [show (3 : ℕ) = 2 + 1 from rfl, CreateN_add 2 1, fallback_createN]
  show CreateN 1 fallbackResult = _
  simp only [CreateN]
  rw [Create_abort fallbackResult (fun k _ => fallback_busy k)]
  rfl

/-- Witness of C2: on the fallback area with two accepted blocks every
candidate is `(10, 130, 78, 148)` and overlaps the second block, so `Create()`
aborts; on the scenario allocator the first candidate is accepted. -/
theorem C2_witness :
    (∀ k < 100, OverlapsWithAnyPrevious fallbackResult (candidate fallbackResult k) = true) ∧
    (∃ e, Create fallbackResult = .error e) ∧
    ¬ (∃ e, Create scenarioAllocator = .error e) :=
  ⟨fun k _ => fallback_busy k,
    (C2_create_aborts_iff_100_rejected fallbackResult).1.2 (fun k _ => fallback_busy k),
    fun h => by
      have := (C2_create_aborts_iff_100_rejected scenarioAllocator).1.1 h 0 (by omega)
      exact absurd this (by decide)⟩

/-- Witness of C3: after the first block `(100, 220, 200, 270)` of the scenario
the first candidate, again at `x = 100`, is rejected and the second one,
`(500, 620, 200, 270)`, is accepted; the call takes two values of each stream. -/
theorem C3_witness :
    ∃ t b, Create scenarioFirst = .ok t ∧
      t.m_previousBlocks = scenarioFirst.m_previousBlocks ++ [b] ∧
      b.xMin = 500 ∧ b.xMax = 620 ∧ b.yMin = 200 ∧ b.yMax = 270 ∧
      t.m_xMinVar.taken = 1 + 2 ∧ t.m_yMinVar.taken = 1 + 2 := by
  obtain ⟨t, b, ht, hb, h1, h2, h3, h4, h5, h6, -, -⟩ :=
    C3_create_accepts_first_free_candidate scenarioFirst 2 (by decide) (by decide)
      (by
        intro i h1 h2
        obtain rfl : i = 1 := by omega
        exact scenario_second_busy)
      scenario_second_free
  refine ⟨t, b, ht, hb, ?_, ?_, ?_, ?_, h5, h6⟩
  · rw [h1]
    simp [scenarioFirst, scenarioAllocator, FemtocellBlockAllocator.new, stepStream]
  · rw [h2]
    simp [scenarioFirst, scenarioAllocator, FemtocellBlockAllocator.new, stepStream]
    norm_num
  · rw [h3]
    simp [scenarioFirst, scenarioAllocator, FemtocellBlockAllocator.new]
  · rw [h4]
    simp [scenarioFirst, scenarioAllocator, FemtocellBlockAllocator.new]
    norm_num

/-- Witness of C4: `Create(2)` on the scenario allocator completes and adds two
blocks to the empty list; `Create(3)` on the fallback allocator aborts, with the
abort of the `Create()` call made after two completed calls. -/
theorem C4_witness :
    (∃ added : List Box, added.length = 2 ∧
      scenarioResult.m_previousBlocks = scenarioAllocator.m_previousBlocks ++ added) ∧
    (∃ i < 3, ∃ t, CreateN i fallbackAllocator = .ok t ∧ Create t = .error fallbackAbort) :=
  ⟨(C4_createN_runs_create_n_times 2 scenarioAllocator).2.2.2.2 scenarioResult scenario_createN,
    ((C4_createN_runs_create_n_times 3 fallbackAllocator).2.2.2.1 fallbackAbort).1
      fallback_third⟩

/-! ## Invariants of the allocator -/

theorem noOverlap_iff_pairwise (l : List Box) :
    NoOverlap l ↔ l.Pairwise (fun a b => AreOverlapping a b = false) := by
  rw [List.pairwise_iff_get]
  constructor
  · intro h i j hij
    exact h i j (ne_of_lt hij)
  · intro h i j hij
    rcases lt_or_gt_of_ne hij with hlt | hgt
    · exact h i j hlt
    · rw [AreOverlapping_comm]
      exact h j i hgt

theorem Create_blocks (s t : FemtocellBlockAllocator) (h : Create s = .ok t) :
    ∃ j < 100, OverlapsWithAnyPrevious s (candidate s j) = false ∧
      t.m_previousBlocks = s.m_previousBlocks ++ [candidate s j] := by
  obtain ⟨j, hj, -, hfree, rfl⟩ := Create_ok_cases s t h
  exact ⟨j, hj, hfree, rfl⟩

theorem Create_sameConfig (s t : FemtocellBlockAllocator) (h : Create s = .ok t) :
    SameConfig s t := by
  obtain ⟨j, -, -, -, rfl⟩ := Create_ok_cases s t h
  exact ⟨rfl, rfl, rfl, rfl, rfl, rfl, rfl, rfl, rfl, rfl, rfl⟩

theorem runCalls_sameConfig (calls : List Call) (s t : FemtocellBlockAllocator)
    (h : runCalls calls s = .ok t) : SameConfig s t := by
  refine runCalls_induction (fun u => SameConfig s u) ?_ calls s t
    ⟨rfl, rfl, rfl, rfl, rfl, rfl, rfl, rfl, rfl, rfl, rfl⟩ h
  intro u v hu huv
  obtain ⟨h1, h2, h3, h4, h5, h6, h7, h8, h9, h10, h11⟩ := Create_sameConfig u v huv
  obtain ⟨g1, g2, g3, g4, g5, g6, g7, g8, g9, g10, g11⟩ := hu
  exact ⟨h1.trans g1, h2.trans g2, h3.trans g3, h4.trans g4, h5.trans g5, h6.trans g6,
    h7.trans g7, h8.trans g8, h9.trans g9, h10.trans g10, h11.trans g11⟩

theorem runCalls_pairwise (calls : List Call) (s t : FemtocellBlockAllocator)
    (hs : s.m_previousBlocks.Pairwise (fun a b => AreOverlapping a b = false))
    (h : runCalls calls s = .ok t) :
    t.m_previousBlocks.Pairwise (fun a b => AreOverlapping a b = false) := by
  refine runCalls_induction
    (fun u => u.m_previousBlocks.Pairwise (fun a b => AreOverlapping a b = false)) ?_
    calls s t hs h
  intro u v hu huv
  obtain ⟨j, -, hfree, hv⟩ := Create_blocks u v huv
  rw [hv, List.pairwise_append]
  refine ⟨hu, List.pairwise_singleton _ _, ?_⟩
  intro a ha b hb
  rw [List.mem_singleton] at hb
  subst hb
  exact (loop_eq_false_iff _ _).1 hfree a ha

theorem runCalls_isBlock (calls : List Call) (s t : FemtocellBlockAllocator)
    (hs : ∀ b ∈ s.m_previousBlocks, IsBlock s.m_xSize s.m_ySize b)
    (h : runCalls calls s = .ok t) :
    ∀ b ∈ t.m_previousBlocks, IsBlock s.m_xSize s.m_ySize b := by
  refine runCalls_induction
    (fun u => SameConfig s u ∧ ∀ b ∈ u.m_previousBlocks, IsBlock s.m_xSize s.m_ySize b) ?_
    calls s t ⟨⟨rfl, rfl, rfl, rfl, rfl, rfl, rfl, rfl, rfl, rfl, rfl⟩, hs⟩ h |>.2
  rintro u v ⟨hcfg, hu⟩ huv
  have hcfg2 := Create_sameConfig u v huv
  obtain ⟨j, -, -, hv⟩ := Create_blocks u v huv
  refine ⟨?_, ?_⟩
  · obtain ⟨h1, h2, h3, h4, h5, h6, h7, h8, h9, h10, h11⟩ := hcfg2
    obtain ⟨g1, g2, g3, g4, g5, g6, g7, g8, g9, g10, g11⟩ := hcfg
    exact ⟨h1.trans g1, h2.trans g2, h3.trans g3, h4.trans g4, h5.trans g5, h6.trans g6,
      h7.trans g7, h8.trans g8, h9.trans g9, h10.trans g10, h11.trans g11⟩
  · intro b hb
    rw [hv, List.mem_append, List.mem_singleton] at hb
    rcases hb with hb | rfl
    · exact hu b hb
    · exact ⟨by rw [← hcfg.2.2.2.1]; rfl, by rw [← hcfg.2.2.2.2.1]; rfl⟩

theorem runCalls_contained (calls : List Call) (s t : FemtocellBlockAllocator)
    (hx : ∀ i, s.m_area.xMin ≤ s.m_xMinVar.stream i ∧
      s.m_xMinVar.stream i + s.m_xSize ≤ s.m_area.xMax)
    (hy : ∀ i, s.m_area.yMin ≤ s.m_yMinVar.stream i ∧
      s.m_yMinVar.stream i + s.m_ySize ≤ s.m_area.yMax)
    (hs : ∀ b ∈ s.m_previousBlocks, ContainedIn s.m_area b)
    (h : runCalls calls s = .ok t) :
    ∀ b ∈ t.m_previousBlocks, ContainedIn s.m_area b := by
  refine runCalls_induction
    (fun u => SameConfig s u ∧ ∀ b ∈ u.m_previousBlocks, ContainedIn s.m_area b) ?_
    calls s t ⟨⟨rfl, rfl, rfl, rfl, rfl, rfl, rfl, rfl, rfl, rfl, rfl⟩, hs⟩ h |>.2
  rintro u v ⟨hcfg, hu⟩ huv
  have hcfg2 := Create_sameConfig u v huv
  obtain ⟨j, -, -, hv⟩ := Create_blocks u v huv
  refine ⟨?_, ?_⟩
  · obtain ⟨h1, h2, h3, h4, h5, h6, h7, h8, h9, h10, h11⟩ := hcfg2
    obtain ⟨g1, g2, g3, g4, g5, g6, g7, g8, g9, g10, g11⟩ := hcfg
    exact ⟨h1.trans g1, h2.trans g2, h3.trans g3, h4.trans g4, h5.trans g5, h6.trans g6,
      h7.trans g7, h8.trans g8, h9.trans g9, h10.trans g10, h11.trans g11⟩
  · intro b hb
    rw [hv, List.mem_append, List.mem_singleton] at hb
    rcases hb with hb | rfl
    · exact hu b hb
    · obtain ⟨-, -, -, g4, g5, -, -, g8, -, -, g11⟩ := hcfg
      simp only [ContainedIn, candidate, candidateOf, g4, g5, g8, g11]
      exact ⟨(hx _).1, (hx _).2, (hy _).1, (hy _).2⟩

/-! ## The claims on the accepted blocks -/

/-- C1: in an allocator that started with an empty list of blocks, after any
sequence of completed calls of `Create()` and `Create(n)`, two accepted blocks
at distinct positions of the list never overlap. -/
theorem C1_accepted_blocks_never_overlap (s0 : FemtocellBlockAllocator)
    (h0 : s0.m_previousBlocks = []) (calls : List Call) (s : FemtocellBlockAllocator)
    (h : runCalls calls s0 = .ok s) :
    ∀ i j : Fin s.m_previousBlocks.length, i ≠ j →
      AreOverlapping (s.m_previousBlocks.get i) (s.m_previousBlocks.get j) = false := by
  have hp := runCalls_pairwise calls s0 s (by rw [h0]; exact List.Pairwise.nil) h
  exact (noOverlap_iff_pairwise _).2 hp

/-- Witness of C1: the scenario allocator after `Create(2)` holds the blocks
`(100, 220, 200, 270)` and `(500, 620, 200, 270)`, which do not overlap. -/
theorem C1_witness :
    scenarioAllocator.m_previousBlocks = [] ∧
    runCalls [Call.createN 2] scenarioAllocator = .ok scenarioResult ∧
    ∀ i j : Fin scenarioResult.m_previousBlocks.length, i ≠ j →
      AreOverlapping (scenarioResult.m_previousBlocks.get i)
        (scenarioResult.m_previousBlocks.get j) = false :=
  ⟨rfl, scenario_run,
    C1_accepted_blocks_never_overlap scenarioAllocator rfl [Call.createN 2] scenarioResult
      scenario_run⟩

/-- C6: when every value of the two streams lies between the `Min` and the
`Max` that the constructor configures, `[area.xMin, area.xMax - xSize]` and
`[area.yMin, area.yMax - ySize]`, every accepted block lies inside the area. -/
theorem C6_blocks_inside_area (area : Box) (nApartmentsX nFloors : ℕ)
    (xStream yStream : ℕ → ℚ)
    (hx : (FemtocellBlockAllocator.new area nApartmentsX nFloors xStream yStream).m_xMinVar.InRange)
    (hy : (FemtocellBlockAllocator.new area nApartmentsX nFloors xStream yStream).m_yMinVar.InRange)
    (calls : List Call) (s : FemtocellBlockAllocator)
    (h : runCalls calls (FemtocellBlockAllocator.new area nApartmentsX nFloors xStream yStream)
      = .ok s) :
    ∀ b ∈ s.m_previousBlocks,
      area.xMin ≤ b.xMin ∧ b.xMax ≤ area.xMax ∧ area.yMin ≤ b.yMin ∧ b.yMax ≤ area.yMax := by
  refine runCalls_contained calls _ s ?_ ?_ (by intro b hb; cases hb) h
  · intro i
    have := hx i
    simp only [FemtocellBlockAllocator.new] at this ⊢
    exact ⟨this.1, by linarith [this.2]⟩
  · intro i
    have := hy i
    simp only [FemtocellBlockAllocator.new] at this ⊢
    exact ⟨this.1, by linarith [this.2]⟩

/-- Witness of C6: on `Box(0, 1000, 0, 1000, 1.5, 1.5)` with `nApartmentsX = 10`
the streams `100, 100, 500, ...` and `200, 200, ...` lie in `[0, 880]` and
`[0, 930]`, and the two blocks accepted by `Create(2)` lie inside the area. -/
theorem C6_witness :
    scenarioAllocator.m_xMinVar.InRange ∧ scenarioAllocator.m_yMinVar.InRange ∧
    ∀ b ∈ scenarioResult.m_previousBlocks,
      scenarioArea.xMin ≤ b.xMin ∧ b.xMax ≤ scenarioArea.xMax ∧
      scenarioArea.yMin ≤ b.yMin ∧ b.yMax ≤ scenarioArea.yMax :=
  have hx : scenarioAllocator.m_xMinVar.InRange := by
    intro i
    simp only [scenarioAllocator, FemtocellBlockAllocator.new, scenarioArea, stepStream]
    split <;> norm_num
  have hy : scenarioAllocator.m_yMinVar.InRange := by
    intro i
    simp only [scenarioAllocator, FemtocellBlockAllocator.new, scenarioArea]
    norm_num
  ⟨hx, hy,
    C6_blocks_inside_area scenarioArea 10 1 (stepStream 2 100 500) (fun _ => 200) hx hy
      [Call.createN 2] scenarioResult scenario_run⟩

/-! ## The overlap test -/

theorem AreOverlapping_eq_false_iff (a b : Box) :
    AreOverlapping a b = false ↔
      (b.xMax < a.xMin ∨ a.xMax < b.xMin ∨ b.yMax < a.yMin ∨ a.yMax < b.yMin) := by
  simp only [AreOverlapping, Bool.not_eq_false', Bool.or_eq_true, decide_eq_true_eq, gt_iff_lt,
    or_assoc]

/-- C7: for boxes with `xMin ≤ xMax` and `yMin ≤ yMax`, `AreOverlapping` is false
exactly when one box lies entirely to the left of, to the right of, below or
above the other, and it is true exactly when the two closed rectangles
`[xMin, xMax] × [yMin, yMax]` have a point in common. -/
theorem C7_overlap_iff_common_point (a b : Box)
    (ha : a.xMin ≤ a.xMax ∧ a.yMin ≤ a.yMax) (hb : b.xMin ≤ b.xMax ∧ b.yMin ≤ b.yMax) :
    (AreOverlapping a b = false ↔
      (a.xMax < b.xMin ∨ b.xMax < a.xMin ∨ a.yMax < b.yMin ∨ b.yMax < a.yMin)) ∧
    (AreOverlapping a b = true ↔
      ∃ x y : ℚ, (a.xMin ≤ x ∧ x ≤ a.xMax ∧ a.yMin ≤ y ∧ y ≤ a.yMax) ∧
        (b.xMin ≤ x ∧ x ≤ b.xMax ∧ b.yMin ≤ y ∧ y ≤ b.yMax)) := by
  constructor
  · rw [AreOverlapping_eq_false_iff]
    tauto
  · rw [← Bool.not_eq_false, AreOverlapping_eq_false_iff]
    constructor
    · intro h
      simp only [not_or, not_lt] at h
      obtain ⟨h1, h2, h3, h4⟩ := h
      refine ⟨max a.xMin b.xMin, max a.yMin b.yMin,
        ⟨le_max_left _ _, max_le ha.1 h2, le_max_left _ _, max_le ha.2 h4⟩,
        ⟨le_max_right _ _, max_le h1 hb.1, le_max_right _ _, max_le h3 hb.2⟩⟩
    · rintro ⟨x, y, ⟨a1, a2, a3, a4⟩, ⟨b1, b2, b3, b4⟩⟩ h
      rcases h with h | h | h | h <;> linarith

/-- Witness of C7: the boxes `(0, 120, 0, 70)` and `(120, 240, 70, 140)` touch
in one corner, so they overlap. -/
theorem C7_witness :
    (AreOverlapping boxA boxB = false ↔
      (boxA.xMax < boxB.xMin ∨ boxB.xMax < boxA.xMin ∨ boxA.yMax < boxB.yMin ∨
        boxB.yMax < boxA.yMin)) ∧
    (AreOverlapping boxA boxB = true ↔
      ∃ x y : ℚ, (boxA.xMin ≤ x ∧ x ≤ boxA.xMax ∧ boxA.yMin ≤ y ∧ y ≤ boxA.yMax) ∧
        (boxB.xMin ≤ x ∧ x ≤ boxB.xMax ∧ boxB.yMin ≤ y ∧ y ≤ boxB.yMax)) :=
  C7_overlap_iff_common_point boxA boxB
    (by simp only [boxA]; norm_num) (by simp only [boxB]; norm_num)

/-! ## The macro coverage box -/

/-- C9: with `nMacroEnbSites = 0` the macro coverage box is
`(0, 150, 0, 150, 1.5, 1.5)`, whatever the other parameters are. -/
theorem C9_fallback_box (nMacroEnbSitesX : ℕ) (interSiteDistance areaMarginFactor sqrt075 : ℚ) :
    macroUeBox 0 nMacroEnbSitesX interSiteDistance areaMarginFactor sqrt075 =
      { xMin := 0, xMax := 150, yMin := 0, yMax := 150, zMin := 1.5, zMax := 1.5 } := by
  simp [macroUeBox]

theorem runCalls_createN (n : ℕ) (s : FemtocellBlockAllocator) :
    runCalls [Call.createN n] s = CreateN n s := by
  simp only [runCalls, Call.run]
  cases CreateN n s <;> rfl

/-- The blocks accepted from a fresh allocator whose streams stay in the
configured ranges are blocks of the configured size, inside the area, and
pairwise non-overlapping. -/
theorem reachable_blocks (area : Box) (nApartmentsX nFloors : ℕ) (xStream yStream : ℕ → ℚ)
    (hx : (FemtocellBlockAllocator.new area nApartmentsX nFloors xStream yStream).m_xMinVar.InRange)
    (hy : (FemtocellBlockAllocator.new area nApartmentsX nFloors xStream yStream).m_yMinVar.InRange)
    (calls : List Call) (s : FemtocellBlockAllocator)
    (h : runCalls calls (FemtocellBlockAllocator.new area nApartmentsX nFloors xStream yStream)
      = .ok s) :
    (∀ b ∈ s.m_previousBlocks,
      IsBlock (((nApartmentsX * 10 + 20) % 2 ^ 32 : ℕ) : ℚ) 70 b ∧ ContainedIn area b) ∧
    NoOverlap s.m_previousBlocks := by
  refine ⟨fun b hb => ⟨?_, ?_⟩, ?_⟩
  · exact runCalls_isBlock calls _ s (by intro b hb; cases hb) h b hb
  · refine runCalls_contained calls _ s ?_ ?_ (by intro b hb; cases hb) h b hb
    · intro i
      have := hx i
      simp only [FemtocellBlockAllocator.new] at this ⊢
      exact ⟨this.1, by linarith [this.2]⟩
    · intro i
      have := hy i
      simp only [FemtocellBlockAllocator.new] at this ⊢
      exact ⟨this.1, by linarith [this.2]⟩
  · exact (noOverlap_iff_pairwise _).2 (runCalls_pairwise calls _ s List.Pairwise.nil h)

/-- In a full area every candidate within the configured ranges overlaps an
accepted block. -/
theorem full_area_rejects (area : Box) (nApartmentsX nFloors : ℕ) (xStream yStream : ℕ → ℚ)
    (hx : (FemtocellBlockAllocator.new area nApartmentsX nFloors xStream yStream).m_xMinVar.InRange)
    (hy : (FemtocellBlockAllocator.new area nApartmentsX nFloors xStream yStream).m_yMinVar.InRange)
    (k : ℕ) (hcap : HoldsAtMost area (((nApartmentsX * 10 + 20) % 2 ^ 32 : ℕ) : ℚ) 70 k)
    (calls : List Call) (s : FemtocellBlockAllocator)
    (h : runCalls calls (FemtocellBlockAllocator.new area nApartmentsX nFloors xStream yStream)
      = .ok s)
    (hk : s.m_previousBlocks.length = k) (j : ℕ) :
    OverlapsWithAnyPrevious s (candidate s j) = true := by
  by_contra hfree
  rw [Bool.not_eq_true] at hfree
  obtain ⟨hblocks, hno⟩ := reachable_blocks area nApartmentsX nFloors xStream yStream hx hy calls s h
  obtain ⟨-, -, -, g4, g5, -, -, g8, -, -, g11⟩ := runCalls_sameConfig calls _ s h
  have hlen := hcap (s.m_previousBlocks ++ [candidate s j]) ?_ ?_
  · rw [List.length_append, List.length_singleton, hk] at hlen
    omega
  · intro b hb
    rw [List.mem_append, List.mem_singleton] at hb
    rcases hb with hb | rfl
    · exact hblocks b hb
    · have hxj := hx (s.m_xMinVar.taken + j)
      have hyj := hy (s.m_yMinVar.taken + j)
      simp only [FemtocellBlockAllocator.new] at hxj hyj g4 g5 g8 g11
      simp only [IsBlock, ContainedIn, candidate, candidateOf, g4, g5, g8, g11]
      exact ⟨⟨trivial, trivial⟩, hxj.1, by linarith [hxj.2], hyj.1, by linarith [hyj.2]⟩
  · rw [noOverlap_iff_pairwise, List.pairwise_append]
    refine ⟨(noOverlap_iff_pairwise _).1 hno, List.pairwise_singleton _ _, ?_⟩
    intro a ha b hb
    rw [List.mem_singleton] at hb
    subst hb
    exact (loop_eq_false_iff _ _).1 hfree a ha

/-- The fallback area `150 × 150` holds at most two blocks of `120 × 70`. -/
theorem fallback_holds_two : HoldsAtMost fallbackArea 120 70 2 := by
  intro l hl hno
  rw [noOverlap_iff_pairwise] at hno
  match l, hl, hno with
  | [], _, _ => simp
  | [_], _, _ => simp
  | [_, _], _, _ => simp
  | a :: b :: c :: rest, hl, hno =>
    exfalso
    obtain ⟨⟨ax, ay⟩, a1, a2, a3, a4⟩ := hl a (by simp)
    obtain ⟨⟨bx, bY⟩, b1, b2, b3, b4⟩ := hl b (by simp)
    obtain ⟨⟨cx, cy⟩, c1, c2, c3, c4⟩ := hl c (by simp)
    simp only [fallbackArea] at a1 a2 a3 a4 b1 b2 b3 b4 c1 c2 c3 c4
    rw [List.pairwise_cons, List.pairwise_cons] at hno
    have hab := (AreOverlapping_eq_false_iff a b).1 (hno.1 b (by simp))
    have hac := (AreOverlapping_eq_false_iff a c).1 (hno.1 c (by simp))
    have hbc := (AreOverlapping_eq_false_iff b c).1 (hno.2.1 c (by simp))
    rcases hab with h1 | h1 | h1 | h1 <;> rcases hac with h2 | h2 | h2 | h2 <;>
      rcases hbc with h3 | h3 | h3 | h3 <;> linarith

/-- C8: when the area holds at most `k` pairwise non-overlapping blocks of the
allocator's size and the values of both streams stay in the configured ranges,
an allocator that has accepted `k` blocks rejects every candidate, so its next
`Create()` aborts with `attempt = 100` after exactly 100 values of each stream;
hence `Create(n)` on the fresh allocator aborts for every `n > k`. -/
theorem C8_full_area_create_aborts (area : Box) (nApartmentsX nFloors : ℕ)
    (xStream yStream : ℕ → ℚ)
    (hx : (FemtocellBlockAllocator.new area nApartmentsX nFloors xStream yStream).m_xMinVar.InRange)
    (hy : (FemtocellBlockAllocator.new area nApartmentsX nFloors xStream yStream).m_yMinVar.InRange)
    (k : ℕ) (hcap : HoldsAtMost area (((nApartmentsX * 10 + 20) % 2 ^ 32 : ℕ) : ℚ) 70 k) :
    (∀ (calls : List Call) (s : FemtocellBlockAllocator),
      runCalls calls (FemtocellBlockAllocator.new area nApartmentsX nFloors xStream yStream)
        = .ok s →
      s.m_previousBlocks.length = k →
      (∀ j < 100, OverlapsWithAnyPrevious s (candidate s j) = true) ∧
      Create s =
        .error { msg := tooManyAttempts, attempt := 100, allocator := s.afterDraws 100 }) ∧
    (∀ n, k < n →
      ∃ e, CreateN n (FemtocellBlockAllocator.new area nApartmentsX nFloors xStream yStream)
        = .error e) := by
  constructor
  · intro calls s h hk
    have hall := full_area_rejects area nApartmentsX nFloors xStream yStream hx hy k hcap calls s
      h hk
    exact ⟨fun j _ => hall j, Create_abort s (fun j _ => hall j)⟩
  · intro n hn
    cases hc : CreateN n (FemtocellBlockAllocator.new area nApartmentsX nFloors xStream yStream)
      with
    | error e => exact ⟨e, rfl⟩
    | ok t =>
      exfalso
      have hrun : runCalls [Call.createN n]
          (FemtocellBlockAllocator.new area nApartmentsX nFloors xStream yStream) = .ok t := by
        rw [runCalls_createN, hc]
      obtain ⟨hblocks, hno⟩ :=
        reachable_blocks area nApartmentsX nFloors xStream yStream hx hy _ t hrun
      obtain ⟨added, hlen, hadd⟩ := CreateN_blocks n _ t hc
      have := hcap t.m_previousBlocks hblocks hno
      rw [hadd, List.length_append, hlen] at this
      simp only [FemtocellBlockAllocator.new, List.length_nil] at this
      omega

/-- Witness of C8: the fallback area `Box(0, 150, 0, 150)` with
`nApartmentsX = 10` holds at most two blocks; after `Create(2)` has accepted
`(10, 130, 5, 75)` and `(10, 130, 78, 148)` the next `Create()` aborts, and
`Create(3)` on the fresh allocator aborts. -/
theorem C8_witness :
    fallbackAllocator.m_xMinVar.InRange ∧ fallbackAllocator.m_yMinVar.InRange ∧
    HoldsAtMost fallbackArea (((10 * 10 + 20) % 2 ^ 32 : ℕ) : ℚ) 70 2 ∧
    runCalls [Call.createN 2] fallbackAllocator = .ok fallbackResult ∧
    fallbackResult.m_previousBlocks.length = 2 ∧
    Create fallbackResult =
      .error { msg := tooManyAttempts, attempt := 100
               allocator := fallbackResult.afterDraws 100 } ∧
    ∃ e, CreateN 3 fallbackAllocator = .error e :=
  have hx : fallbackAllocator.m_xMinVar.InRange := by
    intro i
    simp only [fallbackAllocator, FemtocellBlockAllocator.new, fallbackArea]
    norm_num
  have hy : fallbackAllocator.m_yMinVar.InRange := by
    intro i
    simp only [fallbackAllocator, FemtocellBlockAllocator.new, fallbackArea, stepStream]
    split <;> norm_num
  have hcap : HoldsAtMost fallbackArea (((10 * 10 + 20) % 2 ^ 32 : ℕ) : ℚ) 70 2 := by
    have h120 : (((10 * 10 + 20) % 2 ^ 32 : ℕ) : ℚ) = 120 := by norm_num
    rw [h120]
    exact fallback_holds_two
  have hmain :=
    C8_full_area_create_aborts fallbackArea 10 1 (fun _ => 10) (stepStream 1 5 78) hx hy 2 hcap
  ⟨hx, hy, hcap, fallback_run, rfl, (hmain.1 [Call.createN 2] fallbackResult fallback_run rfl).2,
    hmain.2 3 (by decide)⟩

/-! ## The derived row count -/

theorem rowCapacity_even (nMacroEnbSitesX a : ℕ) :
    rowCapacity nMacroEnbSitesX (2 * a) = a * (2 * nMacroEnbSitesX + 1) := by
  simp only [rowCapacity]
  rw [show 2 * a / 2 = a by omega, show 2 * a % 2 = 0 by omega]
  simp

theorem rowCapacity_odd (nMacroEnbSitesX a : ℕ) :
    rowCapacity nMacroEnbSitesX (2 * a + 1) =
      a * (2 * nMacroEnbSitesX + 1) + nMacroEnbSitesX := by
  simp only [rowCapacity]
  rw [show (2 * a + 1) / 2 = a by omega, show (2 * a + 1) % 2 = 1 by omega]
  simp

theorem rowCapacity_le_succ (nMacroEnbSitesX r : ℕ) :
    rowCapacity nMacroEnbSitesX r ≤ rowCapacity nMacroEnbSitesX (r + 1) := by
  rcases Nat.even_or_odd' r with ⟨a, rfl | rfl⟩
  · rw [rowCapacity_even, rowCapacity_odd]
    omega
  · rw [show 2 * a + 1 + 1 = 2 * (a + 1) by omega, rowCapacity_even, rowCapacity_odd,
      Nat.add_mul]
    omega

theorem rowCapacity_mono (nMacroEnbSitesX : ℕ) : Monotone (rowCapacity nMacroEnbSitesX) :=
  monotone_nat_of_le_succ (rowCapacity_le_succ nMacroEnbSitesX)

/-- Without wrap-around the derived row count is the arithmetic expression of
the quotient and the remainder of `nMacroEnbSites - 1` by
`2 * nMacroEnbSitesX + 1`. -/
theorem nMacroEnbSitesY_eq (nMacroEnbSites nMacroEnbSitesX : ℕ) (h1 : 1 ≤ nMacroEnbSites)
    (hn : nMacroEnbSites < 2 ^ 32) (hx : 2 * nMacroEnbSitesX + 1 < 2 ^ 32)
    (hw : 1 ≤ nMacroEnbSitesX ∨ nMacroEnbSites < 2 ^ 31) :
    nMacroEnbSitesY nMacroEnbSites nMacroEnbSitesX =
      2 * ((nMacroEnbSites - 1) / (2 * nMacroEnbSitesX + 1)) + 1 +
        (if (nMacroEnbSites - 1) % (2 * nMacroEnbSitesX + 1) ≥ nMacroEnbSitesX then 1 else 0) := by
  have hc : (nMacroEnbSites + 2 ^ 32 - 1) % 2 ^ 32 = nMacroEnbSites - 1 := by omega
  have hd : (nMacroEnbSitesX + nMacroEnbSitesX + 1) % 2 ^ 32 = 2 * nMacroEnbSitesX + 1 := by
    omega
  simp only [nMacroEnbSitesY, hc, hd]
  have hdiv := Nat.div_add_mod (nMacroEnbSites - 1) (2 * nMacroEnbSitesX + 1)
  have hmod := Nat.mod_lt (nMacroEnbSites - 1) (show 0 < 2 * nMacroEnbSitesX + 1 by omega)
  generalize (nMacroEnbSites - 1) / (2 * nMacroEnbSitesX + 1) = q at hdiv ⊢
  generalize (nMacroEnbSites - 1) % (2 * nMacroEnbSitesX + 1) = m at hdiv hmod ⊢
  have hq : 2 * q + 2 < 2 ^ 32 := by
    rcases hw with hw | hw
    · have h3 : 3 * q ≤ (2 * nMacroEnbSitesX + 1) * q :=
        Nat.mul_le_mul_right q (by omega)
      omega
    · by_cases h0 : nMacroEnbSitesX = 0
      · subst h0
        simp only [Nat.mul_zero, Nat.zero_add, Nat.one_mul] at hdiv
        omega
      · have h3 : 3 * q ≤ (2 * nMacroEnbSitesX + 1) * q :=
          Nat.mul_le_mul_right q (by omega)
        omega
  split <;> omega

theorem nMacroEnbSitesY_wrapped : nMacroEnbSitesY 2147483648 0 = 0 := by decide

theorem nMacroEnbSitesY_default : nMacroEnbSitesY 3 1 = 2 := by decide

/-- C12, as stated, fails for `nMacroEnbSites = 2 ^ 31` and
`nMacroEnbSitesX = 0`, where `2 * nMacroEnbSitesX + 1 < 2 ^ 32` holds: the
expression of the claim is `2 ^ 32`, but the `uint32_t` increment of `rowIndex`
wraps and the derived row count is `0`, which is not at least `1`. -/
theorem C12_counterexample :
    1 ≤ 2147483648 ∧ 2 * 0 + 1 < 2 ^ 32 ∧
    nMacroEnbSitesY 2147483648 0 = 0 ∧
    2 * ((2147483648 - 1) / (2 * 0 + 1)) + 1 +
      (if (2147483648 - 1) % (2 * 0 + 1) ≥ 0 then 1 else 0) = 2 ^ 32 ∧
    ¬ (1 ≤ nMacroEnbSitesY 2147483648 0) := by
  refine ⟨by decide, by decide, nMacroEnbSitesY_wrapped, by decide, ?_⟩
  rw [nMacroEnbSitesY_wrapped]
  decide

/-- C12, amended: for `1 ≤ nMacroEnbSites < 2 ^ 32` and
`2 * nMacroEnbSitesX + 1 < 2 ^ 32`, when `nMacroEnbSitesX ≥ 1` or
`nMacroEnbSites < 2 ^ 31`, the derived row count is
`2 * ((nMacroEnbSites - 1) div (2 * nMacroEnbSitesX + 1)) + 1`, plus one when the
remainder is at least `nMacroEnbSitesX`; it is the least number of rows whose
capacity reaches `nMacroEnbSites`, and it is at least `1`. -/
theorem C12_row_count (nMacroEnbSites nMacroEnbSitesX : ℕ) (h1 : 1 ≤ nMacroEnbSites)
    (hn : nMacroEnbSites < 2 ^ 32) (hx : 2 * nMacroEnbSitesX + 1 < 2 ^ 32)
    (hw : 1 ≤ nMacroEnbSitesX ∨ nMacroEnbSites < 2 ^ 31) :
    nMacroEnbSitesY nMacroEnbSites nMacroEnbSitesX =
      2 * ((nMacroEnbSites - 1) / (2 * nMacroEnbSitesX + 1)) + 1 +
        (if (nMacroEnbSites - 1) % (2 * nMacroEnbSitesX + 1) ≥ nMacroEnbSitesX then 1 else 0) ∧
    nMacroEnbSites ≤ rowCapacity nMacroEnbSitesX (nMacroEnbSitesY nMacroEnbSites nMacroEnbSitesX) ∧
    (∀ r < nMacroEnbSitesY nMacroEnbSites nMacroEnbSitesX,
      rowCapacity nMacroEnbSitesX r < nMacroEnbSites) ∧
    1 ≤ nMacroEnbSitesY nMacroEnbSites nMacroEnbSitesX := by
  have heq := nMacroEnbSitesY_eq nMacroEnbSites nMacroEnbSitesX h1 hn hx hw
  refine ⟨heq, ?_⟩
  rw [heq]
  have hdiv := Nat.div_add_mod (nMacroEnbSites - 1) (2 * nMacroEnbSitesX + 1)
  have hmod := Nat.mod_lt (nMacroEnbSites - 1) (show 0 < 2 * nMacroEnbSitesX + 1 by omega)
  generalize (nMacroEnbSites - 1) / (2 * nMacroEnbSitesX + 1) = q at hdiv ⊢
  generalize (nMacroEnbSites - 1) % (2 * nMacroEnbSitesX + 1) = m at hdiv hmod ⊢
  rw [Nat.mul_comm] at hdiv
  have heven := rowCapacity_even nMacroEnbSitesX q
  have hodd := rowCapacity_odd nMacroEnbSitesX q
  have heven2 := rowCapacity_even nMacroEnbSitesX (q + 1)
  rw [Nat.add_mul, Nat.one_mul] at heven2
  by_cases hm : m ≥ nMacroEnbSitesX
  · rw [if_pos hm, show 2 * q + 1 + 1 = 2 * (q + 1) by omega]
    refine ⟨by omega, ?_, by omega⟩
    intro r hr
    have hle := rowCapacity_mono nMacroEnbSitesX (show r ≤ 2 * q + 1 by omega)
    omega
  · rw [if_neg hm, Nat.add_zero]
    refine ⟨by omega, ?_, by omega⟩
    intro r hr
    have hle := rowCapacity_mono nMacroEnbSitesX (show r ≤ 2 * q by omega)
    omega

/-- Witness of C12: the default parameters `nMacroEnbSites = 3` and
`nMacroEnbSitesX = 1` give two rows, holding one and two sites. -/
theorem C12_witness :
    nMacroEnbSitesY 3 1 = 2 * ((3 - 1) / (2 * 1 + 1)) + 1 +
        (if (3 - 1) % (2 * 1 + 1) ≥ 1 then 1 else 0) ∧
    3 ≤ rowCapacity 1 (nMacroEnbSitesY 3 1) ∧
    (∀ r < nMacroEnbSitesY 3 1, rowCapacity 1 r < 3) ∧
    1 ≤ nMacroEnbSitesY 3 1 :=
  C12_row_count 3 1 (by decide) (by decide) (by decide) (Or.inl (by decide))

/-! ## The y range of the macro coverage box -/

theorem runCalls_z_range (calls : List Call) (s t : FemtocellBlockAllocator)
    (hs : ∀ b ∈ s.m_previousBlocks, b.zMin ≤ b.zMax) (h : runCalls calls s = .ok t) :
    ∀ b ∈ t.m_previousBlocks, b.zMin ≤ b.zMax := by
  refine runCalls_induction (fun u => ∀ b ∈ u.m_previousBlocks, b.zMin ≤ b.zMax) ?_
    calls s t hs h
  intro u v hu huv
  obtain ⟨j, -, -, hv⟩ := Create_blocks u v huv
  intro b hb
  rw [hv, List.mem_append, List.mem_singleton] at hb
  rcases hb with hb | rfl
  · exact hu b hb
  · exact le_refl (0 : ℚ)

/-- C16, as stated, fails for the macro coverage box: with
`areaMarginFactor = -2` (and the defaults otherwise) the box has `xMin = 1000`
and `xMax = -500`. -/
theorem C16_counterexample :
    (macroUeBox 3 1 500 (-2) sqrt075Double).xMin = 1000 ∧
    (macroUeBox 3 1 500 (-2) sqrt075Double).xMax = -500 ∧
    ¬ ((macroUeBox 3 1 500 (-2) sqrt075Double).xMin ≤
      (macroUeBox 3 1 500 (-2) sqrt075Double).xMax) := by
  simp only [macroUeBox]
  norm_num

/-- C16, amended: the macro coverage box of every configuration with
`interSiteDistance ≥ 0` and `areaMarginFactor ≥ 0`, and every block accepted by
the allocator, satisfy `xMin ≤ xMax`, `yMin ≤ yMax` and `zMin ≤ zMax`.
(`sqrt075`, the value of `sqrt(0.75)`, is non-negative.) -/
theorem C16_boxes_well_formed (nMacroEnbSites nMacroEnbSitesX : ℕ)
    (interSiteDistance areaMarginFactor sqrt075 : ℚ)
    (hisd : 0 ≤ interSiteDistance) (hamf : 0 ≤ areaMarginFactor) (hsqrt : 0 ≤ sqrt075)
    (area : Box) (nApartmentsX nFloors : ℕ) (xStream yStream : ℕ → ℚ) (calls : List Call)
    (s : FemtocellBlockAllocator)
    (h : runCalls calls (FemtocellBlockAllocator.new area nApartmentsX nFloors xStream yStream)
      = .ok s) :
    ((macroUeBox nMacroEnbSites nMacroEnbSitesX interSiteDistance areaMarginFactor sqrt075).xMin ≤
      (macroUeBox nMacroEnbSites nMacroEnbSitesX interSiteDistance areaMarginFactor sqrt075).xMax ∧
     (macroUeBox nMacroEnbSites nMacroEnbSitesX interSiteDistance areaMarginFactor sqrt075).yMin ≤
      (macroUeBox nMacroEnbSites nMacroEnbSitesX interSiteDistance areaMarginFactor sqrt075).yMax ∧
     (macroUeBox nMacroEnbSites nMacroEnbSitesX interSiteDistance areaMarginFactor sqrt075).zMin ≤
      (macroUeBox nMacroEnbSites nMacroEnbSitesX interSiteDistance areaMarginFactor sqrt075).zMax) ∧
    (∀ b ∈ s.m_previousBlocks, b.xMin ≤ b.xMax ∧ b.yMin ≤ b.yMax ∧ b.zMin ≤ b.zMax) := by
  constructor
  · have hmargin : 0 ≤ areaMarginFactor * interSiteDistance := mul_nonneg hamf hisd
    by_cases hsites : nMacroEnbSites > 0
    · simp only [macroUeBox, if_pos hsites]
      have hnx : (0 : ℚ) ≤ (nMacroEnbSitesX : ℚ) := Nat.cast_nonneg _
      have hrows : (0 : ℚ) ≤
          (((nMacroEnbSitesY nMacroEnbSites nMacroEnbSitesX + 2 ^ 32 - 1) % 2 ^ 32 : ℕ) : ℚ) :=
        Nat.cast_nonneg _
      have hwidth : 0 ≤ ((nMacroEnbSitesX : ℚ) + areaMarginFactor) * interSiteDistance :=
        mul_nonneg (add_nonneg hnx hamf) hisd
      have hheight : 0 ≤
          (((nMacroEnbSitesY nMacroEnbSites nMacroEnbSitesX + 2 ^ 32 - 1) % 2 ^ 32 : ℕ) : ℚ) *
            interSiteDistance * sqrt075 :=
        mul_nonneg (mul_nonneg hrows hisd) hsqrt
      refine ⟨?_, ?_, le_refl _⟩
      · linarith
      · linarith
    · simp only [macroUeBox, if_neg hsites]
      norm_num
  · intro b hb
    obtain ⟨hbx, hby⟩ := runCalls_isBlock calls _ s (by intro b hb; cases hb) h b hb
    have hz := runCalls_z_range calls _ s (by intro b hb; cases hb) h b hb
    simp only [FemtocellBlockAllocator.new] at hbx hby
    have hsize : (0 : ℚ) ≤ (((nApartmentsX * 10 + 20) % 2 ^ 32 : ℕ) : ℚ) := Nat.cast_nonneg _
    refine ⟨?_, ?_, hz⟩
    · rw [hbx]
      linarith
    · rw [hby]
      linarith

/-- Witness of C16: the default macro coverage box and the two blocks of the
scenario allocator after `Create(2)` are well formed. -/
theorem C16_witness :
    ((macroUeBox 3 1 500 0.5 sqrt075Double).xMin ≤ (macroUeBox 3 1 500 0.5 sqrt075Double).xMax ∧
     (macroUeBox 3 1 500 0.5 sqrt075Double).yMin ≤ (macroUeBox 3 1 500 0.5 sqrt075Double).yMax ∧
     (macroUeBox 3 1 500 0.5 sqrt075Double).zMin ≤ (macroUeBox 3 1 500 0.5 sqrt075Double).zMax) ∧
    (∀ b ∈ scenarioResult.m_previousBlocks, b.xMin ≤ b.xMax ∧ b.yMin ≤ b.yMax ∧ b.zMin ≤ b.zMax) :=
  C16_boxes_well_formed 3 1 500 0.5 sqrt075Double (by norm_num) (by norm_num)
    (by simp only [sqrt075Double]; norm_num)
    scenarioArea 10 1 (stepStream 2 100 500) (fun _ => 200) [Call.createN 2] scenarioResult
    scenario_run

/-- C19, as stated, fails for `nMacroEnbSites = 1431655766`: the `uint32_t`
product `3 * nMacroEnbSites` wraps and `macroEnbs.Create` is asked for `2`
nodes, not for `4294967298`. -/
theorem C19_counterexample :
    nMacroEnbs 1431655766 = 2 ∧ nMacroEnbs 1431655766 ≠ 3 * 1431655766 := by
  decide

/-- C19, amended: when `3 * nMacroEnbSites < 2 ^ 32` the number of macro eNB
nodes created is exactly `3 * nMacroEnbSites`; it is `0` when
`nMacroEnbSites = 0`. -/
theorem C19_macro_enb_nodes (nMacroEnbSites : ℕ) (h : 3 * nMacroEnbSites < 2 ^ 32) :
    nMacroEnbs nMacroEnbSites = 3 * nMacroEnbSites ∧ nMacroEnbs 0 = 0 := by
  simp only [nMacroEnbs]
  exact ⟨Nat.mod_eq_of_lt h, rfl⟩

/-- Witness of C19: the default three sites give nine macro eNB nodes. -/
theorem C19_witness : 3 * 3 < 2 ^ 32 ∧ nMacroEnbs 3 = 3 * 3 ∧ nMacroEnbs 0 = 0 :=
  ⟨by decide, C19_macro_enb_nodes 3 (by decide)⟩

/-! ## Rounding to the nearest double -/

theorem roundHalfEven_eq_of_near (x : ℚ) (m : ℤ) (h1 : (m : ℚ) - 1 / 2 < x)
    (h2 : x < (m : ℚ) + 1 / 2) : roundHalfEven x = m := by
  by_cases h : (m : ℚ) ≤ x
  · have hf : ⌊x⌋ = m := Int.floor_eq_iff.2 ⟨h, by linarith⟩
    simp only [roundHalfEven, hf]
    rw [if_pos (by linarith)]
  · have hf : ⌊x⌋ = m - 1 := Int.floor_eq_iff.2 ⟨by push_cast; linarith, by push_cast; linarith⟩
    simp only [roundHalfEven, hf]
    push_cast
    rw [if_neg (by linarith), if_pos (by linarith)]
    ring

theorem roundHalfEven_intCast (m : ℤ) : roundHalfEven (m : ℚ) = m :=
  roundHalfEven_eq_of_near _ m (by linarith) (by linarith)

theorem roundHalfEven_tie (m : ℤ) :
    roundHalfEven ((m : ℚ) + 1 / 2) = if m % 2 = 0 then m else m + 1 := by
  have hf : ⌊(m : ℚ) + 1 / 2⌋ = m := Int.floor_eq_iff.2 ⟨by linarith, by linarith⟩
  simp only [roundHalfEven, hf]
  rw [if_neg (by linarith), if_neg (by linarith)]

theorem roundHalfEven_bounds (x : ℚ) :
    (⌊x⌋ ≤ roundHalfEven x ∧ roundHalfEven x ≤ ⌊x⌋ + 1) ∧
      |x - (roundHalfEven x : ℚ)| ≤ 1 / 2 := by
  have h1 := Int.floor_le x
  have h2 := Int.lt_floor_add_one x
  simp only [roundHalfEven]
  split_ifs with ha hb hc
  · exact ⟨⟨le_refl _, by omega⟩, by rw [abs_le]; constructor <;> linarith⟩
  · refine ⟨⟨by omega, le_refl _⟩, ?_⟩
    push_cast
    rw [abs_le]; constructor <;> linarith
  · exact ⟨⟨le_refl _, by omega⟩, by rw [abs_le]; constructor <;> linarith⟩
  · refine ⟨⟨by omega, le_refl _⟩, ?_⟩
    push_cast
    rw [abs_le]; constructor <;> linarith

theorem roundHalfEven_mono {x y : ℚ} (h : x ≤ y) : roundHalfEven x ≤ roundHalfEven y := by
  have hfl : ⌊x⌋ ≤ ⌊y⌋ := Int.floor_mono h
  rcases lt_or_eq_of_le hfl with hlt | heq
  · have hx := (roundHalfEven_bounds x).1.2
    have hy := (roundHalfEven_bounds y).1.1
    omega
  · simp only [roundHalfEven, heq]
    split_ifs <;> first | omega | (exfalso; rw [heq] at *; linarith)

theorem roundHalfEven_le_of_le {x : ℚ} {n : ℤ} (h : x ≤ n) : roundHalfEven x ≤ n := by
  have := roundHalfEven_mono h
  rwa [roundHalfEven_intCast] at this

theorem le_roundHalfEven_of_le {x : ℚ} {n : ℤ} (h : (n : ℚ) ≤ x) : n ≤ roundHalfEven x := by
  have := roundHalfEven_mono h
  rwa [roundHalfEven_intCast] at this

theorem two_zpow_pos (e : ℤ) : (0 : ℚ) < (2 : ℚ) ^ e := zpow_pos (by norm_num) e

theorem ulp_pos (x : ℚ) : 0 < ulp x := two_zpow_pos _

theorem binade_ge (x : ℚ) : -1022 ≤ binade x := by
  simp only [binade]
  split_ifs
  · exact le_refl _
  · exact le_max_right _ _

theorem binade_eq (x : ℚ) (e : ℤ) (hc : -1022 ≤ e) (h1 : (2 : ℚ) ^ e ≤ |x|)
    (h2 : |x| < (2 : ℚ) ^ (e + 1)) : binade x = e := by
  have hpos : 0 < |x| := lt_of_lt_of_le (two_zpow_pos e) h1
  have hx : x ≠ 0 := abs_pos.1 hpos
  have hlog : Int.log 2 |x| = e := by
    apply le_antisymm
    · have := (Int.lt_zpow_iff_log_lt (by norm_num : 1 < 2) hpos).1
        (by rw [Nat.cast_ofNat]; exact h2)
      omega
    · exact (Int.zpow_le_iff_le_log (by norm_num : 1 < 2) hpos).1
        (by rw [Nat.cast_ofNat]; exact h1)
  simp only [binade, if_neg hx, hlog]
  exact max_eq_left hc

theorem binade_eq_min (x : ℚ) (h : |x| < (2 : ℚ) ^ (-1022 : ℤ)) : binade x = -1022 := by
  by_cases hx : x = 0
  · simp only [binade, if_pos hx]
  · have hpos : 0 < |x| := abs_pos.2 hx
    have hlog : Int.log 2 |x| < -1022 :=
      (Int.lt_zpow_iff_log_lt (by norm_num : 1 < 2) hpos).1 (by rw [Nat.cast_ofNat]; exact h)
    simp only [binade, if_neg hx]
    exact max_eq_right (le_of_lt hlog)

theorem abs_lt_binade (x : ℚ) : |x| < (2 : ℚ) ^ (binade x + 1) := by
  by_cases hx : x = 0
  · rw [hx, abs_zero]; exact two_zpow_pos _
  · have h := Int.lt_zpow_succ_log_self (by norm_num : 1 < 2) |x|
    rw [Nat.cast_ofNat] at h
    refine lt_of_lt_of_le h (zpow_le_zpow_right₀ (by norm_num) ?_)
    simp only [binade, if_neg hx]
    have := le_max_left (Int.log 2 |x|) (-1022)
    omega

theorem binade_le_abs (x : ℚ) (h : -1022 < binade x) : (2 : ℚ) ^ binade x ≤ |x| := by
  by_cases hx : x = 0
  · simp only [binade, if_pos hx] at h
    omega
  · have hpos : 0 < |x| := abs_pos.2 hx
    have hb : binade x = Int.log 2 |x| := by
      simp only [binade, if_neg hx] at h ⊢
      rcases max_cases (Int.log 2 |x|) (-1022) with h1 | h1
      · exact h1.1
      · rw [h1.1] at h; omega
    rw [hb]
    have := Int.zpow_log_le_self (by norm_num : 1 < 2) hpos
    rwa [Nat.cast_ofNat] at this

theorem binade_mono {x y : ℚ} (h : |x| ≤ |y|) : binade x ≤ binade y := by
  by_cases hx : x = 0
  · simp only [binade, if_pos hx]
    exact binade_ge y
  · have hpos : 0 < |x| := abs_pos.2 hx
    have hy : y ≠ 0 := abs_pos.1 (lt_of_lt_of_le hpos h)
    simp only [binade, if_neg hx, if_neg hy]
    exact max_le_max (Int.log_mono_right hpos h) (le_refl _)

theorem int_pow_mul_zpow (k : ℕ) (e : ℤ) :
    (((2 : ℤ) ^ k : ℤ) : ℚ) * (2 : ℚ) ^ e = (2 : ℚ) ^ (e + k) := by
  rw [Int.cast_pow, Int.cast_ofNat, ← zpow_natCast, ← zpow_add₀ (by norm_num), add_comm]

theorem roundToDouble_zero : roundToDouble 0 = 0 := by
  have h : roundHalfEven 0 = 0 := by
    have := roundHalfEven_intCast 0
    simpa using this
  simp only [roundToDouble, zero_div, h, Int.cast_zero, zero_mul]

/-- The rounding of a positive number, from its binade and its nearest multiple
of the unit in the last place. -/
theorem roundToDouble_eq (x : ℚ) (e m : ℤ) (hc : -1022 ≤ e) (h1 : (2 : ℚ) ^ e ≤ x)
    (h2 : x < (2 : ℚ) ^ (e + 1)) (hm1 : ((m : ℚ) - 1 / 2) * (2 : ℚ) ^ (e - 52) < x)
    (hm2 : x < ((m : ℚ) + 1 / 2) * (2 : ℚ) ^ (e - 52)) :
    roundToDouble x = (m : ℚ) * (2 : ℚ) ^ (e - 52) := by
  have hpos : 0 < x := lt_of_lt_of_le (two_zpow_pos e) h1
  have hb : binade x = e := binade_eq x e hc (by rwa [abs_of_pos hpos]) (by rwa [abs_of_pos hpos])
  have hu := two_zpow_pos (e - 52)
  simp only [roundToDouble, ulp, hb]
  rw [roundHalfEven_eq_of_near _ m ((lt_div_iff₀ hu).2 hm1) ((div_lt_iff₀ hu).2 hm2)]

/-- The rounding of a positive number half way between two neighbouring
doubles: the one with the even significand. -/
theorem roundToDouble_tie (x : ℚ) (e m : ℤ) (hc : -1022 ≤ e) (h1 : (2 : ℚ) ^ e ≤ x)
    (h2 : x < (2 : ℚ) ^ (e + 1)) (hm : x = ((m : ℚ) + 1 / 2) * (2 : ℚ) ^ (e - 52)) :
    roundToDouble x = ((if m % 2 = 0 then m else m + 1 : ℤ) : ℚ) * (2 : ℚ) ^ (e - 52) := by
  have hpos : 0 < x := lt_of_lt_of_le (two_zpow_pos e) h1
  have hb : binade x = e := binade_eq x e hc (by rwa [abs_of_pos hpos]) (by rwa [abs_of_pos hpos])
  have hu := two_zpow_pos (e - 52)
  have hdiv : x / (2 : ℚ) ^ (e - 52) = (m : ℚ) + 1 / 2 := by
    rw [hm, mul_div_assoc, div_self (ne_of_gt hu), mul_one]
  simp only [roundToDouble, ulp, hb, hdiv, roundHalfEven_tie]

/-- A multiple of the unit in the last place of its own binade is a double. -/
theorem roundToDouble_of_multiple (x : ℚ) (m : ℤ) (h : x = (m : ℚ) * ulp x) :
    roundToDouble x = x := by
  have hu := ulp_pos x
  have hdiv : x / ulp x = (m : ℚ) := by
    rw [div_eq_iff (ne_of_gt hu)]; exact h
  simp only [roundToDouble, hdiv, roundHalfEven_intCast]
  exact h.symm

theorem roundToDouble_nonneg {x : ℚ} (h : 0 ≤ x) : 0 ≤ roundToDouble x := by
  have hu := ulp_pos x
  have : (0 : ℤ) ≤ roundHalfEven (x / ulp x) :=
    le_roundHalfEven_of_le (by simpa using div_nonneg h (le_of_lt hu))
  exact mul_nonneg (by exact_mod_cast this) (le_of_lt hu)

theorem abs_roundToDouble_sub_le (x : ℚ) : |roundToDouble x - x| ≤ ulp x / 2 := by
  have hu := ulp_pos x
  have h := (roundHalfEven_bounds (x / ulp x)).2
  have hx : roundToDouble x - x = -((x / ulp x - (roundHalfEven (x / ulp x) : ℚ)) * ulp x) := by
    simp only [roundToDouble]
    field_simp
    ring
  rw [hx, abs_neg, abs_mul, abs_of_pos hu]
  calc |x / ulp x - (roundHalfEven (x / ulp x) : ℚ)| * ulp x ≤ 1 / 2 * ulp x :=
        mul_le_mul_of_nonneg_right h (le_of_lt hu)
    _ = ulp x / 2 := by ring

/-- Rounding to the nearest double is monotone on the non-negative numbers. -/
theorem roundToDouble_mono {x y : ℚ} (hx : 0 ≤ x) (h : x ≤ y) :
    roundToDouble x ≤ roundToDouble y := by
  have hy : 0 ≤ y := le_trans hx h
  have hb : binade x ≤ binade y := binade_mono (by rwa [abs_of_nonneg hx, abs_of_nonneg hy])
  rcases lt_or_eq_of_le hb with hlt | heq
  · have hux := ulp_pos x
    have huy := ulp_pos y
    have h1 : roundToDouble x ≤ (2 : ℚ) ^ (binade x + 1) := by
      have hlt2 := abs_lt_binade x
      rw [abs_of_nonneg hx] at hlt2
      have hle : x / ulp x ≤ (((2 : ℤ) ^ 53 : ℤ) : ℚ) := by
        rw [div_le_iff₀ hux]
        have : ((((2 : ℤ) ^ 53 : ℤ) : ℚ)) * ulp x = (2 : ℚ) ^ (binade x + 1) := by
          simp only [ulp]
          rw [int_pow_mul_zpow]
          congr 1; push_cast; ring
        rw [this]; exact le_of_lt hlt2
      have hr := roundHalfEven_le_of_le hle
      have hr2 : ((roundHalfEven (x / ulp x) : ℤ) : ℚ) ≤ (((2 : ℤ) ^ 53 : ℤ) : ℚ) := by
        exact_mod_cast hr
      calc roundToDouble x = (roundHalfEven (x / ulp x) : ℚ) * ulp x := rfl
        _ ≤ (((2 : ℤ) ^ 53 : ℤ) : ℚ) * ulp x := mul_le_mul_of_nonneg_right hr2 (le_of_lt hux)
        _ = (2 : ℚ) ^ (binade x + 1) := by
          simp only [ulp]
          rw [int_pow_mul_zpow]
          congr 1; push_cast; ring
    have h2 : (2 : ℚ) ^ binade y ≤ roundToDouble y := by
      have hge := binade_le_abs y (by have := binade_ge x; omega)
      rw [abs_of_nonneg hy] at hge
      have hle : (((2 : ℤ) ^ 52 : ℤ) : ℚ) ≤ y / ulp y := by
        rw [le_div_iff₀ huy]
        have : ((((2 : ℤ) ^ 52 : ℤ) : ℚ)) * ulp y = (2 : ℚ) ^ binade y := by
          simp only [ulp]
          rw [int_pow_mul_zpow]
          congr 1; push_cast; ring
        rw [this]; exact hge
      have hr := le_roundHalfEven_of_le hle
      have hr2 : (((2 : ℤ) ^ 52 : ℤ) : ℚ) ≤ ((roundHalfEven (y / ulp y) : ℤ) : ℚ) := by
        exact_mod_cast hr
      calc (2 : ℚ) ^ binade y = (((2 : ℤ) ^ 52 : ℤ) : ℚ) * ulp y := by
            simp only [ulp]
            rw [int_pow_mul_zpow]
            congr 1; push_cast; ring
        _ ≤ (roundHalfEven (y / ulp y) : ℚ) * ulp y :=
            mul_le_mul_of_nonneg_right hr2 (le_of_lt huy)
        _ = roundToDouble y := rfl
    have h3 : (2 : ℚ) ^ (binade x + 1) ≤ (2 : ℚ) ^ binade y :=
      zpow_le_zpow_right₀ (by norm_num) (by omega)
    linarith
  · have hu : ulp x = ulp y := by simp only [ulp, heq]
    have hux := ulp_pos y
    simp only [roundToDouble, hu]
    have hdiv : x / ulp y ≤ y / ulp y := div_le_div_of_nonneg_right h (le_of_lt hux)
    have hr := roundHalfEven_mono hdiv
    have hr2 : ((roundHalfEven (x / ulp y) : ℤ) : ℚ) ≤ ((roundHalfEven (y / ulp y) : ℤ) : ℚ) := by
      exact_mod_cast hr
    exact mul_le_mul_of_nonneg_right hr2 (le_of_lt hux)

/-- A natural number below `2 ^ 53` is a double. -/
theorem roundToDouble_natCast (n : ℕ) (hn : n < 2 ^ 53) : roundToDouble (n : ℚ) = n := by
  rcases Nat.eq_zero_or_pos n with h0 | hpos
  · rw [h0, Nat.cast_zero]; exact roundToDouble_zero
  · have hb1 : binade (n : ℚ) ≤ 52 := by
      have h1 : |(n : ℚ)| ≤ |((2 : ℚ) ^ (53 : ℤ) - 1)| := by
        rw [abs_of_nonneg (Nat.cast_nonneg n), abs_of_nonneg (by norm_num)]
        have : (n : ℚ) + 1 ≤ ((2 ^ 53 : ℕ) : ℚ) := by exact_mod_cast hn
        have h2 : ((2 ^ 53 : ℕ) : ℚ) = (2 : ℚ) ^ (53 : ℤ) := by norm_num
        linarith
      have h3 := binade_mono h1
      have h4 : binade ((2 : ℚ) ^ (53 : ℤ) - 1) = 52 :=
        binade_eq _ 52 (by norm_num) (by norm_num) (by norm_num)
      omega
    have hb0 : 0 ≤ binade (n : ℚ) := by
      have h1 : |(1 : ℚ)| ≤ |(n : ℚ)| := by
        rw [abs_of_nonneg (by norm_num), abs_of_nonneg (Nat.cast_nonneg n)]
        exact_mod_cast hpos
      have h3 := binade_mono h1
      have h4 : binade (1 : ℚ) = 0 := binade_eq _ 0 (by norm_num) (by norm_num) (by norm_num)
      omega
    apply roundToDouble_of_multiple _ ((n : ℤ) * 2 ^ (52 - binade (n : ℚ)).toNat)
    simp only [ulp]
    push_cast
    rw [← zpow_natCast, Int.toNat_of_nonneg (by omega), mul_assoc,
      ← zpow_add₀ (by norm_num)]
    have : 52 - binade (n : ℚ) + (binade (n : ℚ) - 52) = 0 := by ring
    rw [this, zpow_zero, mul_one]

theorem roundHalfEven_cases (x : ℚ) :
    (∃ m : ℤ, (m : ℚ) - 1 / 2 < x ∧ x < (m : ℚ) + 1 / 2) ∨ ∃ m : ℤ, x = (m : ℚ) + 1 / 2 := by
  have h1 := Int.floor_le x
  have h2 := Int.lt_floor_add_one x
  rcases lt_trichotomy (x - ⌊x⌋) (1 / 2) with h | h | h
  · exact Or.inl ⟨⌊x⌋, by linarith, by linarith⟩
  · exact Or.inr ⟨⌊x⌋, by linarith⟩
  · exact Or.inl ⟨⌊x⌋ + 1, by push_cast; linarith, by push_cast; linarith⟩

theorem roundHalfEven_neg (x : ℚ) : roundHalfEven (-x) = -roundHalfEven x := by
  rcases roundHalfEven_cases x with ⟨m, h1, h2⟩ | ⟨m, rfl⟩
  · rw [roundHalfEven_eq_of_near x m h1 h2]
    exact roundHalfEven_eq_of_near (-x) (-m) (by push_cast; linarith) (by push_cast; linarith)
  · have hneg : -((m : ℚ) + 1 / 2) = ((-m - 1 : ℤ) : ℚ) + 1 / 2 := by push_cast; ring
    rw [hneg, roundHalfEven_tie, roundHalfEven_tie]
    split_ifs <;> omega

theorem binade_neg (x : ℚ) : binade (-x) = binade x := by
  simp only [binade, abs_neg, neg_eq_zero]

/-- Rounding to the nearest double commutes with the change of sign. -/
theorem roundToDouble_neg (x : ℚ) : roundToDouble (-x) = -roundToDouble x := by
  simp only [roundToDouble, ulp, binade_neg, neg_div, roundHalfEven_neg]
  push_cast
  ring

theorem finiteDouble_of_lt (x : ℚ) (h0 : 0 ≤ x) (h : x < 2 ^ 1024) : finiteDouble x = some x := by
  simp only [finiteDouble, abs_of_nonneg h0, if_pos h]

theorem finiteDouble_neg_of_lt (x : ℚ) (h0 : 0 ≤ x) (h : x < 2 ^ 1024) :
    finiteDouble (-x) = some (-x) := by
  simp only [finiteDouble, abs_neg, abs_of_nonneg h0, if_pos h]

theorem finiteDouble_eq_some {x q : ℚ} (h : finiteDouble x = some q) : q = x := by
  simp only [finiteDouble] at h
  split_ifs at h
  exact (Option.some.inj h).symm

theorem mulDouble_eq_some {a b q : ℚ} (h : mulDouble a b = some q) :
    q = roundToDouble (a * b) :=
  finiteDouble_eq_some h

theorem subDouble_eq_some {a b q : ℚ} (h : subDouble a b = some q) :
    q = roundToDouble (a - b) :=
  finiteDouble_eq_some h

theorem mulDouble_zero_left (b : ℚ) : mulDouble 0 b = some 0 := by
  simp only [mulDouble, zero_mul, roundToDouble_zero]
  exact finiteDouble_of_lt 0 (le_refl _) (by norm_num)

theorem roundToDouble_one : roundToDouble 1 = 1 := by
  simpa using roundToDouble_natCast 1 (by norm_num)

/-- The product of a natural number below `2 ^ 32` and a double between `0` and
`1` is a double between `0` and that number. -/
theorem mulDouble_le_natCast (n : ℕ) (hn : n < 2 ^ 32) (x d : ℚ) (hx0 : 0 ≤ x) (hxn : x ≤ n)
    (hd0 : 0 ≤ d) (hd1 : d ≤ 1) :
    ∃ p, mulDouble x d = some p ∧ 0 ≤ p ∧ p ≤ n := by
  have h0 : 0 ≤ x * d := mul_nonneg hx0 hd0
  have h1 : x * d ≤ n := le_trans (mul_le_of_le_one_right hx0 hd1) hxn
  have hp0 := roundToDouble_nonneg h0
  have hp1 : roundToDouble (x * d) ≤ n := by
    have := roundToDouble_mono h0 h1
    rwa [roundToDouble_natCast n (lt_trans hn (by norm_num))] at this
  have hlt : roundToDouble (x * d) < 2 ^ 1024 := by
    have h2 : (n : ℚ) < 2 ^ 32 := by exact_mod_cast hn
    have h3 : (2 : ℚ) ^ 32 < 2 ^ 1024 := by norm_num
    linarith
  exact ⟨_, finiteDouble_of_lt _ hp0 hlt, hp0, hp1⟩

theorem roundToDouble_unit {r : ℚ} (h0 : 0 ≤ r) (h1 : r ≤ 1) :
    0 ≤ roundToDouble r ∧ roundToDouble r ≤ 1 := by
  refine ⟨roundToDouble_nonneg h0, ?_⟩
  have := roundToDouble_mono h0 h1
  rwa [roundToDouble_one] at this

/-! ## The population counts -/

theorem round_of_nonneg (x : ℚ) (hx : 0 ≤ x) : round x = ⌊x + 1 / 2⌋ := by
  simp only [round, if_pos hx]

theorem toUint32_of_fits (v : ℤ) (h0 : 0 ≤ v) (h1 : v < 2 ^ 32) :
    toUint32 v = some v.toNat := by
  simp only [toUint32, if_pos (And.intro h0 h1)]

/-- A non-negative value below `2 ^ 32 - 1 / 2` is rounded to the natural number
`k` with `k - 1 / 2 ≤ x < k + 1 / 2`, and that number is representable. -/
theorem toUint32_round_of_nonneg (x : ℚ) (hx : 0 ≤ x) (hfit : x < 2 ^ 32 - 1 / 2) :
    ∃ k : ℕ, toUint32 (round x) = some k ∧ (k : ℤ) = round x ∧ k < 2 ^ 32 ∧
      (k : ℚ) - 1 / 2 ≤ x ∧ x < (k : ℚ) + 1 / 2 := by
  rw [round_of_nonneg x hx]
  have h0 : 0 ≤ ⌊x + 1 / 2⌋ := Int.floor_nonneg.2 (by linarith)
  have h1 : ⌊x + 1 / 2⌋ < 2 ^ 32 := by
    rw [Int.floor_lt]
    push_cast
    linarith
  have hk : ((⌊x + 1 / 2⌋.toNat : ℕ) : ℤ) = ⌊x + 1 / 2⌋ := Int.toNat_of_nonneg h0
  have hkq : ((⌊x + 1 / 2⌋.toNat : ℕ) : ℚ) = ((⌊x + 1 / 2⌋ : ℤ) : ℚ) := by
    rw [← Int.cast_natCast, hk]
  refine ⟨⌊x + 1 / 2⌋.toNat, toUint32_of_fits _ h0 h1, hk, ?_, ?_, ?_⟩
  · have : ((⌊x + 1 / 2⌋.toNat : ℕ) : ℤ) < 2 ^ 32 := by rw [hk]; exact h1
    exact_mod_cast this
  · rw [hkq]
    have := Int.floor_le (x + 1 / 2)
    linarith
  · rw [hkq]
    have := Int.lt_floor_add_one (x + 1 / 2)
    linarith

theorem wrapped_product (a b c : ℕ) :
    ((4 * a) % 2 ^ 32 * b) % 2 ^ 32 * c % 2 ^ 32 = (4 * a * b * c) % 2 ^ 32 := by
  rw [Nat.mod_mul_mod, Nat.mul_assoc, Nat.mod_mul_mod, ← Nat.mul_assoc]

theorem round_lt_iff_of_nonneg (x : ℚ) (hx : 0 ≤ x) :
    round x < 2 ^ 32 ↔ x < 2 ^ 32 - 1 / 2 := by
  rw [round_of_nonneg x hx, Int.floor_lt]
  push_cast
  constructor <;> intro h <;> linarith

theorem abs_sub_round_le (x : ℚ) : |x - (round x : ℚ)| ≤ 1 / 2 := by
  rw [abs_le]
  by_cases hx : 0 ≤ x
  · simp only [round, if_pos hx]
    have h1 := Int.floor_le (x + 1 / 2)
    have h2 := Int.lt_floor_add_one (x + 1 / 2)
    constructor <;> linarith
  · simp only [round, if_neg hx]
    have h1 := Int.le_ceil (x - 1 / 2)
    have h2 := Int.ceil_lt_add_one (x - 1 / 2)
    constructor <;> linarith

/-- The rounding half away from zero of a non-negative number, from the natural
number at distance at most one half. -/
theorem round_eq_natCast (x : ℚ) (k : ℕ) (h0 : 0 ≤ x) (h1 : (k : ℚ) - 1 / 2 ≤ x)
    (h2 : x < (k : ℚ) + 1 / 2) : round x = (k : ℤ) := by
  rw [round_of_nonneg x h0, Int.floor_eq_iff]
  push_cast
  constructor <;> linarith

theorem toUint32_round_eq (x : ℚ) (k : ℕ) (hk : k < 2 ^ 32) (h0 : 0 ≤ x)
    (h1 : (k : ℚ) - 1 / 2 ≤ x) (h2 : x < (k : ℚ) + 1 / 2) : toUint32 (round x) = some k := by
  rw [round_eq_natCast x k h0 h1 h2,
    toUint32_of_fits _ (Int.natCast_nonneg _) (by exact_mod_cast hk), Int.toNat_natCast]

theorem toUint32_round_of_large (x : ℚ) (h : 2 ^ 32 ≤ x) : toUint32 (round x) = none := by
  have h0 : 0 ≤ x := le_trans (by norm_num) h
  have hge : (2 : ℤ) ^ 32 ≤ round x := by
    rw [round_of_nonneg x h0, Int.le_floor]
    push_cast
    linarith
  simp only [toUint32]
  rw [if_neg (by omega)]

theorem toUint32_round_of_neg (x : ℚ) (h : x ≤ -(1 / 2)) : toUint32 (round x) = none := by
  have h0 : ¬ 0 ≤ x := by linarith
  have hlt : round x < 0 := by
    simp only [round, if_neg h0]
    have hc : ⌈x - 1 / 2⌉ ≤ -1 := by
      rw [Int.ceil_le]
      push_cast
      linarith
    omega
  simp only [toUint32]
  rw [if_neg (by omega)]

/-! ### The values of the counts in some configurations -/

theorem double_0_55 : roundToDouble 0.55 = (2476979795053773 / 4503599627370496) := by
  rw [roundToDouble_eq _ (-1) 4953959590107546 (by norm_num) (by norm_num) (by norm_num)
      (by norm_num) (by norm_num)]
  norm_num

theorem double_0_7 : roundToDouble 0.7 = (3152519739159347 / 4503599627370496) := by
  rw [roundToDouble_eq _ (-1) 6305039478318694 (by norm_num) (by norm_num) (by norm_num)
      (by norm_num) (by norm_num)]
  norm_num

theorem double_0_2 : roundToDouble 0.2 = (3602879701896397 / 18014398509481984) := by
  rw [roundToDouble_eq _ (-3) 7205759403792794 (by norm_num) (by norm_num) (by norm_num)
      (by norm_num) (by norm_num)]
  norm_num

theorem double_0_5 : roundToDouble 0.5 = (1 / 2) := by
  rw [roundToDouble_eq _ (-1) 4503599627370496 (by norm_num) (by norm_num) (by norm_num)
      (by norm_num) (by norm_num)]
  norm_num

theorem double_0_25 : roundToDouble 0.25 = (1 / 4) := by
  rw [roundToDouble_eq _ (-2) 4503599627370496 (by norm_num) (by norm_num) (by norm_num)
      (by norm_num) (by norm_num)]
  norm_num

theorem double_1_25 : roundToDouble 1.25 = (5 / 4) := by
  rw [roundToDouble_eq _ (0) 5629499534213120 (by norm_num) (by norm_num) (by norm_num)
      (by norm_num) (by norm_num)]
  norm_num

theorem double_0_3 : roundToDouble 0.3 = (5404319552844595 / 18014398509481984) := by
  rw [roundToDouble_eq _ (-2) 5404319552844595 (by norm_num) (by norm_num) (by norm_num)
      (by norm_num) (by norm_num)]
  norm_num

theorem double_0_8 : roundToDouble 0.8 = (3602879701896397 / 4503599627370496) := by
  rw [roundToDouble_eq _ (-1) 7205759403792794 (by norm_num) (by norm_num) (by norm_num)
      (by norm_num) (by norm_num)]
  norm_num

theorem double_0_58 : roundToDouble 0.58 = (5224175567749775 / 9007199254740992) := by
  rw [roundToDouble_eq _ (-1) 5224175567749775 (by norm_num) (by norm_num) (by norm_num)
      (by norm_num) (by norm_num)]
  norm_num

theorem double_of_double_0_7 :
    roundToDouble (3152519739159347 / 4503599627370496) =
      (3152519739159347 / 4503599627370496) := by
  rw [roundToDouble_eq _ (-1) 6305039478318694 (by norm_num) (by norm_num) (by norm_num)
      (by norm_num) (by norm_num)]
  norm_num

theorem double_0_0006 : roundToDouble 0.0006 = (5534023222112865 / 9223372036854775808) := by
  rw [roundToDouble_eq _ (-11) 5534023222112865 (by norm_num) (by norm_num) (by norm_num)
      (by norm_num) (by norm_num)]
  norm_num

theorem double_0_001 : roundToDouble 0.001 = (1152921504606847 / 1152921504606846976) := by
  rw [roundToDouble_eq _ (-10) 4611686018427388 (by norm_num) (by norm_num) (by norm_num)
      (by norm_num) (by norm_num)]
  norm_num

theorem double_0_00002 : roundToDouble 0.00002 = (5902958103587057 / 295147905179352825856) := by
  rw [roundToDouble_eq _ (-16) 5902958103587057 (by norm_num) (by norm_num) (by norm_num)
      (by norm_num) (by norm_num)]
  norm_num

theorem double_1_0 : roundToDouble 1.0 = 1 := by
  rw [roundToDouble_eq _ (0) 4503599627370496 (by norm_num) (by norm_num) (by norm_num)
      (by norm_num) (by norm_num)]
  norm_num

theorem double_1e9 : roundToDouble 1000000000 = 1000000000 := by
  rw [roundToDouble_eq _ (29) 8388608000000000 (by norm_num) (by norm_num) (by norm_num)
      (by norm_num) (by norm_num)]
  norm_num

theorem double_2_31 : roundToDouble 2147483648 = 2147483648 := by
  rw [roundToDouble_eq _ (31) 4503599627370496 (by norm_num) (by norm_num) (by norm_num)
      (by norm_num) (by norm_num)]
  norm_num

theorem double_1e6 : roundToDouble 1000000 = 1000000 := by
  rw [roundToDouble_eq _ (19) 8589934592000000 (by norm_num) (by norm_num) (by norm_num)
      (by norm_num) (by norm_num)]
  norm_num

theorem double_150 : roundToDouble 150 = 150 := by
  rw [roundToDouble_eq _ (7) 5277655813324800 (by norm_num) (by norm_num) (by norm_num)
      (by norm_num) (by norm_num)]
  norm_num

theorem double_750 : roundToDouble 750 = 750 := by
  rw [roundToDouble_eq _ (9) 6597069766656000 (by norm_num) (by norm_num) (by norm_num)
      (by norm_num) (by norm_num)]
  norm_num

theorem double_250 : roundToDouble 250 = 250 := by
  rw [roundToDouble_eq _ (7) 8796093022208000 (by norm_num) (by norm_num) (by norm_num)
      (by norm_num) (by norm_num)]
  norm_num

theorem mul_300_0_55 : mulDouble 300 (2476979795053773 / 4503599627370496) = some 165 := by
  rw [mulDouble,
    roundToDouble_eq _ (7) 5805421394657280 (by norm_num) (by norm_num) (by norm_num)
      (by norm_num) (by norm_num),
    finiteDouble_of_lt _ (by norm_num) (by norm_num)]
  norm_num

theorem mul_165_0_7 :
    mulDouble 165 (3152519739159347 / 4503599627370496) =
      some (8127589952520191 / 70368744177664) := by
  rw [mulDouble,
    roundToDouble_eq _ (6) 8127589952520191 (by norm_num) (by norm_num) (by norm_num)
      (by norm_num) (by norm_num),
    finiteDouble_of_lt _ (by norm_num) (by norm_num)]
  norm_num

theorem mul_40_0_2 : mulDouble 40 (3602879701896397 / 18014398509481984) = some 8 := by
  rw [mulDouble,
    roundToDouble_eq _ (3) 4503599627370496 (by norm_num) (by norm_num) (by norm_num)
      (by norm_num) (by norm_num),
    finiteDouble_of_lt _ (by norm_num) (by norm_num)]
  norm_num

theorem mul_8_0_5 : mulDouble 8 (1 / 2) = some 4 := by
  rw [mulDouble,
    roundToDouble_eq _ (2) 4503599627370496 (by norm_num) (by norm_num) (by norm_num)
      (by norm_num) (by norm_num),
    finiteDouble_of_lt _ (by norm_num) (by norm_num)]
  norm_num

theorem mul_4_0_5 : mulDouble 4 (1 / 2) = some 2 := by
  rw [mulDouble,
    roundToDouble_eq _ (1) 4503599627370496 (by norm_num) (by norm_num) (by norm_num)
      (by norm_num) (by norm_num),
    finiteDouble_of_lt _ (by norm_num) (by norm_num)]
  norm_num

theorem mul_2_0_25 : mulDouble 2 (1 / 4) = some (1 / 2) := by
  rw [mulDouble,
    roundToDouble_eq _ (-1) 4503599627370496 (by norm_num) (by norm_num) (by norm_num)
      (by norm_num) (by norm_num),
    finiteDouble_of_lt _ (by norm_num) (by norm_num)]
  norm_num

theorem mul_2_1_25 : mulDouble 2 (5 / 4) = some (5 / 2) := by
  rw [mulDouble,
    roundToDouble_eq _ (1) 5629499534213120 (by norm_num) (by norm_num) (by norm_num)
      (by norm_num) (by norm_num),
    finiteDouble_of_lt _ (by norm_num) (by norm_num)]
  norm_num

theorem mul_4_0_3 :
    mulDouble 4 (5404319552844595 / 18014398509481984) =
      some (5404319552844595 / 4503599627370496) := by
  rw [mulDouble,
    roundToDouble_eq _ (0) 5404319552844595 (by norm_num) (by norm_num) (by norm_num)
      (by norm_num) (by norm_num),
    finiteDouble_of_lt _ (by norm_num) (by norm_num)]
  norm_num

theorem mul_0_3_0_5 :
    mulDouble (5404319552844595 / 4503599627370496) (1 / 2) =
      some (5404319552844595 / 9007199254740992) := by
  rw [mulDouble,
    roundToDouble_eq _ (-1) 5404319552844595 (by norm_num) (by norm_num) (by norm_num)
      (by norm_num) (by norm_num),
    finiteDouble_of_lt _ (by norm_num) (by norm_num)]
  norm_num

theorem mul_1_0_8 :
    mulDouble 1 (3602879701896397 / 4503599627370496) =
      some (3602879701896397 / 4503599627370496) := by
  rw [mulDouble,
    roundToDouble_eq _ (-1) 7205759403792794 (by norm_num) (by norm_num) (by norm_num)
      (by norm_num) (by norm_num),
    finiteDouble_of_lt _ (by norm_num) (by norm_num)]
  norm_num

theorem mul_25_0_58 :
    mulDouble 25 (5224175567749775 / 9007199254740992) =
      some (8162774324609023 / 562949953421312) := by
  rw [mulDouble,
    roundToDouble_eq _ (3) 8162774324609023 (by norm_num) (by norm_num) (by norm_num)
      (by norm_num) (by norm_num),
    finiteDouble_of_lt _ (by norm_num) (by norm_num)]
  norm_num

theorem mul_5_0_7 : mulDouble 5 (3152519739159347 / 4503599627370496) = some (7 / 2) := by
  rw [mulDouble,
    roundToDouble_tie _ (1) 7881299347898367 (by norm_num) (by norm_num) (by norm_num)
      (by norm_num),
    finiteDouble_of_lt _ (by norm_num) (by norm_num)]
  norm_num

theorem mul_40_1e9 : mulDouble 40 1000000000 = some 40000000000 := by
  rw [mulDouble,
    roundToDouble_eq _ (35) 5242880000000000 (by norm_num) (by norm_num) (by norm_num)
      (by norm_num) (by norm_num),
    finiteDouble_of_lt _ (by norm_num) (by norm_num)]
  norm_num

theorem mul_4e10_1 : mulDouble 40000000000 1 = some 40000000000 := by
  rw [mulDouble,
    roundToDouble_eq _ (35) 5242880000000000 (by norm_num) (by norm_num) (by norm_num)
      (by norm_num) (by norm_num),
    finiteDouble_of_lt _ (by norm_num) (by norm_num)]
  norm_num

theorem mul_4_2_31 : mulDouble 4 2147483648 = some 8589934592 := by
  rw [mulDouble,
    roundToDouble_eq _ (33) 4503599627370496 (by norm_num) (by norm_num) (by norm_num)
      (by norm_num) (by norm_num),
    finiteDouble_of_lt _ (by norm_num) (by norm_num)]
  norm_num

theorem mul_22500_0_0006 :
    mulDouble 22500 (5534023222112865 / 9223372036854775808) =
      some (7599824371187711 / 562949953421312) := by
  rw [mulDouble,
    roundToDouble_eq _ (3) 7599824371187711 (by norm_num) (by norm_num) (by norm_num)
      (by norm_num) (by norm_num),
    finiteDouble_of_lt _ (by norm_num) (by norm_num)]
  norm_num

theorem mul_22500_0_001 :
    mulDouble 22500 (1152921504606847 / 1152921504606846976) = some (45 / 2) := by
  rw [mulDouble,
    roundToDouble_eq _ (4) 6333186975989760 (by norm_num) (by norm_num) (by norm_num)
      (by norm_num) (by norm_num),
    finiteDouble_of_lt _ (by norm_num) (by norm_num)]
  norm_num

theorem mul_22500_0_00002 :
    mulDouble 22500 (5902958103587057 / 295147905179352825856) =
      some (8106479329266893 / 18014398509481984) := by
  rw [mulDouble,
    roundToDouble_eq _ (-2) 8106479329266893 (by norm_num) (by norm_num) (by norm_num)
      (by norm_num) (by norm_num),
    finiteDouble_of_lt _ (by norm_num) (by norm_num)]
  norm_num

theorem mul_22500_1e6 : mulDouble 22500 1000000 = some 22500000000 := by
  rw [mulDouble,
    roundToDouble_eq _ (34) 5898240000000000 (by norm_num) (by norm_num) (by norm_num)
      (by norm_num) (by norm_num),
    finiteDouble_of_lt _ (by norm_num) (by norm_num)]
  norm_num

theorem double_of_double_0_0014 :
    roundToDouble (6456360425798343 / 4611686018427387904) =
      (6456360425798343 / 4611686018427387904) := by
  rw [roundToDouble_eq _ (-10) 6456360425798343 (by norm_num) (by norm_num) (by norm_num)
      (by norm_num) (by norm_num)]
  norm_num

theorem mul_22500_0_0014 :
    mulDouble 22500 (6456360425798343 / 4611686018427387904) = some (63 / 2) := by
  rw [mulDouble,
    roundToDouble_eq _ (4) 8866461766385664 (by norm_num) (by norm_num) (by norm_num)
      (by norm_num) (by norm_num),
    finiteDouble_of_lt _ (by norm_num) (by norm_num)]
  norm_num

theorem sub_150_0 : subDouble 150 0 = some 150 := by
  rw [subDouble,
    roundToDouble_eq _ (7) 5277655813324800 (by norm_num) (by norm_num) (by norm_num)
      (by norm_num) (by norm_num),
    finiteDouble_of_lt _ (by norm_num) (by norm_num)]
  norm_num

theorem mul_150_150 : mulDouble 150 150 = some 22500 := by
  rw [mulDouble,
    roundToDouble_eq _ (14) 6184752906240000 (by norm_num) (by norm_num) (by norm_num)
      (by norm_num) (by norm_num),
    finiteDouble_of_lt _ (by norm_num) (by norm_num)]
  norm_num

theorem sub_750_neg_250 : subDouble 750 (-250) = some 1000 := by
  rw [subDouble,
    roundToDouble_eq _ (9) 8796093022208000 (by norm_num) (by norm_num) (by norm_num)
      (by norm_num) (by norm_num),
    finiteDouble_of_lt _ (by norm_num) (by norm_num)]
  norm_num

theorem double_yMax :
    roundToDouble (769003937432778625 / 1125899906842624) = (6007843261193583 / 8796093022208) := by
  rw [roundToDouble_eq _ (9) 6007843261193583 (by norm_num) (by norm_num) (by norm_num)
      (by norm_num) (by norm_num)]
  norm_num

theorem sub_yMax_yMin :
    subDouble (6007843261193583 / 8796093022208) (-250) =
      some (8206866516745583 / 8796093022208) := by
  rw [subDouble,
    roundToDouble_eq _ (9) 8206866516745583 (by norm_num) (by norm_num) (by norm_num)
      (by norm_num) (by norm_num),
    finiteDouble_of_lt _ (by norm_num) (by norm_num)]
  norm_num

theorem mul_width_height :
    mulDouble 1000 (8206866516745583 / 8796093022208) = some (4007259041379679 / 4294967296) := by
  rw [mulDouble,
    roundToDouble_eq _ (19) 8014518082759358 (by norm_num) (by norm_num) (by norm_num)
      (by norm_num) (by norm_num),
    finiteDouble_of_lt _ (by norm_num) (by norm_num)]
  norm_num

theorem mul_area_density :
    mulDouble (4007259041379679 / 4294967296) (5902958103587057 / 295147905179352825856) =
      some (5252394570717173 / 281474976710656) := by
  rw [mulDouble,
    roundToDouble_eq _ (4) 5252394570717173 (by norm_num) (by norm_num) (by norm_num)
      (by norm_num) (by norm_num),
    finiteDouble_of_lt _ (by norm_num) (by norm_num)]
  norm_num

theorem homeEnbProduct_25_1_3 :
    homeEnbProduct 25 1 3 0.55 0.7 = some (8127589952520191 / 70368744177664) := by
  have hN : ((((4 * 25) % 2 ^ 32 * 1) % 2 ^ 32 * 3 % 2 ^ 32 : ℕ) : ℚ) = 300 := by norm_num
  simp only [homeEnbProduct, hN, double_0_55, mul_300_0_55, Option.some_bind, double_0_7,
    mul_165_0_7]

theorem nHomeEnbs_25_1_3 : nHomeEnbs 25 1 3 0.55 0.7 = some 115 := by
  simp only [nHomeEnbs, homeEnbProduct_25_1_3, Option.some_bind]
  exact toUint32_round_eq _ 115 (by norm_num) (by norm_num) (by norm_num) (by norm_num)

theorem homeEnbProduct_default : homeEnbProduct 10 1 1 0.2 0.5 = some 4 := by
  have hN : ((((4 * 10) % 2 ^ 32 * 1) % 2 ^ 32 * 1 % 2 ^ 32 : ℕ) : ℚ) = 40 := by norm_num
  simp only [homeEnbProduct, hN, double_0_2, mul_40_0_2, Option.some_bind, double_0_5,
    mul_8_0_5]

theorem nHomeEnbs_wrapped (homeEnbDeploymentRatio homeEnbActivationRatio : ℚ) :
    nHomeEnbs 1073741824 1 1 homeEnbDeploymentRatio homeEnbActivationRatio = some 0 := by
  have hN : ((((4 * 1073741824) % 2 ^ 32 * 1) % 2 ^ 32 * 1 % 2 ^ 32 : ℕ) : ℚ) = 0 := by
    norm_num
  simp only [nHomeEnbs, homeEnbProduct, hN, mulDouble_zero_left, Option.some_bind]
  exact toUint32_round_eq _ 0 (by norm_num) (by norm_num) (by norm_num) (by norm_num)

theorem homeEnbProduct_large : homeEnbProduct 10 1 1 1000000000 1 = some 40000000000 := by
  have hN : ((((4 * 10) % 2 ^ 32 * 1) % 2 ^ 32 * 1 % 2 ^ 32 : ℕ) : ℚ) = 40 := by norm_num
  rw [homeEnbProduct, hN, double_1e9, mul_40_1e9, Option.some_bind, roundToDouble_one,
    mul_4e10_1]

/-- C13, as stated, fails. With `nApartmentsX = 25`, `nBlocks = 1`, `nFloors = 3`
and the ratios `0.55` and `0.7` the exact product is `115.5`, which rounds to
`116`, also when the ratios are replaced by the nearest `double` values; the
program multiplies in `double` arithmetic, gets a product just below `115.5`
and creates `115` home eNBs. With `nApartmentsX = 2 ^ 30` and both ratios `0.5`
the `uint32_t` product `4 * nApartmentsX * nBlocks * nFloors` wraps to `0` and
`nHomeEnbs` is `0`, whereas the exact product is `1073741824`. With
`nApartmentsX = 10` and a deployment ratio of `1000000000` the rounded product
`40000000000` is not representable in `uint32_t`. -/
theorem C13_counterexample :
    nHomeEnbs 25 1 3 0.55 0.7 = some 115 ∧
    round ((4 : ℚ) * 25 * 1 * 3 * 0.55 * 0.7) = 116 ∧
    round ((4 : ℚ) * 25 * 1 * 3 * roundToDouble 0.55 * roundToDouble 0.7) = 116 ∧
    nHomeEnbs 1073741824 1 1 0.5 0.5 = some 0 ∧
    round ((4 : ℚ) * 1073741824 * 1 * 1 * 0.5 * 0.5) = 1073741824 ∧
    nHomeEnbs 10 1 1 1000000000 1 = none ∧
    round ((4 : ℚ) * 10 * 1 * 1 * 1000000000 * 1) = 40000000000 := by
  refine ⟨nHomeEnbs_25_1_3, ?_, ?_, nHomeEnbs_wrapped _ _, ?_, ?_, ?_⟩
  · exact round_eq_natCast _ 116 (by norm_num) (by norm_num) (by norm_num)
  · rw [double_0_55, double_0_7]
    exact round_eq_natCast _ 116 (by norm_num) (by norm_num) (by norm_num)
  · exact round_eq_natCast _ 1073741824 (by norm_num) (by norm_num) (by norm_num)
  · rw [nHomeEnbs, homeEnbProduct_large, Option.some_bind]
    exact toUint32_round_of_large _ (by norm_num)
  · exact round_eq_natCast _ 40000000000 (by norm_num) (by norm_num) (by norm_num)

/-- The two products of `homeEnbProduct` when the `uint32_t` product does not
wrap. -/
theorem homeEnbProduct_eq_some (nApartmentsX nBlocks nFloors : ℕ)
    (homeEnbDeploymentRatio homeEnbActivationRatio q : ℚ)
    (hprod : 4 * nApartmentsX * nBlocks * nFloors < 2 ^ 32) :
    homeEnbProduct nApartmentsX nBlocks nFloors homeEnbDeploymentRatio homeEnbActivationRatio
        = some q ↔
      ∃ p, mulDouble ((4 * nApartmentsX * nBlocks * nFloors : ℕ) : ℚ)
          (roundToDouble homeEnbDeploymentRatio) = some p ∧
        mulDouble p (roundToDouble homeEnbActivationRatio) = some q := by
  simp only [homeEnbProduct, wrapped_product, Nat.mod_eq_of_lt hprod, Option.bind_eq_some]

/-- C13, amended: when `4 * nApartmentsX * nBlocks * nFloors < 2 ^ 32`, both
ratios are non-negative, the product evaluated in `double` arithmetic is finite
and its rounding is below `2 ^ 32`, `nHomeEnbs` is the rounding half away from
zero of that `double` product `q`: the integer factor times the `double`
nearest to `homeEnbDeploymentRatio`, rounded to a `double`, times the `double`
nearest to `homeEnbActivationRatio`, rounded to a `double`. It is the natural
number `k` with `k - 1 / 2 ≤ q < k + 1 / 2`, and `q` differs from the exact
product of the three `double` factors by at most half a unit in the last place
for each of the two multiplications. -/
theorem C13_nHomeEnbs_rounds_product (nApartmentsX nBlocks nFloors : ℕ)
    (homeEnbDeploymentRatio homeEnbActivationRatio : ℚ)
    (hprod : 4 * nApartmentsX * nBlocks * nFloors < 2 ^ 32)
    (h1 : 0 ≤ homeEnbDeploymentRatio) (h2 : 0 ≤ homeEnbActivationRatio) (q : ℚ)
    (hq : homeEnbProduct nApartmentsX nBlocks nFloors homeEnbDeploymentRatio
      homeEnbActivationRatio = some q)
    (hfit : round q < 2 ^ 32) :
    q = roundToDouble (roundToDouble (((4 * nApartmentsX * nBlocks * nFloors : ℕ) : ℚ) *
      roundToDouble homeEnbDeploymentRatio) * roundToDouble homeEnbActivationRatio) ∧
    |q - ((4 * nApartmentsX * nBlocks * nFloors : ℕ) : ℚ) *
        roundToDouble homeEnbDeploymentRatio * roundToDouble homeEnbActivationRatio| ≤
      ulp (roundToDouble (((4 * nApartmentsX * nBlocks * nFloors : ℕ) : ℚ) *
        roundToDouble homeEnbDeploymentRatio) * roundToDouble homeEnbActivationRatio) / 2 +
      ulp (((4 * nApartmentsX * nBlocks * nFloors : ℕ) : ℚ) *
        roundToDouble homeEnbDeploymentRatio) / 2 * roundToDouble homeEnbActivationRatio ∧
    ∃ k : ℕ,
      nHomeEnbs nApartmentsX nBlocks nFloors homeEnbDeploymentRatio homeEnbActivationRatio
        = some k ∧
      (k : ℤ) = round q ∧ (k : ℚ) - 1 / 2 ≤ q ∧ q < (k : ℚ) + 1 / 2 := by
  obtain ⟨p, hp, hpq⟩ := (homeEnbProduct_eq_some _ _ _ _ _ q hprod).1 hq
  have hpe := mulDouble_eq_some hp
  have hqe := mulDouble_eq_some hpq
  have hd1 := roundToDouble_nonneg h1
  have hd2 := roundToDouble_nonneg h2
  have hN : (0 : ℚ) ≤ ((4 * nApartmentsX * nBlocks * nFloors : ℕ) : ℚ) := Nat.cast_nonneg _
  have hp0 : 0 ≤ p := by rw [hpe]; exact roundToDouble_nonneg (mul_nonneg hN hd1)
  have hq0 : 0 ≤ q := by rw [hqe]; exact roundToDouble_nonneg (mul_nonneg hp0 hd2)
  refine ⟨by rw [hqe, hpe], ?_, ?_⟩
  · rw [← hpe]
    have e1 := abs_roundToDouble_sub_le (p * roundToDouble homeEnbActivationRatio)
    have e2 := abs_roundToDouble_sub_le (((4 * nApartmentsX * nBlocks * nFloors : ℕ) : ℚ) *
      roundToDouble homeEnbDeploymentRatio)
    rw [← hqe] at e1
    rw [← hpe] at e2
    have e3 : |(p - ((4 * nApartmentsX * nBlocks * nFloors : ℕ) : ℚ) *
        roundToDouble homeEnbDeploymentRatio) * roundToDouble homeEnbActivationRatio| ≤
        ulp (((4 * nApartmentsX * nBlocks * nFloors : ℕ) : ℚ) *
          roundToDouble homeEnbDeploymentRatio) / 2 * roundToDouble homeEnbActivationRatio := by
      rw [abs_mul, abs_of_nonneg hd2]
      exact mul_le_mul_of_nonneg_right e2 hd2
    have e4 : q - ((4 * nApartmentsX * nBlocks * nFloors : ℕ) : ℚ) *
        roundToDouble homeEnbDeploymentRatio * roundToDouble homeEnbActivationRatio =
        (q - p * roundToDouble homeEnbActivationRatio) +
        (p - ((4 * nApartmentsX * nBlocks * nFloors : ℕ) : ℚ) *
          roundToDouble homeEnbDeploymentRatio) * roundToDouble homeEnbActivationRatio := by
      ring
    rw [e4]
    exact le_trans (abs_add _ _) (add_le_add e1 e3)
  · have hlt := (round_lt_iff_of_nonneg _ hq0).1 hfit
    obtain ⟨k, hk, hkr, -, hlo, hhi⟩ := toUint32_round_of_nonneg _ hq0 hlt
    refine ⟨k, ?_, hkr, hlo, hhi⟩
    simp only [nHomeEnbs, hq, Option.some_bind]
    exact hk

/-- Witness of C13: `nApartmentsX = 10`, `nBlocks = 1`, `nFloors = 1` and the
ratios `0.2` and `0.5` give the `double` product `4` and `nHomeEnbs = 4`. -/
theorem C13_witness :
    nHomeEnbs 10 1 1 0.2 0.5 = some 4 ∧
    homeEnbProduct 10 1 1 0.2 0.5 = some 4 ∧
    (4 : ℚ) = roundToDouble (roundToDouble (((4 * 10 * 1 * 1 : ℕ) : ℚ) * roundToDouble 0.2) *
      roundToDouble 0.5) ∧
    ∃ k : ℕ, nHomeEnbs 10 1 1 0.2 0.5 = some k ∧ (k : ℤ) = round 4 ∧
      (k : ℚ) - 1 / 2 ≤ 4 ∧ (4 : ℚ) < (k : ℚ) + 1 / 2 :=
  have h := C13_nHomeEnbs_rounds_product 10 1 1 0.2 0.5 (by norm_num) (by norm_num)
    (by norm_num) 4 homeEnbProduct_default
    (by rw [round_eq_natCast 4 4 (by norm_num) (by norm_num) (by norm_num)]; norm_num)
  ⟨by
      simp only [nHomeEnbs, homeEnbProduct_default, Option.some_bind]
      exact toUint32_round_eq _ 4 (by norm_num) (by norm_num) (by norm_num) (by norm_num),
    homeEnbProduct_default, h.1, h.2.2⟩

theorem deploymentLayout_ok (c : Config) (sqrt075 : ℚ) (xStream yStream : ℕ → ℚ)
    (l : DeploymentLayout) (h : deploymentLayout c sqrt075 xStream yStream = .ok l) :
    ∃ s, CreateN c.nBlocks (FemtocellBlockAllocator.new
        (macroUeBox c.nMacroEnbSites c.nMacroEnbSitesX c.interSiteDistance c.areaMarginFactor
          sqrt075) c.nApartmentsX c.nFloors xStream yStream) = .ok s ∧
      l = { macroUeBox := macroUeBox c.nMacroEnbSites c.nMacroEnbSitesX c.interSiteDistance
              c.areaMarginFactor sqrt075
            blocks := s.m_previousBlocks
            gridBuildingAllocators := s.m_gridBuildingAllocators
            nHomeEnbs := nHomeEnbs c.nApartmentsX c.nBlocks c.nFloors c.homeEnbDeploymentRatio
              c.homeEnbActivationRatio
            nMacroEnbs := nMacroEnbs c.nMacroEnbSites
            nHomeUes := (nHomeEnbs c.nApartmentsX c.nBlocks c.nFloors c.homeEnbDeploymentRatio
              c.homeEnbActivationRatio).bind (fun n => nHomeUes n c.homeUesHomeEnbRatio)
            nMacroUes := nMacroUes (macroUeBox c.nMacroEnbSites c.nMacroEnbSitesX
              c.interSiteDistance c.areaMarginFactor sqrt075) c.macroUeDensity } := by
  simp only [deploymentLayout] at h
  cases hc : CreateN c.nBlocks (FemtocellBlockAllocator.new
      (macroUeBox c.nMacroEnbSites c.nMacroEnbSitesX c.interSiteDistance c.areaMarginFactor
        sqrt075) c.nApartmentsX c.nFloors xStream yStream) with
  | error e =>
    rw [hc] at h
    cases h
  | ok s =>
    rw [hc] at h
    exact ⟨s, rfl, (Except.ok.inj h).symm⟩

theorem nHomeUes_zero (homeUesHomeEnbRatio : ℚ) : nHomeUes 0 homeUesHomeEnbRatio = some 0 := by
  simp only [nHomeUes, Nat.cast_zero, mulDouble_zero_left, Option.some_bind]
  exact toUint32_round_eq _ 0 (by norm_num) (by norm_num) (by norm_num) (by norm_num)

theorem nHomeUes_one (n : ℕ) (hn : n < 2 ^ 32) : nHomeUes n 1.0 = some n := by
  have hn53 : n < 2 ^ 53 := lt_trans hn (by norm_num)
  have hnq : (n : ℚ) < 2 ^ 32 := by exact_mod_cast hn
  have hm : mulDouble (n : ℚ) 1 = some (n : ℚ) := by
    rw [mulDouble, mul_one, roundToDouble_natCast n hn53]
    exact finiteDouble_of_lt _ (Nat.cast_nonneg n) (lt_trans hnq (by norm_num))
  simp only [nHomeUes, double_1_0, hm, Option.some_bind]
  exact toUint32_round_eq _ n hn (Nat.cast_nonneg n) (by linarith) (by linarith)

/-- C14, as stated, fails. With `nHomeEnbs = 25` and the ratio `0.58` the exact
product is `14.5`, which rounds to `15`, but the `double` product is just below
`14.5` and `nHomeUes` is `14`. With `nHomeEnbs = 5` and the ratio equal to the
`double` nearest to `0.7` the exact product is just below `3.5` and rounds to
`3`, but the `double` product is `3.5` and `nHomeUes` is `4`. With
`nHomeEnbs = 4` and the ratio `2147483648` the rounded product `8589934592` is
not representable in `uint32_t`. -/
theorem C14_counterexample :
    nHomeUes 25 0.58 = some 14 ∧ round (((25 : ℕ) : ℚ) * 0.58) = 15 ∧
    roundToDouble (3152519739159347 / 4503599627370496) =
      3152519739159347 / 4503599627370496 ∧
    nHomeUes 5 (3152519739159347 / 4503599627370496) = some 4 ∧
    round (((5 : ℕ) : ℚ) * (3152519739159347 / 4503599627370496)) = 3 ∧
    (0 : ℚ) ≤ 2147483648 ∧ nHomeUes 4 2147483648 = none ∧
    round (((4 : ℕ) : ℚ) * 2147483648) = 8589934592 := by
  refine ⟨?_, ?_, double_of_double_0_7, ?_, ?_, by norm_num, ?_, ?_⟩
  · simp only [nHomeUes, Nat.cast_ofNat, double_0_58, mul_25_0_58, Option.some_bind]
    exact toUint32_round_eq _ 14 (by norm_num) (by norm_num) (by norm_num) (by norm_num)
  · exact round_eq_natCast _ 15 (by norm_num) (by norm_num) (by norm_num)
  · simp only [nHomeUes, Nat.cast_ofNat, double_of_double_0_7, mul_5_0_7, Option.some_bind]
    exact toUint32_round_eq _ 4 (by norm_num) (by norm_num) (by norm_num) (by norm_num)
  · exact round_eq_natCast _ 3 (by norm_num) (by norm_num) (by norm_num)
  · simp only [nHomeUes, Nat.cast_ofNat, double_2_31, mul_4_2_31, Option.some_bind]
    exact toUint32_round_of_large _ (by norm_num)
  · exact round_eq_natCast _ 8589934592 (by norm_num) (by norm_num) (by norm_num)

/-- C14, amended: for a non-negative `homeUesHomeEnbRatio` such that the product
`nHomeEnbs * homeUesHomeEnbRatio` evaluated in `double` arithmetic is finite and
its rounding is below `2 ^ 32`, `nHomeUes` is the rounding half away from zero
of that `double` product `q`, which is within half a unit in the last place of
the exact product of `nHomeEnbs` and the `double` nearest to the ratio; with the
ratio `1.0` it is `nHomeEnbs`; and in every layout it is computed from the
`uint32_t` value of `nHomeEnbs`. -/
theorem C14_nHomeUes_rounds_product (n : ℕ) (hn : n < 2 ^ 32) (homeUesHomeEnbRatio : ℚ)
    (hr : 0 ≤ homeUesHomeEnbRatio) (q : ℚ)
    (hq : mulDouble (n : ℚ) (roundToDouble homeUesHomeEnbRatio) = some q)
    (hfit : round q < 2 ^ 32) :
    (q = roundToDouble ((n : ℚ) * roundToDouble homeUesHomeEnbRatio) ∧
      |q - (n : ℚ) * roundToDouble homeUesHomeEnbRatio| ≤
        ulp ((n : ℚ) * roundToDouble homeUesHomeEnbRatio) / 2 ∧
      ∃ k : ℕ, nHomeUes n homeUesHomeEnbRatio = some k ∧
        (k : ℤ) = round q ∧ (k : ℚ) - 1 / 2 ≤ q ∧ q < (k : ℚ) + 1 / 2) ∧
    nHomeUes n 1.0 = some n ∧
    (∀ (c : Config) (sqrt075 : ℚ) (xStream yStream : ℕ → ℚ) (l : DeploymentLayout),
      deploymentLayout c sqrt075 xStream yStream = .ok l →
      l.nHomeUes = l.nHomeEnbs.bind (fun m => nHomeUes m c.homeUesHomeEnbRatio)) := by
  refine ⟨?_, nHomeUes_one n hn, ?_⟩
  · have hqe := mulDouble_eq_some hq
    have hd := roundToDouble_nonneg hr
    have hq0 : 0 ≤ q := by
      rw [hqe]; exact roundToDouble_nonneg (mul_nonneg (Nat.cast_nonneg n) hd)
    refine ⟨hqe, ?_, ?_⟩
    · rw [hqe]
      exact abs_roundToDouble_sub_le _
    · have hlt := (round_lt_iff_of_nonneg _ hq0).1 hfit
      obtain ⟨k, hk, hkr, -, hlo, hhi⟩ := toUint32_round_of_nonneg _ hq0 hlt
      refine ⟨k, ?_, hkr, hlo, hhi⟩
      simp only [nHomeUes, hq, Option.some_bind]
      exact hk
  · intro c sqrt075 xStream yStream l h
    obtain ⟨s, -, rfl⟩ := deploymentLayout_ok c sqrt075 xStream yStream l h
    rfl

theorem nHomeEnbs_1_1_1 : nHomeEnbs 1 1 1 0.3 0.5 = some 1 := by
  have hN : ((((4 * 1) % 2 ^ 32 * 1) % 2 ^ 32 * 1 % 2 ^ 32 : ℕ) : ℚ) = 4 := by norm_num
  simp only [nHomeEnbs, homeEnbProduct, hN, double_0_3, mul_4_0_3, Option.some_bind, double_0_5,
    mul_0_3_0_5]
  exact toUint32_round_eq _ 1 (by norm_num) (by norm_num) (by norm_num) (by norm_num)

theorem mulDouble_1_0_8 :
    mulDouble ((1 : ℕ) : ℚ) (roundToDouble 0.8) = some (3602879701896397 / 4503599627370496) := by
  rw [Nat.cast_one, double_0_8]
  exact mul_1_0_8

/-- Witness of C14: with `nHomeEnbs = 1` and the ratio `0.8` there is one home
UE, although the unrounded product `0.6` of the home eNBs (one apartment, ratios
`0.3` and `0.5`) times `0.8` would round to `0`. -/
theorem C14_witness :
    nHomeEnbs 1 1 1 0.3 0.5 = some 1 ∧ nHomeUes 1 0.8 = some 1 ∧
    round ((4 : ℚ) * 1 * 1 * 1 * 0.3 * 0.5 * 0.8) = 0 ∧
    nHomeUes 1 1.0 = some 1 ∧
    ∃ k : ℕ, nHomeUes 1 0.8 = some k ∧
      (k : ℤ) = round (3602879701896397 / 4503599627370496) ∧
      (k : ℚ) - 1 / 2 ≤ 3602879701896397 / 4503599627370496 ∧
      (3602879701896397 / 4503599627370496 : ℚ) < (k : ℚ) + 1 / 2 :=
  have h := C14_nHomeUes_rounds_product 1 (by norm_num) 0.8 (by norm_num)
    (3602879701896397 / 4503599627370496) mulDouble_1_0_8
    (by rw [round_eq_natCast _ 1 (by norm_num) (by norm_num) (by norm_num)]; norm_num)
  ⟨nHomeEnbs_1_1_1,
    by
      have hm := mulDouble_1_0_8
      rw [Nat.cast_one] at hm
      simp only [nHomeUes, Nat.cast_one, hm, Option.some_bind]
      exact toUint32_round_eq _ 1 (by norm_num) (by norm_num) (by norm_num) (by norm_num),
    by
      have := round_eq_natCast ((4 : ℚ) * 1 * 1 * 1 * 0.3 * 0.5 * 0.8) 0 (by norm_num)
        (by norm_num) (by norm_num)
      simpa using this,
    h.2.1, h.1.2.2⟩

theorem mulDouble_neg_right {a b v : ℚ} (h : mulDouble a b = some v) :
    mulDouble a (-b) = some (-v) := by
  simp only [mulDouble, mul_neg, roundToDouble_neg, finiteDouble, abs_neg] at h ⊢
  by_cases hlt : |roundToDouble (a * b)| < 2 ^ 1024
  · rw [if_pos hlt] at h ⊢
    rw [Option.some.inj h]
  · rw [if_neg hlt] at h
    cases h

theorem double_neg_250 : roundToDouble (-250) = -250 := by
  rw [roundToDouble_neg, double_250]

theorem macroUeBox_fallback : macroUeBox 0 1 500 0.5 sqrt075Double = fallbackArea := by
  simp [macroUeBox, fallbackArea]

theorem macroUeAreaSize_fallback : macroUeAreaSize fallbackArea = some 22500 := by
  have h1 : fallbackArea.xMax = 150 := rfl
  have h2 : fallbackArea.xMin = 0 := rfl
  have h3 : fallbackArea.yMax = 150 := rfl
  have h4 : fallbackArea.yMin = 0 := rfl
  rw [macroUeAreaSize, h1, h2, h3, h4, double_150, roundToDouble_zero, sub_150_0,
    Option.some_bind, Option.some_bind, mul_150_150]

theorem macroUeBox_default :
    macroUeBox 3 1 500 0.5 sqrt075Double =
      { xMin := -250, xMax := 750, yMin := -250,
        yMax := 769003937432778625 / 1125899906842624, zMin := 1.5, zMax := 1.5 } := by
  simp only [macroUeBox, nMacroEnbSitesY_default, sqrt075Double]
  norm_num

theorem macroUeAreaSize_default :
    macroUeAreaSize (macroUeBox 3 1 500 0.5 sqrt075Double) =
      some (4007259041379679 / 4294967296) := by
  have h1 : (macroUeBox 3 1 500 0.5 sqrt075Double).xMax = 750 := by rw [macroUeBox_default]
  have h2 : (macroUeBox 3 1 500 0.5 sqrt075Double).xMin = -250 := by rw [macroUeBox_default]
  have h3 : (macroUeBox 3 1 500 0.5 sqrt075Double).yMax =
      769003937432778625 / 1125899906842624 := by rw [macroUeBox_default]
  have h4 : (macroUeBox 3 1 500 0.5 sqrt075Double).yMin = -250 := by rw [macroUeBox_default]
  rw [macroUeAreaSize, h1, h2, h3, h4, double_750, double_neg_250, sub_750_neg_250,
    Option.some_bind, double_yMax, sub_yMax_yMin, Option.some_bind, mul_width_height]

theorem nMacroUes_default :
    nMacroUes (macroUeBox 3 1 500 0.5 sqrt075Double) 0.00002 = some 19 := by
  simp only [nMacroUes, macroUeAreaSize_default, Option.some_bind, double_0_00002,
    mul_area_density]
  exact toUint32_round_eq _ 19 (by norm_num) (by norm_num) (by norm_num) (by norm_num)

/-- C15, as stated, fails. On the fallback box, whose area is `22500`, the
density `0.0006` gives the exact product `13.5`, which rounds to `14`, but the
`double` product is just below `13.5` and `nMacroUes` is `13`. With the density
equal to the `double` nearest to `0.0014` the exact product is just below
`31.5` and rounds to `31`, but the `double` product is `31.5` and `nMacroUes`
is `32`. A density of `-0.001` gives the product `-22.5`, rounded to `-23`, and
a density of `1000000` gives `22500000000`; neither is representable in
`uint32_t`, so `nMacroUes` is not that number. -/
theorem C15_counterexample :
    macroUeAreaSize fallbackArea = some 22500 ∧
    nMacroUes fallbackArea 0.0006 = some 13 ∧
    round ((22500 : ℚ) * 0.0006) = 14 ∧
    roundToDouble (6456360425798343 / 4611686018427387904) =
      6456360425798343 / 4611686018427387904 ∧
    nMacroUes fallbackArea (6456360425798343 / 4611686018427387904) = some 32 ∧
    round ((22500 : ℚ) * (6456360425798343 / 4611686018427387904)) = 31 ∧
    nMacroUes fallbackArea (-0.001) = none ∧
    round ((22500 : ℚ) * (-0.001)) = -23 ∧
    nMacroUes fallbackArea 1000000 = none ∧
    round ((22500 : ℚ) * 1000000) = 22500000000 := by
  have hround : round ((22500 : ℚ) * (-0.001)) = -23 := by
    have hneg : ¬ (0 : ℚ) ≤ 22500 * (-0.001) := by norm_num
    simp only [round, if_neg hneg]
    rw [Int.ceil_eq_iff]
    norm_num
  refine ⟨macroUeAreaSize_fallback, ?_, ?_, double_of_double_0_0014, ?_, ?_, ?_, hround, ?_, ?_⟩
  · simp only [nMacroUes, macroUeAreaSize_fallback, Option.some_bind, double_0_0006,
      mul_22500_0_0006]
    exact toUint32_round_eq _ 13 (by norm_num) (by norm_num) (by norm_num) (by norm_num)
  · exact round_eq_natCast _ 14 (by norm_num) (by norm_num) (by norm_num)
  · simp only [nMacroUes, macroUeAreaSize_fallback, Option.some_bind, double_of_double_0_0014,
      mul_22500_0_0014]
    exact toUint32_round_eq _ 32 (by norm_num) (by norm_num) (by norm_num) (by norm_num)
  · exact round_eq_natCast _ 31 (by norm_num) (by norm_num) (by norm_num)
  · simp only [nMacroUes, macroUeAreaSize_fallback, Option.some_bind, roundToDouble_neg,
      double_0_001, mulDouble_neg_right mul_22500_0_001]
    exact toUint32_round_of_neg _ (by norm_num)
  · rw [nMacroUes, macroUeAreaSize_fallback, Option.some_bind, double_1e6, mul_22500_1e6,
      Option.some_bind]
    exact toUint32_round_of_large _ (by norm_num)
  · exact round_eq_natCast _ 22500000000 (by norm_num) (by norm_num) (by norm_num)

/-- C15, amended: for every macro coverage box whose area, evaluated in `double`
arithmetic, is finite, and every density such that the `double` product of the
area and the density is finite and its rounding is at least `0` and below
`2 ^ 32`, `nMacroUes` is the rounding half away from zero of that `double`
product `q`, where the area `a` is the `double` product of the `double`
differences `xMax - xMin` and `yMax - yMin`; `q` is within half a unit in the
last place of the exact product of `a` and the `double` nearest to the density,
and `nMacroUes` is an integer at distance at most `1 / 2` from `q`. -/
theorem C15_nMacroUes_rounds_area_density (macroUeBox : Box) (macroUeDensity a q : ℚ)
    (ha : macroUeAreaSize macroUeBox = some a)
    (hq : mulDouble a (roundToDouble macroUeDensity) = some q)
    (h0 : 0 ≤ round q) (h1 : round q < 2 ^ 32) :
    a = roundToDouble
      (roundToDouble (roundToDouble macroUeBox.xMax - roundToDouble macroUeBox.xMin) *
        roundToDouble (roundToDouble macroUeBox.yMax - roundToDouble macroUeBox.yMin)) ∧
    q = roundToDouble (a * roundToDouble macroUeDensity) ∧
    |q - a * roundToDouble macroUeDensity| ≤ ulp (a * roundToDouble macroUeDensity) / 2 ∧
    (∃ k : ℕ, nMacroUes macroUeBox macroUeDensity = some k ∧
      (k : ℤ) = round q ∧ |q - (k : ℚ)| ≤ 1 / 2) := by
  have hqe := mulDouble_eq_some hq
  refine ⟨?_, hqe, ?_, (round q).toNat, ?_, ?_, ?_⟩
  · simp only [macroUeAreaSize, Option.bind_eq_some] at ha
    obtain ⟨w, hw, h, hh, hwh⟩ := ha
    rw [mulDouble_eq_some hwh, subDouble_eq_some hw, subDouble_eq_some hh]
  · rw [hqe]
    exact abs_roundToDouble_sub_le _
  · simp only [nMacroUes, ha, Option.some_bind, hq]
    exact toUint32_of_fits _ h0 h1
  · exact Int.toNat_of_nonneg h0
  · have hk : (((round q).toNat : ℕ) : ℚ) = ((round q : ℤ) : ℚ) := by
      rw [← Int.cast_natCast, Int.toNat_of_nonneg h0]
    rw [hk]
    exact abs_sub_round_le _

/-- Witness of C15: the fallback box with the default density `0.00002` gives
the product `0.45` and `nMacroUes = 0`; the all-default configuration gives the
area `933012.70...` and the product `18.66...`, and `nMacroUes = 19`. -/
theorem C15_witness :
    nMacroUes (macroUeBox 0 1 500 0.5 sqrt075Double) 0.00002 = some 0 ∧
    nMacroUes (macroUeBox 3 1 500 0.5 sqrt075Double) 0.00002 = some 19 ∧
    macroUeAreaSize (macroUeBox 3 1 500 0.5 sqrt075Double) =
      some (4007259041379679 / 4294967296) ∧
    (∃ k : ℕ, nMacroUes (macroUeBox 3 1 500 0.5 sqrt075Double) 0.00002 = some k ∧
      (k : ℤ) = round (5252394570717173 / 281474976710656) ∧
      |(5252394570717173 / 281474976710656 : ℚ) - (k : ℚ)| ≤ 1 / 2) :=
  have hr : round (5252394570717173 / 281474976710656) = ((19 : ℕ) : ℤ) :=
    round_eq_natCast _ 19 (by norm_num) (by norm_num) (by norm_num)
  ⟨by
      simp only [macroUeBox_fallback, nMacroUes, macroUeAreaSize_fallback, Option.some_bind,
        double_0_00002, mul_22500_0_00002]
      exact toUint32_round_eq _ 0 (by norm_num) (by norm_num) (by norm_num) (by norm_num),
    nMacroUes_default, macroUeAreaSize_default,
    (C15_nMacroUes_rounds_area_density (macroUeBox 3 1 500 0.5 sqrt075Double) 0.00002
      (4007259041379679 / 4294967296) (5252394570717173 / 281474976710656)
      macroUeAreaSize_default (by rw [double_0_00002]; exact mul_area_density)
      (by rw [hr]; norm_num) (by rw [hr]; norm_num)).2.2.2⟩

/-! ## The buildings of a block -/

theorem runCalls_grid (calls : List Call) (s t : FemtocellBlockAllocator)
    (hs : s.m_gridBuildingAllocators =
      s.m_previousBlocks.map (gridBuildingAllocatorFor s.m_nApartmentsX s.m_nFloors))
    (h : runCalls calls s = .ok t) :
    t.m_gridBuildingAllocators =
      t.m_previousBlocks.map (gridBuildingAllocatorFor s.m_nApartmentsX s.m_nFloors) := by
  refine runCalls_induction
    (fun u => SameConfig s u ∧ u.m_gridBuildingAllocators =
      u.m_previousBlocks.map (gridBuildingAllocatorFor s.m_nApartmentsX s.m_nFloors)) ?_
    calls s t ⟨⟨rfl, rfl, rfl, rfl, rfl, rfl, rfl, rfl, rfl, rfl, rfl⟩, hs⟩ h |>.2
  rintro u v ⟨hcfg, hu⟩ huv
  have hcfg2 := Create_sameConfig u v huv
  obtain ⟨j, -, -, -, rfl⟩ := Create_ok_cases u v huv
  refine ⟨?_, ?_⟩
  · obtain ⟨h1, h2, h3, h4, h5, h6, h7, h8, h9, h10, h11⟩ := hcfg2
    obtain ⟨g1, g2, g3, g4, g5, g6, g7, g8, g9, g10, g11⟩ := hcfg
    exact ⟨h1.trans g1, h2.trans g2, h3.trans g3, h4.trans g4, h5.trans g5, h6.trans g6,
      h7.trans g7, h8.trans g8, h9.trans g9, h10.trans g10, h11.trans g11⟩
  · obtain ⟨-, g2, g3, -⟩ := hcfg
    simp only [Create.finish, FemtocellBlockAllocator.afterDraws, List.map_append, List.map_cons,
      List.map_nil]
    rw [hu]
    simp only [gridBuildingAllocatorFor, g2, g3]

/-- C18, as stated, fails for `nFloors = 1431655766`: the `uint32_t` product
`3 * m_nFloors` wraps, and the grid building allocator of the accepted block is
given the height `2`, not `4294967298`. -/
theorem C18_counterexample :
    ∃ s g, runCalls [Call.create] tallAllocator = .ok s ∧
      s.m_gridBuildingAllocators = [g] ∧ g.NFloors = 1431655766 ∧ g.Height = 2 ∧
      g.Height ≠ ((3 * 1431655766 : ℕ) : ℚ) := by
  refine ⟨Create.finish (tallAllocator.afterDraws 1) (candidate tallAllocator 0),
    gridBuildingAllocatorFor 10 1431655766 (candidate tallAllocator 0), ?_, rfl, rfl, ?_, ?_⟩
  · simp only [runCalls, Call.run]
    rw [Create_accept tallAllocator 0 (by omega) (by intro k hk; omega) (by rfl)]
  · simp [gridBuildingAllocatorFor]
  · simp [gridBuildingAllocatorFor]

/-- C18, amended: when `3 * nFloors < 2 ^ 32`, for every accepted block
`Create()` has run exactly one grid building allocator, which is asked for `2`
buildings in a grid of width `1`, each with `NRoomsX = nApartmentsX`,
`NRoomsY = 2`, `NFloors = nFloors` and height `3 * nFloors`, anchored at
`(MinX, MinY) = (box.xMin + 10, box.yMin + 10)`. -/
theorem C18_two_buildings_per_block (area : Box) (nApartmentsX nFloors : ℕ)
    (hfloors : 3 * nFloors < 2 ^ 32) (xStream yStream : ℕ → ℚ) (calls : List Call)
    (s : FemtocellBlockAllocator)
    (h : runCalls calls (FemtocellBlockAllocator.new area nApartmentsX nFloors xStream yStream)
      = .ok s) :
    s.m_gridBuildingAllocators.length = s.m_previousBlocks.length ∧
    ∀ (i : ℕ) (box : Box) (g : GridBuildingAllocator),
      s.m_previousBlocks[i]? = some box → s.m_gridBuildingAllocators[i]? = some g →
      g.created = 2 ∧ g.GridWidth = 1 ∧ g.NRoomsX = nApartmentsX ∧ g.NRoomsY = 2 ∧
      g.NFloors = nFloors ∧ g.Height = ((3 * nFloors : ℕ) : ℚ) ∧
      g.MinX = box.xMin + 10 ∧ g.MinY = box.yMin + 10 := by
  have hgrid := runCalls_grid calls _ s rfl h
  simp only [FemtocellBlockAllocator.new] at hgrid
  refine ⟨by rw [hgrid, List.length_map], ?_⟩
  intro i box g hbox hg
  rw [hgrid, List.getElem?_map, hbox] at hg
  simp only [Option.map_some', Option.some.injEq] at hg
  subst hg
  simp only [gridBuildingAllocatorFor, Nat.mod_eq_of_lt hfloors, and_self]

/-- Witness of C18: the second block `(500, 620, 200, 270)` of the scenario
allocator has its two buildings of `10 × 2` rooms and one floor anchored at
`(510, 210)`. -/
theorem C18_witness :
    3 * 1 < 2 ^ 32 ∧
    scenarioResult.m_gridBuildingAllocators.length = scenarioResult.m_previousBlocks.length ∧
    (gridFor 500 200).created = 2 ∧ (gridFor 500 200).GridWidth = 1 ∧
    (gridFor 500 200).NRoomsX = 10 ∧ (gridFor 500 200).NRoomsY = 2 ∧
    (gridFor 500 200).NFloors = 1 ∧ (gridFor 500 200).Height = ((3 * 1 : ℕ) : ℚ) ∧
    (gridFor 500 200).MinX = 500 + 10 ∧ (gridFor 500 200).MinY = 200 + 10 :=
  have hmain := C18_two_buildings_per_block scenarioArea 10 1 (by decide)
    (stepStream 2 100 500) (fun _ => 200) [Call.createN 2] scenarioResult scenario_run
  ⟨by decide, hmain.1,
    hmain.2 1 { xMin := 500, xMax := 620, yMin := 200, yMax := 270 } (gridFor 500 200) rfl rfl⟩

/-! ## Determinism -/

theorem AgreeUpTo.candidate_eq {N : ℕ} {s t : FemtocellBlockAllocator} (h : AgreeUpTo N s t)
    (k : ℕ) (hx : s.m_xMinVar.taken + k < N) (hy : s.m_yMinVar.taken + k < N) :
    candidate s k = candidate t k := by
  simp only [candidate, candidateOf]
  rw [h.xStream _ hx, h.yStream _ hy, h.xTaken, h.yTaken, h.xSize, h.ySize]

theorem AgreeUpTo.overlaps_eq {N : ℕ} {s t : FemtocellBlockAllocator} (h : AgreeUpTo N s t)
    (b : Box) : OverlapsWithAnyPrevious s b = OverlapsWithAnyPrevious t b := by
  simp only [OverlapsWithAnyPrevious, h.previousBlocks]

theorem AgreeUpTo.finish {N : ℕ} {s t : FemtocellBlockAllocator} (h : AgreeUpTo N s t)
    (k : ℕ) (b : Box) :
    AgreeUpTo N (Create.finish (s.afterDraws k) b) (Create.finish (t.afterDraws k) b) where
  area := h.area
  nApartmentsX := h.nApartmentsX
  nFloors := h.nFloors
  previousBlocks := by
    simp only [Create.finish, FemtocellBlockAllocator.afterDraws, h.previousBlocks]
  xSize := h.xSize
  ySize := h.ySize
  xTaken := by
    simp only [Create.finish, FemtocellBlockAllocator.afterDraws, UniformRandomVariable.skip,
      h.xTaken]
  yTaken := by
    simp only [Create.finish, FemtocellBlockAllocator.afterDraws, UniformRandomVariable.skip,
      h.yTaken]
  grid := by
    simp only [Create.finish, FemtocellBlockAllocator.afterDraws, h.grid, h.nApartmentsX,
      h.nFloors]
  xStream := h.xStream
  yStream := h.yStream

/-- One call of `Create()` reads at most 100 values of each stream: on two
allocators that agree on these values it has the same outcome. -/
theorem Create_agree {N : ℕ} {s t : FemtocellBlockAllocator} (h : AgreeUpTo N s t)
    (hx : s.m_xMinVar.taken + 100 ≤ N) (hy : s.m_yMinVar.taken + 100 ≤ N) :
    (∃ e f, Create s = .error e ∧ Create t = .error f ∧ e.msg = f.msg ∧
      e.attempt = f.attempt ∧
      e.allocator.m_previousBlocks = f.allocator.m_previousBlocks) ∨
    (∃ u v, Create s = .ok u ∧ Create t = .ok v ∧ AgreeUpTo N u v ∧
      u.m_xMinVar.taken ≤ s.m_xMinVar.taken + 100 ∧
      u.m_yMinVar.taken ≤ s.m_yMinVar.taken + 100) := by
  rcases Create_cases s with ⟨hb, he⟩ | ⟨j, hj, hbusy, hfree, hok⟩
  · left
    have hbt : ∀ k < 100, OverlapsWithAnyPrevious t (candidate t k) = true := by
      intro k hk
      rw [← h.overlaps_eq, ← h.candidate_eq k (by omega) (by omega)]
      exact hb k hk
    exact ⟨_, _, he, Create_abort t hbt, rfl, rfl, h.previousBlocks⟩
  · right
    have hbt : ∀ k < j, OverlapsWithAnyPrevious t (candidate t k) = true := by
      intro k hk
      rw [← h.overlaps_eq, ← h.candidate_eq k (by omega) (by omega)]
      exact hbusy k hk
    have hft : OverlapsWithAnyPrevious t (candidate t j) = false := by
      rw [← h.overlaps_eq, ← h.candidate_eq j (by omega) (by omega)]
      exact hfree
    refine ⟨_, _, hok, Create_accept t j hj hbt hft, ?_, ?_, ?_⟩
    · rw [← h.candidate_eq j (by omega) (by omega)]
      exact h.finish (j + 1) (candidate s j)
    · show s.m_xMinVar.taken + (j + 1) ≤ s.m_xMinVar.taken + 100
      omega
    · show s.m_yMinVar.taken + (j + 1) ≤ s.m_yMinVar.taken + 100
      omega

theorem CreateN_agree {N : ℕ} (n : ℕ) :
    ∀ {s t : FemtocellBlockAllocator}, AgreeUpTo N s t →
      s.m_xMinVar.taken + 100 * n ≤ N → s.m_yMinVar.taken + 100 * n ≤ N →
      observeAllocator (CreateN n s) = observeAllocator (CreateN n t) := by
  induction n with
  | zero =>
    intro s t h _ _
    simp only [CreateN, observeAllocator, h.previousBlocks, h.grid]
  | succ n ih =>
    intro s t h hx hy
    rcases Create_agree h (by omega) (by omega) with
      ⟨e, f, he, hf, h1, h2, h3⟩ | ⟨u, v, hu, hv, huv, hux, huy⟩
    · simp only [CreateN, he, hf, observeAllocator, h1, h2, h3]
    · simp only [CreateN, hu, hv]
      exact ih huv (by omega) (by omega)

/-- C20: two runs with the same configuration whose streams give the same
values, even if only for the first `100 * nBlocks` values of each stream, have
the same outcome: the same macro coverage box, the same accepted blocks in the
same order with the same buildings, and the same counts; or the same abort after
the same accepted blocks. -/
theorem C20_same_draws_same_layout (c : Config) (sqrt075 : ℚ)
    (xStream yStream xStream2 yStream2 : ℕ → ℚ)
    (hsame : ∀ i < 100 * c.nBlocks, xStream i = xStream2 i ∧ yStream i = yStream2 i) :
    observe (deploymentLayout c sqrt075 xStream yStream) =
      observe (deploymentLayout c sqrt075 xStream2 yStream2) := by
  have hagree : AgreeUpTo (100 * c.nBlocks)
      (FemtocellBlockAllocator.new (macroUeBox c.nMacroEnbSites c.nMacroEnbSitesX
        c.interSiteDistance c.areaMarginFactor sqrt075) c.nApartmentsX c.nFloors xStream yStream)
      (FemtocellBlockAllocator.new (macroUeBox c.nMacroEnbSites c.nMacroEnbSitesX
        c.interSiteDistance c.areaMarginFactor sqrt075) c.nApartmentsX c.nFloors xStream2
        yStream2) :=
    { area := rfl, nApartmentsX := rfl, nFloors := rfl, previousBlocks := rfl, xSize := rfl
      ySize := rfl, xTaken := rfl, yTaken := rfl, grid := rfl
      xStream := fun i hi => (hsame i hi).1
      yStream := fun i hi => (hsame i hi).2 }
  have hobs := CreateN_agree c.nBlocks hagree
    (by simp [FemtocellBlockAllocator.new]) (by simp [FemtocellBlockAllocator.new])
  simp only [deploymentLayout]
  revert hobs
  cases CreateN c.nBlocks (FemtocellBlockAllocator.new (macroUeBox c.nMacroEnbSites
      c.nMacroEnbSitesX c.interSiteDistance c.areaMarginFactor sqrt075) c.nApartmentsX c.nFloors
      xStream yStream) <;>
    cases CreateN c.nBlocks (FemtocellBlockAllocator.new (macroUeBox c.nMacroEnbSites
      c.nMacroEnbSitesX c.interSiteDistance c.areaMarginFactor sqrt075) c.nApartmentsX c.nFloors
      xStream2 yStream2) <;>
    intro hobs <;> simp only [observeAllocator, observe, Except.ok.injEq, Except.error.injEq,
      Prod.mk.injEq, reduceCtorEq] at hobs ⊢
  · exact hobs
  · obtain ⟨h1, h2⟩ := hobs
    rw [h1, h2]

/-- Witness of C20: with the default configuration (one block) the streams
`100, 100, ...` and `200, 200, ...` and two streams that leave them after 100
values give the same outcome. -/
theorem C20_witness :
    (∀ i < 100 * ({} : Config).nBlocks,
      (fun _ => (100 : ℚ)) i = stepStream 100 100 999 i ∧
      (fun _ => (200 : ℚ)) i = stepStream 100 200 (-5) i) ∧
    observe (deploymentLayout {} sqrt075Double (fun _ => 100) (fun _ => 200)) =
      observe (deploymentLayout {} sqrt075Double (stepStream 100 100 999)
        (stepStream 100 200 (-5))) :=
  have hsame : ∀ i < 100 * ({} : Config).nBlocks,
      (fun _ => (100 : ℚ)) i = stepStream 100 100 999 i ∧
      (fun _ => (200 : ℚ)) i = stepStream 100 200 (-5) i := by
    intro i hi
    have hi2 : i < 100 := by simpa using hi
    simp only [stepStream, if_pos hi2, and_self]
  ⟨hsame, C20_same_draws_same_layout {} sqrt075Double _ _ _ _ hsame⟩

/-! ## Touching boxes, symmetry and the first block -/

theorem AreOverlapping_eq_true_iff (a b : Box) :
    AreOverlapping a b = true ↔
      (a.xMin ≤ b.xMax ∧ b.xMin ≤ a.xMax ∧ a.yMin ≤ b.yMax ∧ b.yMin ≤ a.yMax) := by
  rw [← Bool.not_eq_false, AreOverlapping_eq_false_iff]
  simp only [not_or, not_lt]

theorem overlaps_of_mem (s : FemtocellBlockAllocator) (a b : Box)
    (hmem : a ∈ s.m_previousBlocks) (h : AreOverlapping a b = true) :
    OverlapsWithAnyPrevious s b = true :=
  (loop_eq_true_iff b s.m_previousBlocks).2 ⟨a, hmem, h⟩

/-- C22, as stated, fails for boxes that are not well formed: the box with
`xMin = 10 > xMax = 0` and the box `(0, 5, 0, 1)` have `a.xMax = b.xMin` and the
same y range, but `AreOverlapping` is false because `a.xMin > b.xMax`. -/
theorem C22_counterexample :
    invertedBox.xMax = unitBox.xMin ∧
    invertedBox.yMin ≤ unitBox.yMax ∧ unitBox.yMin ≤ invertedBox.yMax ∧
    AreOverlapping invertedBox unitBox = false := by
  refine ⟨rfl, ?_, ?_, ?_⟩
  · simp only [invertedBox, unitBox]
    norm_num
  · simp only [invertedBox, unitBox]
    norm_num
  · rw [AreOverlapping_eq_false_iff]
    simp only [invertedBox, unitBox]
    norm_num

/-- C22, amended: for all boxes `a`, `b` with `xMin ≤ xMax` and `yMin ≤ yMax`
(as every block and every candidate has), if `a.xMax = b.xMin` and the y ranges
intersect, or `a.yMax = b.yMin` and the x ranges intersect, then
`AreOverlapping a b` is true; so a candidate that touches an accepted block on
either side is rejected; and any two accepted blocks are separated by a strictly
positive gap along the x axis or along the y axis. -/
theorem C22_touching_boxes_overlap (a b : Box)
    (ha : a.xMin ≤ a.xMax ∧ a.yMin ≤ a.yMax) (hb : b.xMin ≤ b.xMax ∧ b.yMin ≤ b.yMax) :
    (a.xMax = b.xMin → a.yMin ≤ b.yMax → b.yMin ≤ a.yMax → AreOverlapping a b = true) ∧
    (a.yMax = b.yMin → a.xMin ≤ b.xMax → b.xMin ≤ a.xMax → AreOverlapping a b = true) ∧
    (∀ s : FemtocellBlockAllocator, a ∈ s.m_previousBlocks →
      ((a.xMax = b.xMin ∨ b.xMax = a.xMin) ∧ a.yMin ≤ b.yMax ∧ b.yMin ≤ a.yMax) ∨
        ((a.yMax = b.yMin ∨ b.yMax = a.yMin) ∧ a.xMin ≤ b.xMax ∧ b.xMin ≤ a.xMax) →
      OverlapsWithAnyPrevious s b = true) ∧
    (∀ (s0 : FemtocellBlockAllocator) (calls : List Call) (s : FemtocellBlockAllocator),
      s0.m_previousBlocks = [] → runCalls calls s0 = .ok s →
      ∀ i j : Fin s.m_previousBlocks.length, i ≠ j →
        0 < (s.m_previousBlocks.get j).xMin - (s.m_previousBlocks.get i).xMax ∨
        0 < (s.m_previousBlocks.get i).xMin - (s.m_previousBlocks.get j).xMax ∨
        0 < (s.m_previousBlocks.get j).yMin - (s.m_previousBlocks.get i).yMax ∨
        0 < (s.m_previousBlocks.get i).yMin - (s.m_previousBlocks.get j).yMax) := by
  refine ⟨?_, ?_, ?_, ?_⟩
  · intro hx h1 h2
    rw [AreOverlapping_eq_true_iff]
    exact ⟨by linarith [ha.1, hb.1], by linarith, h1, h2⟩
  · intro hy h1 h2
    rw [AreOverlapping_eq_true_iff]
    exact ⟨h1, h2, by linarith [ha.2, hb.2], by linarith⟩
  · intro s hmem htouch
    apply overlaps_of_mem s a b hmem
    rw [AreOverlapping_eq_true_iff]
    rcases htouch with ⟨hx | hx, h1, h2⟩ | ⟨hy | hy, h1, h2⟩
    · exact ⟨by linarith [ha.1, hb.1], by linarith, h1, h2⟩
    · exact ⟨by linarith, by linarith [ha.1, hb.1], h1, h2⟩
    · exact ⟨h1, h2, by linarith [ha.2, hb.2], by linarith⟩
    · exact ⟨h1, h2, by linarith, by linarith [ha.2, hb.2]⟩
  · intro s0 calls s h0 hrun i j hij
    have hp := runCalls_pairwise calls s0 s (by rw [h0]; exact List.Pairwise.nil) hrun
    have hno := (noOverlap_iff_pairwise _).2 hp i j hij
    rw [AreOverlapping_eq_false_iff] at hno
    rcases hno with h | h | h | h
    · exact Or.inr (Or.inl (by linarith))
    · exact Or.inl (by linarith)
    · exact Or.inr (Or.inr (Or.inr (by linarith)))
    · exact Or.inr (Or.inr (Or.inl (by linarith)))

/-- Witness of C22: the boxes `(0, 120, 0, 70)` and `(120, 240, 70, 140)`, which
share only the corner `(120, 70)`, overlap. -/
theorem C22_witness :
    boxA.xMax = boxB.xMin ∧ boxA.yMin ≤ boxB.yMax ∧ boxB.yMin ≤ boxA.yMax ∧
    AreOverlapping boxA boxB = true :=
  have hy1 : boxA.yMin ≤ boxB.yMax := by simp only [boxA, boxB]; norm_num
  have hy2 : boxB.yMin ≤ boxA.yMax := by simp only [boxA, boxB]; norm_num
  ⟨rfl, hy1, hy2,
    (C22_touching_boxes_overlap boxA boxB (by simp only [boxA]; norm_num)
      (by simp only [boxB]; norm_num)).1 rfl hy1 hy2⟩

/-- C25: `AreOverlapping` is symmetric for all boxes, well formed or not; hence
a list of boxes in which every earlier box does not overlap any later one has no
overlap in either argument order. -/
theorem C25_areOverlapping_symmetric :
    (∀ a b : Box, AreOverlapping a b = AreOverlapping b a) ∧
    (∀ l : List Box, l.Pairwise (fun a b => AreOverlapping a b = false) →
      ∀ i j : Fin l.length, i ≠ j → AreOverlapping (l.get i) (l.get j) = false) := by
  refine ⟨?_, ?_⟩
  · intro a b
    simp only [AreOverlapping]
    cases decide (a.xMin > b.xMax) <;> cases decide (b.xMin > a.xMax) <;>
      cases decide (a.yMin > b.yMax) <;> cases decide (b.yMin > a.yMax) <;> rfl
  · intro l hl
    exact (noOverlap_iff_pairwise l).2 hl

/-- C26: on an allocator with no accepted blocks `Create()` does not abort: it
accepts the very first candidate, whatever the area, the block size and the
values of the streams are, and takes exactly one value from each stream; so
`Create(1)` on a fresh allocator completes, and so does the deployment for
`nBlocks = 1`. -/
theorem C26_first_block_always_accepted :
    (∀ s : FemtocellBlockAllocator, s.m_previousBlocks = [] →
      ∃ t, Create s = .ok t ∧ t.m_previousBlocks = [candidate s 0] ∧
        t.m_xMinVar.taken = s.m_xMinVar.taken + 1 ∧
        t.m_yMinVar.taken = s.m_yMinVar.taken + 1) ∧
    (∀ (area : Box) (nApartmentsX nFloors : ℕ) (xStream yStream : ℕ → ℚ),
      ∃ t, CreateN 1 (FemtocellBlockAllocator.new area nApartmentsX nFloors xStream yStream)
          = .ok t ∧
        t.m_previousBlocks =
          [{ xMin := xStream 0
             xMax := xStream 0 + (((nApartmentsX * 10 + 20) % 2 ^ 32 : ℕ) : ℚ)
             yMin := yStream 0
             yMax := yStream 0 + 70 }]) ∧
    (∀ (c : Config) (sqrt075 : ℚ) (xStream yStream : ℕ → ℚ), c.nBlocks = 1 →
      ∃ l, deploymentLayout c sqrt075 xStream yStream = .ok l) := by
  have hfirst : ∀ s : FemtocellBlockAllocator, s.m_previousBlocks = [] →
      Create s = .ok (Create.finish (s.afterDraws 1) (candidate s 0)) := by
    intro s hs
    apply Create_accept s 0 (by omega) (by intro k hk; omega)
    simp only [OverlapsWithAnyPrevious, hs, OverlapsWithAnyPrevious.loop]
  refine ⟨?_, ?_, ?_⟩
  · intro s hs
    refine ⟨_, hfirst s hs, ?_, rfl, rfl⟩
    simp only [Create.finish, FemtocellBlockAllocator.afterDraws, hs, List.nil_append]
  · intro area nApartmentsX nFloors xStream yStream
    refine ⟨Create.finish
      ((FemtocellBlockAllocator.new area nApartmentsX nFloors xStream yStream).afterDraws 1)
      (candidate (FemtocellBlockAllocator.new area nApartmentsX nFloors xStream yStream) 0),
      ?_, ?_⟩
    · simp only [CreateN]
      rw [hfirst _ rfl]
    · simp [Create.finish, FemtocellBlockAllocator.afterDraws, FemtocellBlockAllocator.new,
        candidate, candidateOf]
  · intro c sqrt075 xStream yStream hc
    simp only [deploymentLayout, hc, CreateN]
    rw [hfirst _ rfl]
    exact ⟨_, rfl⟩

/-- Witness of C25: the test is symmetric also on the box with `xMin > xMax`. -/
theorem C25_witness : AreOverlapping invertedBox unitBox = AreOverlapping unitBox invertedBox :=
  C25_areOverlapping_symmetric.1 invertedBox unitBox

/-- Witness of C26: the first `Create()` of the scenario allocator completes
with the single block `(100, 220, 200, 270)`. -/
theorem C26_witness :
    scenarioAllocator.m_previousBlocks = [] ∧
    ∃ t, Create scenarioAllocator = .ok t ∧
      t.m_previousBlocks = [candidate scenarioAllocator 0] ∧
      t.m_xMinVar.taken = scenarioAllocator.m_xMinVar.taken + 1 ∧
      t.m_yMinVar.taken = scenarioAllocator.m_yMinVar.taken + 1 :=
  ⟨rfl, C26_first_block_always_accepted.1 scenarioAllocator rfl⟩

/-! ## Rounding of the half, and the buildings inside a block -/

/-- C23, as stated, fails. With `nApartmentsX = 25`, `nBlocks = 1`, `nFloors = 3`
and the ratios `0.55` and `0.7` the exact product is `115 + 1 / 2`, but the
product evaluated in `double` arithmetic is just below it and `nHomeEnbs` is
`115`, not `116`. It also fails when the `uint32_t` product wraps: with
`nApartmentsX = 2 ^ 30`, `nBlocks = nFloors = 1` and the ratios `0.5` and
`2 ^ (-32)` the exact product is `0 + 1 / 2`, but `nHomeEnbs` is `0`, not `1`. -/
theorem C23_counterexample :
    (4 : ℚ) * 25 * 1 * 3 * 0.55 * 0.7 = ((115 : ℕ) : ℚ) + 1 / 2 ∧
    nHomeEnbs 25 1 3 0.55 0.7 = some 115 ∧
    nHomeEnbs 25 1 3 0.55 0.7 ≠ some (115 + 1) ∧
    (4 : ℚ) * 1073741824 * 1 * 1 * 0.5 * (1 / 4294967296) = ((0 : ℕ) : ℚ) + 1 / 2 ∧
    nHomeEnbs 1073741824 1 1 0.5 (1 / 4294967296) = some 0 ∧
    nHomeEnbs 1073741824 1 1 0.5 (1 / 4294967296) ≠ some (0 + 1) := by
  refine ⟨by norm_num, nHomeEnbs_25_1_3, ?_, by norm_num, nHomeEnbs_wrapped _ _, ?_⟩
  · rw [nHomeEnbs_25_1_3]
    decide
  · rw [nHomeEnbs_wrapped]
    decide

/-- C23, amended: when `4 * nApartmentsX * nBlocks * nFloors < 2 ^ 32` and the
product `4 * nApartmentsX * nBlocks * nFloors * homeEnbDeploymentRatio *
homeEnbActivationRatio`, evaluated in `double` arithmetic (each of the two
multiplications by a ratio rounded to a `double`), equals `k + 1 / 2` for a
natural number `k` with `k + 1 < 2 ^ 32`, `nHomeEnbs` is `k + 1`: the half is
rounded away from zero. -/
theorem C23_half_rounds_up (nApartmentsX nBlocks nFloors k : ℕ)
    (homeEnbDeploymentRatio homeEnbActivationRatio : ℚ)
    (hprod : 4 * nApartmentsX * nBlocks * nFloors < 2 ^ 32) (hk : k + 1 < 2 ^ 32) (p : ℚ)
    (hp : mulDouble ((4 * nApartmentsX * nBlocks * nFloors : ℕ) : ℚ)
      (roundToDouble homeEnbDeploymentRatio) = some p)
    (hhalf : mulDouble p (roundToDouble homeEnbActivationRatio) = some ((k : ℚ) + 1 / 2)) :
    nHomeEnbs nApartmentsX nBlocks nFloors homeEnbDeploymentRatio homeEnbActivationRatio
      = some (k + 1) := by
  have hq := (homeEnbProduct_eq_some nApartmentsX nBlocks nFloors homeEnbDeploymentRatio
    homeEnbActivationRatio ((k : ℚ) + 1 / 2) hprod).2 ⟨p, hp, hhalf⟩
  simp only [nHomeEnbs, hq, Option.some_bind]
  exact toUint32_round_eq _ (k + 1) hk (by positivity) (by push_cast; linarith)
    (by push_cast; linarith)

/-- Witness of C23: one apartment with the ratios `0.5` and `0.25` (product
`0.5`, exact in `double` arithmetic) gives `nHomeEnbs = 1`, and with `0.5` and
`1.25` (product `2.5`) gives `3`. -/
theorem C23_witness :
    nHomeEnbs 1 1 1 0.5 0.25 = some (0 + 1) ∧ nHomeEnbs 1 1 1 0.5 1.25 = some (2 + 1) :=
  have e : ((4 * 1 * 1 * 1 : ℕ) : ℚ) = 4 := by norm_num
  ⟨C23_half_rounds_up 1 1 1 0 0.5 0.25 (by norm_num) (by norm_num) 2
      (by rw [e, double_0_5]; exact mul_4_0_5)
      (by rw [double_0_25, mul_2_0_25]; norm_num),
    C23_half_rounds_up 1 1 1 2 0.5 1.25 (by norm_num) (by norm_num) 2
      (by rw [e, double_0_5]; exact mul_4_0_5)
      (by rw [double_1_25, mul_2_1_25]; norm_num)⟩

/-- The attach loop over a non-empty list of home eNB devices never
dereferences the end iterator, and the UE at position `i` is attached to the eNB
at position `(e + i) mod n`, where `e` is the start of the eNB iterator. -/
theorem attachLoop_spec {α β : Type} (homeEnbDevs : List β) (hpos : 0 < homeEnbDevs.length) :
    ∀ (homeUeDevs : List α) (e : ℕ), e ≤ homeEnbDevs.length →
      ∃ attached, attachLoop homeEnbDevs homeUeDevs e = some attached ∧
        attached.length = homeUeDevs.length ∧
        ∀ (i : ℕ) (ueDev : α), homeUeDevs[i]? = some ueDev →
          ∃ enbDev, homeEnbDevs[(e + i) % homeEnbDevs.length]? = some enbDev ∧
            attached[i]? = some (ueDev, enbDev) := by
  intro homeUeDevs
  induction homeUeDevs with
  | nil =>
    intro e _
    exact ⟨[], rfl, rfl, by intro i ueDev h; simp at h⟩
  | cons u rest ih =>
    intro e he
    have hlt : (if e = homeEnbDevs.length then 0 else e) < homeEnbDevs.length := by
      split <;> omega
    have hmod : (if e = homeEnbDevs.length then 0 else e) = e % homeEnbDevs.length := by
      split
      · rename_i h
        rw [h, Nat.mod_self]
      · rw [Nat.mod_eq_of_lt (by omega)]
    obtain ⟨attached, hatt, hlen, hget⟩ :=
      ih ((if e = homeEnbDevs.length then 0 else e) + 1) (by omega)
    have hsome : homeEnbDevs[if e = homeEnbDevs.length then 0 else e]? =
        some (homeEnbDevs.get ⟨_, hlt⟩) := by
      rw [List.getElem?_eq_getElem hlt]
      rfl
    refine ⟨(u, homeEnbDevs.get ⟨_, hlt⟩) :: attached, ?_, by simp [hlen], ?_⟩
    · simp only [attachLoop, hsome, hatt]
    · intro i ueDev hi
      cases i with
      | zero =>
        simp only [List.getElem?_cons_zero, Option.some.injEq] at hi
        subst hi
        refine ⟨homeEnbDevs.get ⟨_, hlt⟩, ?_, by simp⟩
        rw [Nat.add_zero, ← hmod]
        exact hsome
      | succ i =>
        simp only [List.getElem?_cons_succ] at hi
        obtain ⟨enbDev, h1, h2⟩ := hget i ueDev hi
        refine ⟨enbDev, ?_, by simpa using h2⟩
        rw [← h1]
        congr 1
        rw [hmod, show e + (i + 1) = e + 1 + i by omega, Nat.add_mod (e % homeEnbDevs.length + 1) i,
          Nat.add_mod (e + 1) i, Nat.add_mod (e % homeEnbDevs.length) 1, Nat.add_mod e 1,
          Nat.mod_mod]

/-- C29: for `nHomeEnbs ≥ 1` the attach loop completes with one attachment per
home UE device, and the home UE device number `i` is attached to the home eNB
device number `i mod nHomeEnbs`. -/
theorem C29_home_ues_attached_round_robin (nHomeEnbs nHomeUes : ℕ) (h : 1 ≤ nHomeEnbs) :
    ∃ attached, attachHomeUes nHomeEnbs nHomeUes = some attached ∧
      attached.length = nHomeUes ∧
      ∀ i, i < nHomeUes → attached[i]? = some (i, i % nHomeEnbs) := by
  obtain ⟨attached, hatt, hlen, hget⟩ :=
    attachLoop_spec (List.range nHomeEnbs) (by rw [List.length_range]; omega)
      (List.range nHomeUes) 0 (Nat.zero_le _)
  refine ⟨attached, hatt, by rw [hlen, List.length_range], ?_⟩
  intro i hi
  obtain ⟨enbDev, h1, h2⟩ := hget i i (List.getElem?_range hi)
  rw [List.length_range, Nat.zero_add,
    List.getElem?_range (Nat.mod_lt i (by omega))] at h1
  rw [h2, ← Option.some.inj h1]

/-- Witness of C29: with two home eNBs and five home UEs the attachments are
`0-0, 1-1, 2-0, 3-1, 4-0`. -/
theorem C29_witness :
    ∃ attached, attachHomeUes 2 5 = some attached ∧ attached.length = 5 ∧
      ∀ i, i < 5 → attached[i]? = some (i, i % 2) :=
  C29_home_ues_attached_round_robin 2 5 (by decide)

/-- C27: for every `homeUesHomeEnbRatio`, `nHomeEnbs = 0` gives `nHomeUes = 0`,
and a positive `nHomeUes` needs a positive `nHomeEnbs`; so it is in every
layout, and the attach loop of the home UEs never dereferences the end iterator
of the home eNB devices. -/
theorem C27_no_home_ue_without_home_enb (homeUesHomeEnbRatio : ℚ) :
    nHomeUes 0 homeUesHomeEnbRatio = some 0 ∧
    (∀ n k, nHomeUes n homeUesHomeEnbRatio = some k → 0 < k → 0 < n) ∧
    (∀ (c : Config) (sqrt075 : ℚ) (xStream yStream : ℕ → ℚ) (l : DeploymentLayout),
      deploymentLayout c sqrt075 xStream yStream = .ok l →
      l.nHomeEnbs = some 0 → l.nHomeUes = some 0) ∧
    (∀ n k, nHomeUes n homeUesHomeEnbRatio = some k →
      ∃ attached, attachHomeUes n k = some attached ∧ attached.length = k) := by
  have hzero : ∀ n k, nHomeUes n homeUesHomeEnbRatio = some k → 0 < k → 0 < n := by
    intro n k hk hpos
    by_contra hn
    have hn0 : n = 0 := by omega
    subst hn0
    rw [nHomeUes_zero] at hk
    have := Option.some.inj hk
    omega
  refine ⟨nHomeUes_zero _, hzero, ?_, ?_⟩
  · intro c sqrt075 xStream yStream l hl hz
    obtain ⟨s, -, rfl⟩ := deploymentLayout_ok c sqrt075 xStream yStream l hl
    simp only at hz ⊢
    rw [hz]
    exact nHomeUes_zero _
  · intro n k hk
    by_cases hn : n = 0
    · subst hn
      rw [nHomeUes_zero] at hk
      have hk0 : k = 0 := (Option.some.inj hk).symm
      subst hk0
      exact ⟨[], rfl, rfl⟩
    · obtain ⟨attached, hatt, hlen, -⟩ :=
        attachLoop_spec (List.range n) (by rw [List.length_range]; omega) (List.range k) 0
          (Nat.zero_le _)
      exact ⟨attached, hatt, by rw [hlen, List.length_range]⟩

/-- Witness of C27: with the default ratio `1.0`, no home eNB gives no home UE
and an attach loop that does nothing. -/
theorem C27_witness :
    nHomeUes 0 1.0 = some 0 ∧
    ∃ attached, attachHomeUes 0 0 = some attached ∧ attached.length = 0 :=
  ⟨(C27_no_home_ue_without_home_enb 1.0).1,
    (C27_no_home_ue_without_home_enb 1.0).2.2.2 0 0 (C27_no_home_ue_without_home_enb 1.0).1⟩

/-! ## Home eNBs and apartments -/

theorem rooms_sum (nApartmentsX nFloors : ℕ) (blocks : List Box) :
    ((blocks.map (gridBuildingAllocatorFor nApartmentsX nFloors)).map
      GridBuildingAllocator.rooms).sum = blocks.length * (2 * (nApartmentsX * 2 * nFloors)) := by
  induction blocks with
  | nil => simp
  | cons b rest ih =>
    simp only [List.map_cons, List.sum_cons, ih, List.length_cons]
    simp only [GridBuildingAllocator.rooms, gridBuildingAllocatorFor]
    ring

/-- C28: when both ratios lie in `[0, 1]` and
`4 * nApartmentsX * nBlocks * nFloors < 2 ^ 32`, `nHomeEnbs` is at most
`4 * nApartmentsX * nBlocks * nFloors`, and this bound is the total number of
rooms of the buildings that a completed `Create(nBlocks)` has asked for: two
buildings of `nApartmentsX × 2` rooms on `nFloors` floors for each block. -/
theorem C28_home_enbs_at_most_rooms (nApartmentsX nBlocks nFloors : ℕ)
    (homeEnbDeploymentRatio homeEnbActivationRatio : ℚ)
    (h1 : 0 ≤ homeEnbDeploymentRatio ∧ homeEnbDeploymentRatio ≤ 1)
    (h2 : 0 ≤ homeEnbActivationRatio ∧ homeEnbActivationRatio ≤ 1)
    (hprod : 4 * nApartmentsX * nBlocks * nFloors < 2 ^ 32) :
    (∃ k, nHomeEnbs nApartmentsX nBlocks nFloors homeEnbDeploymentRatio homeEnbActivationRatio
        = some k ∧ k ≤ 4 * nApartmentsX * nBlocks * nFloors) ∧
    (∀ (area : Box) (xStream yStream : ℕ → ℚ) (t : FemtocellBlockAllocator),
      CreateN nBlocks (FemtocellBlockAllocator.new area nApartmentsX nFloors xStream yStream)
        = .ok t →
      t.m_gridBuildingAllocators.length = nBlocks ∧
      (t.m_gridBuildingAllocators.map GridBuildingAllocator.rooms).sum =
        4 * nApartmentsX * nBlocks * nFloors) := by
  constructor
  · have hN : (0 : ℚ) ≤ ((4 * nApartmentsX * nBlocks * nFloors : ℕ) : ℚ) := Nat.cast_nonneg _
    have hNlt : ((4 * nApartmentsX * nBlocks * nFloors : ℕ) : ℚ) + 1 ≤ 2 ^ 32 := by
      exact_mod_cast hprod
    obtain ⟨hd1a, hd1b⟩ := roundToDouble_unit h1.1 h1.2
    obtain ⟨hd2a, hd2b⟩ := roundToDouble_unit h2.1 h2.2
    obtain ⟨p, hp, hp0, hpN⟩ := mulDouble_le_natCast _ hprod _ _ hN (le_refl _) hd1a hd1b
    obtain ⟨q, hq, hq0, hqN⟩ := mulDouble_le_natCast _ hprod _ _ hp0 hpN hd2a hd2b
    obtain ⟨k, hk, -, -, hlo, -⟩ := toUint32_round_of_nonneg q hq0 (by linarith)
    refine ⟨k, ?_, ?_⟩
    · simp only [nHomeEnbs, homeEnbProduct, wrapped_product, Nat.mod_eq_of_lt hprod, hp,
        Option.some_bind, hq]
      exact hk
    · have hkq : (k : ℚ) < ((4 * nApartmentsX * nBlocks * nFloors : ℕ) : ℚ) + 1 := by linarith
      have : k < 4 * nApartmentsX * nBlocks * nFloors + 1 := by exact_mod_cast hkq
      omega
  · intro area xStream yStream t ht
    have hrun : runCalls [Call.createN nBlocks]
        (FemtocellBlockAllocator.new area nApartmentsX nFloors xStream yStream) = .ok t := by
      rw [runCalls_createN, ht]
    have hgrid := runCalls_grid _ _ t rfl hrun
    obtain ⟨added, hlen, hadd⟩ := CreateN_blocks nBlocks _ t ht
    simp only [FemtocellBlockAllocator.new, List.nil_append] at hgrid hadd
    rw [hgrid, rooms_sum, List.length_map, hadd, hlen]
    exact ⟨rfl, by ring⟩

/-- Witness of C28: with the default ratios `0.2` and `0.5`, ten apartments, two
blocks and one floor there are at most `80` home eNBs, and the two blocks of the
scenario have `80` rooms. -/
theorem C28_witness :
    (∃ k, nHomeEnbs 10 2 1 0.2 0.5 = some k ∧ k ≤ 4 * 10 * 2 * 1) ∧
    scenarioResult.m_gridBuildingAllocators.length = 2 ∧
    (scenarioResult.m_gridBuildingAllocators.map GridBuildingAllocator.rooms).sum
      = 4 * 10 * 2 * 1 :=
  have h := C28_home_enbs_at_most_rooms 10 2 1 0.2 0.5 (by norm_num) (by norm_num) (by norm_num)
  ⟨h.1, h.2 scenarioArea (stepStream 2 100 500) (fun _ => 200) scenarioResult scenario_createN⟩

/-! ## The mobility of the macro UEs -/

theorem toUint16_of_nonneg (v : ℚ) (h0 : 0 ≤ v) (h1 : v < 65536) :
    toUint16 v = some ⌊v⌋.toNat := by
  have hrange : -1 < v ∧ v < 65536 := ⟨by linarith, h1⟩
  simp only [toUint16, if_pos hrange, if_pos h0]

theorem floor_toNat_cast (v : ℚ) (h0 : 0 ≤ v) : ((⌊v⌋.toNat : ℕ) : ℚ) = ((⌊v⌋ : ℤ) : ℚ) := by
  rw [← Int.cast_natCast, Int.toNat_of_nonneg (Int.floor_nonneg.2 h0)]

/-- C30: the macro UE mobility depends only on the integer part of the
configured `outdoorUeMaxSpeed`, which is truncated to `uint16_t` before the test
`!= 0.0`. Every speed `v` with `0 ≤ v < 1` gives constant positions drawn
uniformly in the macro coverage box; every `v` with `1 ≤ v < 65536` gives the
steady-state random-waypoint model with `MaxSpeed = floor(v)`; and two speeds
in `[0, 65536)` with the same integer part give the same set-up. (`q` is the
configured `outdoorUeMinSpeed` and `m` its `uint16_t` value.) -/
theorem C30_mobility_from_truncated_speed (v q : ℚ) (m : ℕ) (hq : toUint16 q = some m)
    (macroUeBox : Box) :
    (0 ≤ v → v < 1 →
      toUint16 v = some 0 ∧
      macroUeMobilityOf q v macroUeBox =
        some (.constantPosition macroUeBox.xMin macroUeBox.xMax macroUeBox.yMin macroUeBox.yMax
          macroUeBox.zMin macroUeBox.zMax)) ∧
    (1 ≤ v → v < 65536 →
      toUint16 v = some ⌊v⌋.toNat ∧
      macroUeMobilityOf q v macroUeBox =
        some (.steadyStateRandomWaypoint macroUeBox.xMin macroUeBox.yMin macroUeBox.xMax
          macroUeBox.yMax 1.5 ((⌊v⌋ : ℤ) : ℚ) (m : ℚ))) ∧
    (∀ w : ℚ, 0 ≤ v → v < 65536 → 0 ≤ w → w < 65536 → ⌊v⌋ = ⌊w⌋ →
      macroUeMobilityOf q v macroUeBox = macroUeMobilityOf q w macroUeBox) := by
  refine ⟨?_, ?_, ?_⟩
  · intro h0 h1
    have hfloor : ⌊v⌋ = 0 := by
      rw [Int.floor_eq_iff]
      constructor
      · simpa using h0
      · simpa using h1
    have hconv : toUint16 v = some 0 := by
      rw [toUint16_of_nonneg v h0 (by linarith), hfloor]
      rfl
    refine ⟨hconv, ?_⟩
    simp only [macroUeMobilityOf, hq, hconv, macroUeMobility]
    norm_num
  · intro h1 h2
    have h0 : 0 ≤ v := by linarith
    have hconv := toUint16_of_nonneg v h0 h2
    refine ⟨hconv, ?_⟩
    have hpos : (1 : ℤ) ≤ ⌊v⌋ := by
      rw [Int.le_floor]
      simpa using h1
    have hne : ((⌊v⌋ : ℤ) : ℚ) ≠ 0.0 := by
      have hgt : (0 : ℚ) < ((⌊v⌋ : ℤ) : ℚ) := by exact_mod_cast hpos
      have h00 : (0.0 : ℚ) = 0 := by norm_num
      rw [h00]
      exact ne_of_gt hgt
    simp only [macroUeMobilityOf, hq, hconv, macroUeMobility, floor_toNat_cast v h0, if_pos hne]
  · intro w hv0 hv1 hw0 hw1 hfloor
    simp only [macroUeMobilityOf, toUint16_of_nonneg v hv0 hv1, toUint16_of_nonneg w hw0 hw1,
      hfloor]

/-- Witness of C30: with the default minimum speed `0`, the maximum speed `0.5`
gives constant positions and `1.7` gives the random-waypoint model with
`MaxSpeed = floor(1.7)`. -/
theorem C30_witness :
    toUint16 0 = some 0 ∧
    macroUeMobilityOf 0 0.5 fallbackArea =
      some (.constantPosition fallbackArea.xMin fallbackArea.xMax fallbackArea.yMin
        fallbackArea.yMax fallbackArea.zMin fallbackArea.zMax) ∧
    macroUeMobilityOf 0 1.7 fallbackArea =
      some (.steadyStateRandomWaypoint fallbackArea.xMin fallbackArea.yMin fallbackArea.xMax
        fallbackArea.yMax 1.5 ((⌊(1.7 : ℚ)⌋ : ℤ) : ℚ) ((0 : ℕ) : ℚ)) :=
  have hq : toUint16 0 = some 0 := by
    simp only [toUint16]
    norm_num
  ⟨hq,
    ((C30_mobility_from_truncated_speed 0.5 0 0 hq fallbackArea).1 (by norm_num)
      (by norm_num)).2,
    ((C30_mobility_from_truncated_speed 1.7 0 0 hq fallbackArea).2.1 (by norm_num)
      (by norm_num)).2⟩

/-! ## The lattice of the macro sites -/

theorem site_div_mod_succ (d i : ℕ) (hd : 0 < d) :
    (i % d + 1 < d ∧ (i + 1) / d = i / d ∧ (i + 1) % d = i % d + 1) ∨
    (i % d + 1 = d ∧ (i + 1) / d = i / d + 1 ∧ (i + 1) % d = 0) := by
  have hdiv := Nat.div_add_mod i d
  have hmod := Nat.mod_lt i hd
  by_cases h : i % d + 1 < d
  · left
    have := (Nat.div_mod_unique hd).2
      (show (i % d + 1) + d * (i / d) = i + 1 ∧ i % d + 1 < d from ⟨by omega, h⟩)
    exact ⟨h, this.1, this.2⟩
  · right
    have hd1 : i % d + 1 = d := by omega
    have := (Nat.div_mod_unique hd).2
      (show 0 + d * (i / d + 1) = i + 1 ∧ 0 < d from ⟨by rw [Nat.mul_add]; omega, hd⟩)
    exact ⟨hd1, this.1, this.2⟩

/-- Two consecutive sites of one row are in consecutive columns. -/
theorem siteColumn_succ (gridWidth i : ℕ)
    (hrow : siteRow gridWidth (i + 1) = siteRow gridWidth i) :
    siteColumn gridWidth (i + 1) = siteColumn gridWidth i + 1 := by
  simp only [siteRow, siteColumn] at hrow ⊢
  rcases site_div_mod_succ (2 * gridWidth + 1) i (by omega) with ⟨h1, h2, h3⟩ | ⟨h1, h2, h3⟩
  · rw [h2, h3] at hrow
    rw [h3]
    generalize i % (2 * gridWidth + 1) = m at *
    generalize i / (2 * gridWidth + 1) = q at *
    split_ifs at hrow ⊢ <;> omega
  · rw [h2, h3] at hrow
    generalize i % (2 * gridWidth + 1) = m at *
    generalize i / (2 * gridWidth + 1) = q at *
    split_ifs at hrow <;> omega

theorem site_width_one (q : ℕ) :
    (siteRow 1 (3 * q) = 2 * q ∧ siteColumn 1 (3 * q) = 0) ∧
    (siteRow 1 (3 * q + 1) = 2 * q + 1 ∧ siteColumn 1 (3 * q + 1) = 0) ∧
    (siteRow 1 (3 * q + 2) = 2 * q + 1 ∧ siteColumn 1 (3 * q + 2) = 1) := by
  simp only [siteRow, siteColumn, show 2 * 1 + 1 = 3 from rfl]
  have a1 : 3 * q / 3 = q := by omega
  have a2 : 3 * q % 3 = 0 := by omega
  have b1 : (3 * q + 1) / 3 = q := by omega
  have b2 : (3 * q + 1) % 3 = 1 := by omega
  have c1 : (3 * q + 2) / 3 = q := by omega
  have c2 : (3 * q + 2) % 3 = 2 := by omega
  rw [a1, a2, b1, b2, c1, c2]
  simp

/-- C21: the macro sites form a triangular lattice. The row after a row lies
`interSiteDistance * sqrt075` higher; the next column of a row, which is where
the next site of the row is, lies `interSiteDistance` further; a site of an odd
row lies `interSiteDistance / 2` before the site of the same column of an even
row. With `nMacroEnbSitesX = 1` the rows hold one and two sites in turn: site
`3 q` at `minX` in row `2 q`, and the sites `3 q + 1` and `3 q + 2` at
`minX - interSiteDistance / 2` and `minX + interSiteDistance / 2` in row
`2 q + 1`. -/
theorem C21_sites_form_triangular_lattice (interSiteDistance minX minY sqrt075 : ℚ)
    (gridWidth : ℕ) :
    (∀ i j, siteRow gridWidth j = siteRow gridWidth i + 1 →
      (sitePosition interSiteDistance minX minY sqrt075 gridWidth j).2 -
        (sitePosition interSiteDistance minX minY sqrt075 gridWidth i).2
        = interSiteDistance * sqrt075) ∧
    (∀ i j, siteRow gridWidth j = siteRow gridWidth i →
      siteColumn gridWidth j = siteColumn gridWidth i + 1 →
      (sitePosition interSiteDistance minX minY sqrt075 gridWidth j).1 -
        (sitePosition interSiteDistance minX minY sqrt075 gridWidth i).1
        = interSiteDistance) ∧
    (∀ i, siteRow gridWidth (i + 1) = siteRow gridWidth i →
      (sitePosition interSiteDistance minX minY sqrt075 gridWidth (i + 1)).1 -
        (sitePosition interSiteDistance minX minY sqrt075 gridWidth i).1
        = interSiteDistance) ∧
    (∀ i j, siteRow gridWidth i % 2 = 0 → siteRow gridWidth j % 2 = 1 →
      siteColumn gridWidth i = siteColumn gridWidth j →
      (sitePosition interSiteDistance minX minY sqrt075 gridWidth i).1 -
        (sitePosition interSiteDistance minX minY sqrt075 gridWidth j).1
        = interSiteDistance / 2) ∧
    (∀ q : ℕ,
      sitePosition interSiteDistance minX minY sqrt075 1 (3 * q) =
        (minX, minY + ((2 * q : ℕ) : ℚ) * interSiteDistance * sqrt075) ∧
      sitePosition interSiteDistance minX minY sqrt075 1 (3 * q + 1) =
        (minX - interSiteDistance / 2,
          minY + ((2 * q + 1 : ℕ) : ℚ) * interSiteDistance * sqrt075) ∧
      sitePosition interSiteDistance minX minY sqrt075 1 (3 * q + 2) =
        (minX + interSiteDistance / 2,
          minY + ((2 * q + 1 : ℕ) : ℚ) * interSiteDistance * sqrt075)) := by
  have hcol : ∀ i j, siteRow gridWidth j = siteRow gridWidth i →
      siteColumn gridWidth j = siteColumn gridWidth i + 1 →
      (sitePosition interSiteDistance minX minY sqrt075 gridWidth j).1 -
        (sitePosition interSiteDistance minX minY sqrt075 gridWidth i).1
        = interSiteDistance := by
    intro i j hrow hc
    simp only [sitePosition, hrow, hc]
    push_cast
    ring
  refine ⟨?_, hcol, ?_, ?_, ?_⟩
  · intro i j hrow
    simp only [sitePosition, hrow]
    push_cast
    ring
  · intro i hrow
    exact hcol i (i + 1) hrow (siteColumn_succ gridWidth i hrow)
  · intro i j hi hj hc
    have hi1 : ¬ siteRow gridWidth i % 2 = 1 := by omega
    simp only [sitePosition, hc, if_neg hi1, if_pos hj]
    ring
  · intro q
    obtain ⟨⟨r0, c0⟩, ⟨r1, c1⟩, ⟨r2, c2⟩⟩ := site_width_one q
    have e0 : ¬ 2 * q % 2 = 1 := by omega
    have e1 : (2 * q + 1) % 2 = 1 := by omega
    simp only [sitePosition, r0, c0, r1, c1, r2, c2, if_neg e0, if_pos e1]
    refine ⟨?_, ?_, ?_⟩
    · congr 1
      push_cast
      ring
    · congr 1
      push_cast
      ring
    · congr 1
      push_cast
      ring

/-- Witness of C21: with `InterSiteDistance = 500`, `MinX = 250` and
`GridWidth = 1`, as `main` configures them by default, the first three sites are
at `(250, 0)`, `(0, 500 * sqrt075)` and `(500, 500 * sqrt075)`. -/
theorem C21_witness :
    sitePosition 500 250 0 sqrt075Double 1 (3 * 0) =
      (250, 0 + ((2 * 0 : ℕ) : ℚ) * 500 * sqrt075Double) ∧
    sitePosition 500 250 0 sqrt075Double 1 (3 * 0 + 1) =
      (250 - 500 / 2, 0 + ((2 * 0 + 1 : ℕ) : ℚ) * 500 * sqrt075Double) ∧
    sitePosition 500 250 0 sqrt075Double 1 (3 * 0 + 2) =
      (250 + 500 / 2, 0 + ((2 * 0 + 1 : ℕ) : ℚ) * 500 * sqrt075Double) :=
  (C21_sites_form_triangular_lattice 500 250 0 sqrt075Double 1).2.2.2.2 0

end LenaDualStripe
